import Mathlib

/-!
# SPFresh flat vector index: quantization codec, append-only store, linear-scan search

Shallow embedding of `src/backend/spfresh/src/spfresh.cpp` (single-file layout,
`QUANTIZATION_LEVELS = 255`) and `src/backend/spfresh_local/src/spfresh.cpp`
(split-file layout with a write buffer, `QUANTIZATION_LEVELS = 127`).

Conventions of the embedding.

* A C++ `float` is a rational number; every arithmetic operation returns the exact
  result rounded to the nearest binary32 value, ties to even (`F32.rnd`), without
  contraction of a product and a sum into one operation.  Only finite values are
  modelled: infinities and NaN have no representation, a result too large for binary32
  is rounded like any other value, and a division by zero yields 0.
* `uint8_t`, `uint32_t` and `size_t` values are natural numbers; a conversion that
  narrows is written with an explicit `%`.
* A `const float*` argument is a list; element `j` is read with `getD j 0`.
* One thread calls the index.  `std::mutex` is not recursive: a member function that
  calls `save_index` while it still holds the `std::lock_guard` on `mtx` (`append` in the
  single-file layout, the repair branch of `load_index` in the split-file layout) waits
  for ever in the `lock_guard` of `save_index` (`lock_guard`, `save_index_call`).  A call
  that does not return has the result `none`; the index and the files that go with it
  are those at the moment the call blocks.
* Storage for the three vectors of an index is requested from the allocator of the
  platform (`Heap`) where the source handles the failure, in `spfresh_index_create`;
  everywhere else, and for strings, streams and the index object, storage is granted.
-/

namespace SPFresh

/-! ## binary32 arithmetic -/

namespace F32

/-- Nearest integer to `y`, a tie going to the even neighbour. -/
def roundHalfEven (y : ℚ) : ℤ :=
  let f := ⌊y⌋
  if y - f < 1 / 2 then f
  else if 1 / 2 < y - f then f + 1
  else if f % 2 = 0 then f else f + 1

/-- Exponent of the binade of `x`: `⌊log₂ |x|⌋`, not below the smallest normal
exponent `-126` (below it the spacing of binary32 values stays `2 ^ (-149)`). -/
def expo (x : ℚ) : ℤ := max (Int.log 2 |x|) (-126)

/-- Spacing of binary32 values in the binade of `x` (24 significant bits). -/
def ulp (x : ℚ) : ℚ := 2 ^ (expo x - 23)

/-- Round to nearest binary32 value, ties to even. -/
def rnd (x : ℚ) : ℚ := (roundHalfEven (x / ulp x) : ℚ) * ulp x

/-- Float addition `a + b`. -/
def add (a b : ℚ) : ℚ := rnd (a + b)

/-- Float subtraction `a - b`. -/
def sub (a b : ℚ) : ℚ := rnd (a - b)

/-- Float multiplication `a * b`. -/
def mul (a b : ℚ) : ℚ := rnd (a * b)

/-- Float division `a / b`. -/
def div (a b : ℚ) : ℚ := rnd (a / b)

/-- Conversion of an unsigned integer to `float`. -/
def ofNat (n : ℕ) : ℚ := rnd (n : ℚ)

/-- Conversion `static_cast<uint8_t>(x)`: truncation toward zero.  The conversion is
defined in C++ for `-1 < x < 256`; the reduction modulo 256 only makes the model total. -/
def toUInt8 (x : ℚ) : ℕ := ⌊x⌋.toNat % 256

/-- Correctly rounded square root `std::sqrt(x)` of a non-negative float.  With
`u` the spacing in the binade of `√x`, the integer part of `√x / u` is an integer square
root and the rounding direction is decided by comparing with the midpoint. -/
def sqrt (x : ℚ) : ℚ :=
  if x ≤ 0 then 0
  else
    let e : ℤ := Int.log 2 x / 2
    let u : ℚ := 2 ^ (e - 23)
    let y2 : ℚ := x / (u * u)
    let k : ℕ := Nat.sqrt ⌊y2⌋₊
    let mid : ℚ := ((k : ℚ) + 1 / 2) ^ 2
    let m : ℕ := if y2 < mid then k else if mid < y2 then k + 1 else if k % 2 = 0 then k else k + 1
    (m : ℚ) * u

/-- A rational is a binary32 value when rounding leaves it unchanged. -/
def IsFloat (x : ℚ) : Prop := rnd x = x

end F32

/-! ## Quantization codec -/

/-- Source constant `MIN_VAL = -2.0f`. -/
def MIN_VAL : ℚ := -2

/-- Source constant `MAX_VAL = 2.0f`. -/
def MAX_VAL : ℚ := 2

/-- `std::min(a, b)`: returns `b` when `b < a`, otherwise `a`. -/
def std_min (a b : ℚ) : ℚ := if b < a then b else a

/-- `std::max(a, b)`: returns `b` when `a < b`, otherwise `a`. -/
def std_max (a b : ℚ) : ℚ := if a < b then b else a

/-- `SPFreshIndex::quantize`, with `QUANTIZATION_LEVELS` as the parameter `LEVELS`
(255 in the single-file variant, 127 in the split-file variant). -/
def quantize (LEVELS : ℕ) (val : ℚ) : ℕ :=
  let clamped := std_max MIN_VAL (std_min MAX_VAL val)
  let normalized := F32.div (F32.sub clamped MIN_VAL) (F32.sub MAX_VAL MIN_VAL)
  F32.toUInt8 (F32.mul normalized (F32.ofNat LEVELS))

/-- `SPFreshIndex::dequantize`. -/
def dequantize (LEVELS : ℕ) (val : ℕ) : ℚ :=
  let normalized := F32.div (F32.ofNat val) (F32.ofNat LEVELS)
  F32.add (F32.mul normalized (F32.sub MAX_VAL MIN_VAL)) MIN_VAL

/-- `SPFreshIndex::quantize_vector`: element-wise `quantize`. -/
def quantize_vector (LEVELS : ℕ) (vec : List ℚ) : List ℕ :=
  vec.map (quantize LEVELS)

/-- `SPFreshIndex::dequantize_vector`: element-wise `dequantize`. -/
def dequantize_vector (LEVELS : ℕ) (quantized : List ℕ) : List ℚ :=
  quantized.map (dequantize LEVELS)

/-- `SPFreshIndex::calculate_norm`: float accumulation of the squares, then the square
root (the diagnostic print is not modelled). -/
def calculate_norm (vec : List ℚ) : ℚ :=
  F32.sqrt (vec.foldl (fun sum_sq val => F32.add sum_sq (F32.mul val val)) 0)

/-! ## Buffers, byte streams and files -/

/-- Reading `n` floats through a `const float*`: element `j` of the buffer for every
`j < n`, as in `std::vector<float> vec(vector, vector + dim)`. -/
def readBuf (p : List ℚ) (n : ℕ) : List ℚ :=
  (List.range n).map (fun j => p.getD j 0)

/-- The `n` bytes starting at `data()` of a byte vector, as written by
`file.write(qv.data(), dimension)`. -/
def readBytes (n : ℕ) (buf : List ℕ) : List ℕ :=
  (List.range n).map (fun j => buf.getD j 0)

/-- Value of a little-endian byte sequence. -/
def leVal : List ℕ → ℕ
  | [] => 0
  | b :: bs => b + 256 * leVal bs

/-- The `n` little-endian bytes of the object representation of an unsigned integer. -/
def leBytes (n : ℕ) (v : ℕ) : List ℕ :=
  (List.range n).map (fun i => v / 256 ^ i % 256)

/-- Object representation of a `float`: the four bytes that `reinterpret_cast<char*>`
exposes, and the value four bytes denote.  The representation belongs to the platform,
not to the repository, so it is a parameter of the persistence functions. -/
structure FloatRepr where
  enc : ℚ → List ℕ
  dec : List ℕ → ℚ

/-- Splits `bs` into `n` consecutive groups of `k` bytes. -/
def chunk (k n : ℕ) (bs : List ℕ) : List (List ℕ) :=
  (List.range n).map (fun i => (bs.drop (i * k)).take k)

/-- An open `std::ifstream`: the bytes not yet consumed and whether the stream is still
good. -/
structure IStream where
  data : List ℕ
  good : Bool

/-- `file.read(buf, buf.size())`: on a good stream the available bytes, at most
`buf.length`, overwrite the front of the buffer, and the stream fails when fewer than
requested were available; on a failed stream nothing is extracted. -/
def IStream.read (st : IStream) (buf : List ℕ) : List ℕ × IStream :=
  if st.good then
    let got := st.data.take buf.length
    (got ++ buf.drop got.length,
      { data := st.data.drop buf.length, good := decide (got.length = buf.length) })
  else (buf, st)

/-- `file.gcount()` after a `read` of `n` bytes on the stream `st`. -/
def IStream.gcount (st : IStream) (n : ℕ) : ℕ :=
  if st.good then min st.data.length n else 0

/-- The loop `for i < num_vectors: quantized_vectors[i].resize(dimension); file.read(...)`:
every vector starts zero-filled with `dimension` bytes and is overwritten by what the
stream still delivers. -/
def read_vectors (dimension : ℕ) : ℕ → IStream → List (List ℕ)
  | 0, _ => []
  | n + 1, st =>
    let r := st.read (List.replicate dimension 0)
    r.1 :: read_vectors dimension n r.2

/-- The files the index can see.  `content p` is the byte content of the file at `p`,
`none` when it cannot be opened for reading; `writable p` tells whether opening `p` for
writing succeeds.  Once a file is open every write to it succeeds. -/
structure FileSys where
  content : String → Option (List ℕ)
  writable : String → Bool

/-- Result of `std::ofstream(p, binary | trunc)` followed by writing `bytes`. -/
def FileSys.write (fs : FileSys) (p : String) (bytes : List ℕ) : FileSys :=
  { fs with content := fun q => if q = p then some bytes else fs.content q }

/-- Result of `std::ofstream(p, binary | app)` followed by writing `bytes`. -/
def FileSys.appendTo (fs : FileSys) (p : String) (bytes : List ℕ) : FileSys :=
  { fs with content := fun q => if q = p then some ((fs.content p).getD [] ++ bytes)
                                else fs.content q }

/-! ## The index mutex and the allocator -/

/-- `std::lock_guard<std::mutex> lock(mtx)` at the start of a member function; `owned`
tells whether the calling thread already owns `mtx`.  `std::mutex` is not recursive: a
thread that locks a mutex it owns never gets it (the standard leaves the behaviour
undefined; the implementations the source is built with wait for ever).  The value tells
whether the guard is acquired. -/
def lock_guard (owned : Bool) : Bool := !owned

/-- `PTRDIFF_MAX` of the 64-bit platform to which the eight-byte `size_t` of the snapshot
format belongs; `std::vector<T>::max_size()` is `PTRDIFF_MAX / sizeof(T)`. -/
def PTRDIFF_MAX : ℕ := 2 ^ 63 - 1

/-- `sizeof(std::vector<uint8_t>)` on that platform: three pointers. -/
def VECTOR_SIZE : ℕ := 24

/-- The allocator of the platform: `grants n` tells whether a request for `n` bytes is
satisfied. -/
structure Heap where
  grants : ℕ → Bool

/-- Whether `resize(n)` of an empty `std::vector` whose elements have `size` bytes throws:
`std::length_error` beyond `max_size()`, `std::bad_alloc` when the allocator refuses the
storage.  A resize to zero elements requests nothing. -/
def resize_throws (heap : Heap) (size n : ℕ) : Bool :=
  decide (n ≠ 0 ∧ (PTRDIFF_MAX / size < n ∨ heap.grants (n * size) = false))

/-! ## Sample platform data used in the worked instances -/

/-- An allocator that grants every request. -/
def ampleHeap : Heap := { grants := fun _ => true }

/-- An allocator that grants requests of up to `2 ^ 30` bytes. -/
def smallHeap : Heap := { grants := fun n => decide (n ≤ 2 ^ 30) }

/-- A float representation that stores every float as four zero bytes. -/
def zeroRepr : FloatRepr := { enc := fun _ => [0, 0, 0, 0], dec := fun _ => 0 }

/-- A file system without files in which every file can be created. -/
def emptyFs : FileSys := { content := fun _ => none, writable := fun _ => true }

/-! ## Search (identical in the two source files up to `QUANTIZATION_LEVELS`) -/

/-- The inner loop of `search`: float accumulation of `query[j] * dequantize(qv[j])`
for `j < dim`. -/
def dot_product (LEVELS : ℕ) (query : List ℚ) (quantized_vec : List ℕ) (dim : ℕ) : ℚ :=
  (List.range dim).foldl
    (fun dot j => F32.add dot (F32.mul (query.getD j 0) (dequantize LEVELS (quantized_vec.getD j 0))))
    0

/-- The similarity assigned to one stored vector: `0.0f` unless both norms are
positive. -/
def similarity (query_norm doc_norm dot : ℚ) : ℚ :=
  if 0 < query_norm ∧ 0 < doc_norm then F32.div dot (F32.mul query_norm doc_norm) else 0

/-- The vector `scores` after the scan loop: one pair `(similarity, i)` per stored
vector, in id order. -/
def scan (LEVELS : ℕ) (quantized_vectors : List (List ℕ)) (norms : List ℚ)
    (query : List ℚ) (dim : ℕ) : List (ℚ × ℕ) :=
  (List.range quantized_vectors.length).map (fun i =>
    (similarity (calculate_norm (readBuf query dim)) (norms.getD i 0)
      (dot_product LEVELS query (quantized_vectors.getD i []) dim), i))

/-- The comparator handed to `std::sort`: `a.first > b.first`. -/
def comp (a b : ℚ × ℕ) : Bool := decide (b.1 < a.1)

/-- Insertion of `x` into a list sorted by `comp`, before the first element that does
not precede it. -/
def sort_insert (x : ℚ × ℕ) : List (ℚ × ℕ) → List (ℚ × ℕ)
  | [] => [x]
  | y :: ys => if comp y x then y :: sort_insert x ys else x :: y :: ys

/-- `std::sort(scores.begin(), scores.end(), comp)`.  The standard leaves the order of
elements with equal keys open; the model is an insertion sort, and the theorems below
rely only on the result being a permutation ordered by `comp`. -/
def std_sort (l : List (ℚ × ℕ)) : List (ℚ × ℕ) :=
  l.foldr sort_insert []

/-- The final loop of `search`: slot `i` of both output buffers is overwritten for
`i < result_count`. -/
def write_results (scores : List (ℚ × ℕ)) (result_count : ℕ)
    (result_indices : List ℕ) (result_scores : List ℚ) : List ℕ × List ℚ :=
  (List.range result_count).foldl
    (fun out i => (out.1.set i (scores.getD i (0, 0)).2, out.2.set i (scores.getD i (0, 0)).1))
    (result_indices, result_scores)

/-- The pairs a successful search hands back: the first `min(top_k, scores.size())`
entries of the sorted `scores`. -/
def search_results (LEVELS : ℕ) (quantized_vectors : List (List ℕ)) (norms : List ℚ)
    (query : List ℚ) (dim top_k : ℕ) : List (ℚ × ℕ) :=
  let scores := std_sort (scan LEVELS quantized_vectors norms query dim)
  scores.take (min top_k scores.length)

/-- Body of `SPFreshIndex::search` over the fields it reads: status and the two output
buffers afterwards. -/
def search_core (LEVELS dimension : ℕ) (quantized_vectors : List (List ℕ)) (norms : List ℚ)
    (query : List ℚ) (dim top_k : ℕ) (result_indices : List ℕ) (result_scores : List ℚ) :
    ℤ × List ℕ × List ℚ :=
  if dim ≠ dimension ∨ top_k = 0 ∨ quantized_vectors = [] then (-1, result_indices, result_scores)
  else
    let scores := std_sort (scan LEVELS quantized_vectors norms query dim)
    let result_count := min top_k scores.length
    let out := write_results scores result_count result_indices result_scores
    (0, out.1, out.2)

/-! ## Single-file layout (`src/backend/spfresh/src/spfresh.cpp`) -/

/-- Source constant `QUANTIZATION_LEVELS = 255` of the single-file variant. -/
def QUANTIZATION_LEVELS : ℕ := 255

/-- The fields of `struct SPFreshIndex` (the mutex apart). -/
structure SPFreshIndex where
  path : String
  quantized_vectors : List (List ℕ)
  norms : List ℚ
  dimension : ℕ

/-- The vector count `quantized_vectors.size()`. -/
def SPFreshIndex.size (s : SPFreshIndex) : ℕ := s.quantized_vectors.length

/-- Bytes written by `save_index`: magic, version, `dimension` as a 64-bit `size_t`,
`num_vectors` as `uint32_t`, `num_vectors` floats from `norms.data()`, then `dimension`
bytes from every vector. -/
def serialize (fr : FloatRepr) (s : SPFreshIndex) : List ℕ :=
  let num_vectors := s.quantized_vectors.length % 2 ^ 32
  leBytes 4 0x50534648 ++ leBytes 4 1 ++ leBytes 8 s.dimension ++ leBytes 4 num_vectors
    ++ ((readBuf s.norms num_vectors).map fr.enc).flatten
    ++ (s.quantized_vectors.map (readBytes s.dimension)).flatten

/-- `SPFreshIndex::save_index`: fails when the file cannot be opened for writing,
otherwise rewrites the whole file. -/
def save_index (fr : FloatRepr) (fs : FileSys) (s : SPFreshIndex) : Bool × FileSys :=
  if fs.writable s.path then (true, fs.write s.path (serialize fr s))
  else (false, fs)

/-- Indeterminate initial contents of the locals `magic`, `version` and `num_vectors`
of `load_index`, which a short read leaves wholly or partly unwritten. -/
structure Uninit where
  magic : ℕ
  version : ℕ
  num_vectors : ℕ

/-- `SPFreshIndex::load_index`. -/
def load_index (fr : FloatRepr) (junk : Uninit) (fs : FileSys) (s : SPFreshIndex) :
    Bool × SPFreshIndex :=
  let s0 : SPFreshIndex := { s with quantized_vectors := [], norms := [] }
  match fs.content s.path with
  | none => (true, s0)
  | some bytes =>
    let st0 : IStream := { data := bytes, good := true }
    let r1 := st0.read (leBytes 4 junk.magic)
    if leVal r1.1 ≠ 0x50534648 then (false, s0)
    else
      let r2 := r1.2.read (leBytes 4 junk.version)
      let r3 := r2.2.read (leBytes 8 s.dimension)
      let dimension := leVal r3.1
      let r4 := r3.2.read (leBytes 4 junk.num_vectors)
      let num_vectors := leVal r4.1
      let r5 := r4.2.read (List.replicate (num_vectors * 4) 0)
      let norms := (chunk 4 num_vectors r5.1).map fr.dec
      let quantized_vectors := read_vectors dimension num_vectors r5.2
      (true, { s with quantized_vectors := quantized_vectors, norms := norms,
                      dimension := dimension })

/-- A call `save_index()`: the `lock_guard` at its start, then the body `save_index`.
`owned` tells whether the caller is a member function that still holds `mtx`; `none`
when the call does not return. -/
def save_index_call (owned : Bool) (fr : FloatRepr) (fs : FileSys) (s : SPFreshIndex) :
    Option (Bool × FileSys) :=
  if lock_guard owned then some (save_index fr fs s) else none

/-- The constructor `SPFreshIndex(p)`: dimension 768, then `load_index()`, whose result
is not looked at.  The object constructed when no exception leaves `load_index`. -/
def SPFreshIndex.create (fr : FloatRepr) (junk : Uninit) (fs : FileSys) (p : String) :
    SPFreshIndex :=
  (load_index fr junk fs { path := p, quantized_vectors := [], norms := [], dimension := 768 }).2

/-- Whether an exception leaves the constructor `SPFreshIndex(p)`: after a good magic,
`load_index` resizes `norms` to `num_vectors` floats, `quantized_vectors` to
`num_vectors` vectors and each of these to `dimension` bytes, with `num_vectors` and
`dimension` as read from the file. -/
def SPFreshIndex.create_throws (heap : Heap) (junk : Uninit) (fs : FileSys) (p : String) :
    Bool :=
  match fs.content p with
  | none => false
  | some bytes =>
    let st0 : IStream := { data := bytes, good := true }
    let r1 := st0.read (leBytes 4 junk.magic)
    if leVal r1.1 ≠ 0x50534648 then false
    else
      let r2 := r1.2.read (leBytes 4 junk.version)
      let r3 := r2.2.read (leBytes 8 768)
      let dimension := leVal r3.1
      let r4 := r3.2.read (leBytes 4 junk.num_vectors)
      let num_vectors := leVal r4.1
      resize_throws heap 4 num_vectors || resize_throws heap VECTOR_SIZE num_vectors ||
        (decide (num_vectors ≠ 0) && resize_throws heap 1 dimension)

/-- `SPFreshIndex::append`: status, index and files.  The function holds `mtx` from its
first statement; after the two `push_back`s its `return save_index() ? 0 : -2;` calls
`save_index` with the mutex owned.  The status is `none` when `append` does not return,
with the index and the files as they are then. -/
def append (fr : FloatRepr) (fs : FileSys) (s : SPFreshIndex) (vector : List ℚ) (dim : ℕ) :
    Option ℤ × SPFreshIndex × FileSys :=
  if dim ≠ s.dimension then (some (-1), s, fs)
  else
    let vec := readBuf vector dim
    let quantized_vec := quantize_vector QUANTIZATION_LEVELS vec
    let norm := calculate_norm vec
    let s1 : SPFreshIndex :=
      { s with quantized_vectors := s.quantized_vectors ++ [quantized_vec],
               norms := s.norms ++ [norm] }
    match save_index_call true fr fs s1 with
    | some r => (some (if r.1 then 0 else -2), s1, r.2)
    | none => (none, s1, fs)

/-- `SPFreshIndex::search`: status, index afterwards and the two output buffers. -/
def search (s : SPFreshIndex) (query : List ℚ) (dim top_k : ℕ)
    (result_indices : List ℕ) (result_scores : List ℚ) : ℤ × SPFreshIndex × List ℕ × List ℚ :=
  let r := search_core QUANTIZATION_LEVELS s.dimension s.quantized_vectors s.norms
    query dim top_k result_indices result_scores
  (r.1, s, r.2.1, r.2.2)

/-- A vector of 768 zeros. -/
def zeros768 : List ℚ := List.replicate 768 0

/-- The single-file index constructed on a path where no file exists. -/
def freshIndex : SPFreshIndex := SPFreshIndex.create zeroRepr ⟨0, 0, 0⟩ emptyFs "idx"

/-- The result of one append of `zeros768` to `freshIndex`. -/
def onceAppended : Option ℤ × SPFreshIndex × FileSys :=
  append zeroRepr emptyFs freshIndex zeros768 768

/-- The binary32 object representation restricted to the values `0`, `1` and `-1`, whose
bit patterns are `00000000`, `3f800000` and `bf800000` (little-endian bytes). -/
def unitRepr : FloatRepr :=
  { enc := fun x => if x = -1 then [0, 0, 128, 191] else if x = 1 then [0, 0, 128, 63]
                    else [0, 0, 0, 0]
    dec := fun bs => if bs = [0, 0, 128, 191] then -1 else if bs = [0, 0, 128, 63] then 1
                     else 0 }

/-- A snapshot file in the single-file format: magic, version 1, dimension 1, one vector,
the norm `-1.0f`, the vector byte 255. -/
def negNormSnapshot : List ℕ :=
  [72, 70, 83, 80, 1, 0, 0, 0, 1, 0, 0, 0, 0, 0, 0, 0, 1, 0, 0, 0, 0, 0, 128, 191, 255]

/-- A file system holding `negNormSnapshot` at the path `idx`. -/
def negNormFs : FileSys :=
  { content := fun p => if p = "idx" then some negNormSnapshot else none
    writable := fun _ => true }

/-- The single-file index constructed on `negNormSnapshot`. -/
def negNormIndex : SPFreshIndex := SPFreshIndex.create unitRepr ⟨0, 0, 0⟩ negNormFs "idx"

/-- The 768-element vector with first entry `x` and zeros elsewhere. -/
def padded (x : ℚ) : List ℚ := x :: List.replicate 767 0

/-- A snapshot file in the single-file format that holds no vector and the dimension 4. -/
def dim4Snapshot : List ℕ :=
  [72, 70, 83, 80, 1, 0, 0, 0, 4, 0, 0, 0, 0, 0, 0, 0, 0, 0, 0, 0]

/-- A file system holding `dim4Snapshot` at the path `idx`. -/
def dim4Fs : FileSys :=
  { content := fun p => if p = "idx" then some dim4Snapshot else none
    writable := fun _ => true }

/-- The single-file index constructed on `dim4Snapshot`: empty, of dimension 4. -/
def dim4Index : SPFreshIndex := SPFreshIndex.create zeroRepr ⟨0, 0, 0⟩ dim4Fs "idx"

/-- A file system without files in which no file can be opened for writing. -/
def readOnlyFs : FileSys := { content := fun _ => none, writable := fun _ => false }

/-- One append of `padded 2` to the index constructed on a path whose snapshot file
cannot be written. -/
def failedAppend : Option ℤ × SPFreshIndex × FileSys :=
  append zeroRepr readOnlyFs (SPFreshIndex.create zeroRepr ⟨0, 0, 0⟩ readOnlyFs "idx")
    (padded 2) 768

/-- The two invariants of the data model for the single-file index: as many norms as
vectors, and every stored vector of length `dimension`. -/
def Inv (s : SPFreshIndex) : Prop :=
  s.norms.length = s.quantized_vectors.length ∧
  ∀ v ∈ s.quantized_vectors, v.length = s.dimension

/-- One public operation of the single-file index applied to a state: the state when the
operation returns or, for an `append` that does not return, when it blocks. -/
inductive Step (fr : FloatRepr) : SPFreshIndex → SPFreshIndex → Prop
  | append (fs : FileSys) (s : SPFreshIndex) (vector : List ℚ) (dim : ℕ) :
      Step fr s (append fr fs s vector dim).2.1
  | search (s : SPFreshIndex) (query : List ℚ) (dim top_k : ℕ) (ri : List ℕ) (rs : List ℚ) :
      Step fr s (search s query dim top_k ri rs).2.1
  | load (junk : Uninit) (fs : FileSys) (s : SPFreshIndex) :
      Step fr s (load_index fr junk fs s).2
  | save (s : SPFreshIndex) : Step fr s s

/-- States of the single-file index reachable from construction. -/
inductive Reachable (fr : FloatRepr) : SPFreshIndex → Prop
  | create (junk : Uninit) (fs : FileSys) (p : String) :
      Reachable fr (SPFreshIndex.create fr junk fs p)
  | step (s t : SPFreshIndex) : Reachable fr s → Step fr s t → Reachable fr t

/-! ### The handle table of the single-file source -/

/-- The global `index_map` together with the files.  A handle is the address of an index
object, a natural number; `0` is the null pointer. -/
structure Registry where
  index_map : ℕ → Option SPFreshIndex
  fs : FileSys

/-- `spfresh_index_create`.  `path = none` is the null pointer; `addr` is the address
returned by `new`, which is never null and differs from the address of every live
object.  An exception that leaves the constructor is caught: the object is given back,
the table is not touched and the null pointer is returned. -/
def spfresh_index_create (fr : FloatRepr) (junk : Uninit) (heap : Heap) (addr : ℕ)
    (path : Option String) (g : Registry) : ℕ × Registry :=
  match path with
  | none => (0, g)
  | some p =>
    if SPFreshIndex.create_throws heap junk g.fs p then (0, g)
    else
      let index := SPFreshIndex.create fr junk g.fs p
      (addr, { g with index_map := fun h => if h = addr then some index else g.index_map h })

/-- `spfresh_index_append`; `vector = none` is the null pointer.  The status is `none`
when the call does not return. -/
def spfresh_index_append (fr : FloatRepr) (index_ptr : ℕ) (vector : Option (List ℚ)) (dim : ℕ)
    (g : Registry) : Option ℤ × Registry :=
  match vector with
  | none => (some (-1), g)
  | some vec =>
    if index_ptr = 0 then (some (-1), g)
    else
      match g.index_map index_ptr with
      | none => (some (-1), g)
      | some index =>
        let r := append fr g.fs index vec dim
        (r.1, { index_map := fun h => if h = index_ptr then some r.2.1 else g.index_map h,
                fs := r.2.2 })

end SPFresh

/-! ## Split-file layout with a write buffer (`src/backend/spfresh_local/src/spfresh.cpp`) -/

namespace SPFreshLocal

open SPFresh

/-- Source constant `QUANTIZATION_LEVELS = 127` of the split-file variant. -/
def QUANTIZATION_LEVELS : ℕ := 127

/-- Source constant `WRITE_BUFFER_SIZE = 1000`. -/
def WRITE_BUFFER_SIZE : ℕ := 1000

/-- The fields of `struct SPFreshIndex` (the mutex apart). -/
structure SPFreshIndex where
  path : String
  quantized_vectors : List (List ℕ)
  norms : List ℚ
  dimension : ℕ
  write_buffer_vectors : List (List ℕ)
  write_buffer_norms : List ℚ

/-- The vector count `quantized_vectors.size()` returned by `spfresh_index_size`. -/
def SPFreshIndex.size (s : SPFreshIndex) : ℕ := s.quantized_vectors.length

/-- Path of the vectors file. -/
def vec_path (s : SPFreshIndex) : String := s.path ++ ".vectors"

/-- Path of the metadata file. -/
def meta_path (s : SPFreshIndex) : String := s.path ++ ".metadata"

/-- The base path computed by the constructor: a trailing `.index` is removed from a
path longer than six characters. -/
def base_path (p : String) : String :=
  if p.length > 6 ∧ p.endsWith ".index" then p.dropRight 6 else p

/-- `SPFreshIndex::flush_write_buffer`: appends the buffered vectors, then the buffered
norms, and clears the buffer only when both files could be opened. -/
def flush_write_buffer (fr : FloatRepr) (fs : FileSys) (s : SPFreshIndex) :
    SPFreshIndex × FileSys :=
  if s.write_buffer_vectors = [] then (s, fs)
  else if ¬ fs.writable (vec_path s) then (s, fs)
  else
    let fs1 := fs.appendTo (vec_path s)
      (s.write_buffer_vectors.map (readBytes s.dimension)).flatten
    if ¬ fs1.writable (meta_path s) then (s, fs1)
    else
      let fs2 := fs1.appendTo (meta_path s) (s.write_buffer_norms.map fr.enc).flatten
      ({ s with write_buffer_vectors := [], write_buffer_norms := [] }, fs2)

/-- `SPFreshIndex::save_index`: rewrites the vectors file, then the metadata file. -/
def save_index (fr : FloatRepr) (fs : FileSys) (s : SPFreshIndex) : Bool × FileSys :=
  if ¬ fs.writable (vec_path s) then (false, fs)
  else
    let fs1 := fs.write (vec_path s) (s.quantized_vectors.map (readBytes s.dimension)).flatten
    if ¬ fs1.writable (meta_path s) then (false, fs1)
    else (true, fs1.write (meta_path s) (s.norms.map fr.enc).flatten)

/-- A call `save_index()`: the `lock_guard` at its start, then the body `save_index`.
`owned` tells whether the caller is a member function that still holds `mtx`; `none`
when the call does not return. -/
def save_index_call (owned : Bool) (fr : FloatRepr) (fs : FileSys) (s : SPFreshIndex) :
    Option (Bool × FileSys) :=
  if lock_guard owned then some (save_index fr fs s) else none

/-- `SPFreshIndex::load_index`: result, index and files.  The function holds `mtx` from
its first statement; the repair branch recomputes the norms and then calls `save_index`
with the mutex owned.  The result is `none` when `load_index` does not return, with the
index and the files as they are then. -/
def load_index (fr : FloatRepr) (fs : FileSys) (s : SPFreshIndex) :
    Option Bool × SPFreshIndex × FileSys :=
  let s0 : SPFreshIndex := { s with quantized_vectors := [], norms := [] }
  match fs.content (vec_path s) with
  | none => (some true, s0, fs)
  | some vbytes =>
    let vec_size := vbytes.length
    if vec_size = 0 ∨ vec_size % s.dimension ≠ 0 then (some false, s0, fs)
    else
      let num_vectors := vec_size / s.dimension
      let quantized_vectors :=
        read_vectors s.dimension num_vectors { data := vbytes, good := true }
      let norms1 : List ℚ :=
        match fs.content (meta_path s) with
        | none => []
        | some mbytes =>
          let st : IStream := { data := mbytes, good := true }
          if st.gcount (num_vectors * 4) ≠ num_vectors * 4 then []
          else (chunk 4 num_vectors (st.read (List.replicate (num_vectors * 4) 0)).1).map fr.dec
      if norms1.length ≠ num_vectors then
        let norms2 := quantized_vectors.map
          (fun qv => calculate_norm (dequantize_vector QUANTIZATION_LEVELS qv))
        let s2 : SPFreshIndex :=
          { s with quantized_vectors := quantized_vectors, norms := norms2 }
        match save_index_call true fr fs s2 with
        | some r => (some true, s2, r.2)
        | none => (none, s2, fs)
      else (some true, { s with quantized_vectors := quantized_vectors, norms := norms1 }, fs)

/-- The constructor `SPFreshIndex(p)`: base path, dimension 768, empty buffers, then
`load_index()`, whose result is not looked at.  The object and the files when the
constructor returns or, where `load_index` does not return, when it blocks. -/
def SPFreshIndex.create (fr : FloatRepr) (fs : FileSys) (p : String) : SPFreshIndex × FileSys :=
  (load_index fr fs { path := base_path p, quantized_vectors := [], norms := [],
                      dimension := 768, write_buffer_vectors := [],
                      write_buffer_norms := [] }).2

/-- Whether the constructor `SPFreshIndex(p)` returns: it does unless `load_index` blocks. -/
def SPFreshIndex.create_returns (fr : FloatRepr) (fs : FileSys) (p : String) : Bool :=
  (load_index fr fs { path := base_path p, quantized_vectors := [], norms := [],
                      dimension := 768, write_buffer_vectors := [],
                      write_buffer_norms := [] }).1.isSome

/-- Whether an exception leaves the constructor `SPFreshIndex(p)`.  On a vectors file of
`num_vectors` times 768 bytes `load_index` builds a vector of 768 bytes and resizes
`quantized_vectors` to `num_vectors` copies of it, resizes `norms` to `num_vectors` floats
(before the metadata is read or, without a metadata file, in the repair branch), and the
repair branch dequantizes into vectors of 768 floats. -/
def SPFreshIndex.create_throws (fr : FloatRepr) (heap : Heap) (fs : FileSys) (p : String) :
    Bool :=
  match fs.content (base_path p ++ ".vectors") with
  | none => false
  | some vbytes =>
    if vbytes.length = 0 ∨ vbytes.length % 768 ≠ 0 then false
    else
      let num_vectors := vbytes.length / 768
      resize_throws heap 1 768 || resize_throws heap VECTOR_SIZE num_vectors ||
        resize_throws heap 4 num_vectors ||
        (!(SPFreshIndex.create_returns fr fs p) && resize_throws heap 4 768)

/-- `SPFreshIndex::append`: status, index and files afterwards. -/
def append (fr : FloatRepr) (fs : FileSys) (s : SPFreshIndex) (vector : List ℚ) (dim : ℕ) :
    ℤ × SPFreshIndex × FileSys :=
  if dim ≠ s.dimension then (-1, s, fs)
  else
    let vec := readBuf vector dim
    let quantized_vec := quantize_vector QUANTIZATION_LEVELS vec
    let norm := calculate_norm vec
    let s1 : SPFreshIndex :=
      { s with quantized_vectors := s.quantized_vectors ++ [quantized_vec],
               norms := s.norms ++ [norm],
               write_buffer_vectors := s.write_buffer_vectors ++ [quantized_vec],
               write_buffer_norms := s.write_buffer_norms ++ [norm] }
    if s1.write_buffer_vectors.length ≥ WRITE_BUFFER_SIZE then
      let r := flush_write_buffer fr fs s1
      (0, r.1, r.2)
    else (0, s1, fs)

/-- `SPFreshIndex::search`: status, index afterwards and the two output buffers. -/
def search (s : SPFreshIndex) (query : List ℚ) (dim top_k : ℕ)
    (result_indices : List ℕ) (result_scores : List ℚ) : ℤ × SPFreshIndex × List ℕ × List ℚ :=
  let r := search_core QUANTIZATION_LEVELS s.dimension s.quantized_vectors s.norms
    query dim top_k result_indices result_scores
  (r.1, s, r.2.1, r.2.2)

/-- A caller appending the vectors of `vs` one after the other, each with `dim` equal to
the dimension of the index: the statuses returned, the index and the files afterwards. -/
def append_all (fr : FloatRepr) :
    FileSys → SPFreshIndex → List (List ℚ) → List ℤ × SPFreshIndex × FileSys
  | fs, s, [] => ([], s, fs)
  | fs, s, v :: vs =>
    let r := append fr fs s v s.dimension
    let rest := append_all fr r.2.2 r.2.1 vs
    (r.1 :: rest.1, rest.2.1, rest.2.2)

/-- The split-file index constructed on a path where no file exists. -/
def freshIndex : SPFreshIndex := (SPFreshIndex.create zeroRepr emptyFs "idx").1

/-- The result of one append of `zeros768` to `freshIndex`. -/
def onceAppended : ℤ × SPFreshIndex × FileSys := append zeroRepr emptyFs freshIndex zeros768 768

/-- `freshIndex` after appending `padded 2` and then `padded (1 / 64)`. -/
def twiceAppended : ℤ × SPFreshIndex × FileSys :=
  append zeroRepr (append zeroRepr emptyFs freshIndex (padded 2) 768).2.2
    (append zeroRepr emptyFs freshIndex (padded 2) 768).2.1 (padded (1 / 64)) 768

/-- `freshIndex` after appending `padded (-1)`. -/
def negAppended : ℤ × SPFreshIndex × FileSys :=
  append zeroRepr emptyFs freshIndex (padded (-1)) 768

/-- The two invariants of the data model for the split-file index: as many norms as
vectors, and every stored vector of length `dimension`. -/
def Inv (s : SPFreshIndex) : Prop :=
  s.norms.length = s.quantized_vectors.length ∧
  ∀ v ∈ s.quantized_vectors, v.length = s.dimension

/-- One public operation of the split-file index applied to a state: the state when the
operation returns or, for a `load_index` that does not return, when it blocks. -/
inductive Step (fr : FloatRepr) : SPFreshIndex → SPFreshIndex → Prop
  | append (fs : FileSys) (s : SPFreshIndex) (vector : List ℚ) (dim : ℕ) :
      Step fr s (append fr fs s vector dim).2.1
  | search (s : SPFreshIndex) (query : List ℚ) (dim top_k : ℕ) (ri : List ℕ) (rs : List ℚ) :
      Step fr s (search s query dim top_k ri rs).2.1
  | load (fs : FileSys) (s : SPFreshIndex) : Step fr s (load_index fr fs s).2.1
  | save (s : SPFreshIndex) : Step fr s s

/-- States of the split-file index reachable from construction. -/
inductive Reachable (fr : FloatRepr) : SPFreshIndex → Prop
  | create (fs : FileSys) (p : String) : Reachable fr (SPFreshIndex.create fr fs p).1
  | step (s t : SPFreshIndex) : Reachable fr s → Step fr s t → Reachable fr t

/-- The member functions of the split-file index that write files, as one call each:
`append(vector, dimension)`, `flush_write_buffer()` and `save_index()`. -/
inductive Op where
  | append (vector : List ℚ)
  | flush
  | save

/-- One call of a member function on the index `st.1` with the files `st.2`. -/
def run_op (fr : FloatRepr) (op : Op) (st : SPFreshIndex × FileSys) : SPFreshIndex × FileSys :=
  match op with
  | Op.append v => (append fr st.2 st.1 v st.1.dimension).2
  | Op.flush => flush_write_buffer fr st.2 st.1
  | Op.save => (st.1, (save_index fr st.2 st.1).2)

/-- A sequence of calls, first to last. -/
def run_ops (fr : FloatRepr) : List Op → SPFreshIndex × FileSys → SPFreshIndex × FileSys
  | [], st => st
  | op :: ops, st => run_ops fr ops (run_op fr op st)

/-- Sequences of calls in which `save_index` runs only while the write buffer is empty,
as in the destructor (after `flush_write_buffer`) and in `load_index` (at construction). -/
def save_guarded (fr : FloatRepr) : List Op → SPFreshIndex × FileSys → Prop
  | [], _ => True
  | Op.save :: ops, st =>
    st.1.write_buffer_vectors = [] ∧ save_guarded fr ops (run_op fr Op.save st)
  | Op.append v :: ops, st => save_guarded fr ops (run_op fr (Op.append v) st)
  | Op.flush :: ops, st => save_guarded fr ops (run_op fr Op.flush st)

/-- What the files and the write buffer hold together equals what the memory holds: the
bytes of the vectors file followed by the buffered vectors are the in-memory vectors, and
the same for the norms; buffer vectors and buffer norms are equally many; both files can
be written. -/
def Synced (fr : FloatRepr) (st : SPFreshIndex × FileSys) : Prop :=
  (st.2.content (vec_path st.1)).getD [] ++
      (st.1.write_buffer_vectors.map (readBytes st.1.dimension)).flatten =
    (st.1.quantized_vectors.map (readBytes st.1.dimension)).flatten ∧
  (st.2.content (meta_path st.1)).getD [] ++ (st.1.write_buffer_norms.map fr.enc).flatten =
    (st.1.norms.map fr.enc).flatten ∧
  st.1.write_buffer_vectors.length = st.1.write_buffer_norms.length ∧
  st.2.writable (vec_path st.1) = true ∧ st.2.writable (meta_path st.1) = true

/-- The index opened at `p` and the files after the calls `ops`. -/
def session (fr : FloatRepr) (fs : FileSys) (p : String) (ops : List Op) :
    SPFreshIndex × FileSys :=
  run_ops fr ops (SPFreshIndex.create fr fs p)

/-- One append of `zeros768` to the index opened on a path without files, then
`save_index()` while the vector is still in the write buffer, then
`flush_write_buffer()`. -/
def savedThenFlushed : SPFreshIndex × FileSys :=
  session zeroRepr emptyFs "idx" [Op.append zeros768, Op.save, Op.flush]

/-! ### The handle table of the split-file source -/

/-- The global `index_map` together with the files.  A handle is the address of an index
object, a natural number; `0` is the null pointer. -/
structure Registry where
  index_map : ℕ → Option SPFreshIndex
  fs : FileSys

/-- `spfresh_index_create`.  `path = none` is the null pointer; `addr` is the address
returned by `new`, which is never null and differs from the address of every live
object.  An exception that leaves the constructor is caught: the object is given back,
the table is not touched and the null pointer is returned.  The result is `none` when
the constructor, and with it the call, does not return. -/
def spfresh_index_create (fr : FloatRepr) (heap : Heap) (addr : ℕ) (path : Option String)
    (g : Registry) : Option (ℕ × Registry) :=
  match path with
  | none => some (0, g)
  | some p =>
    if SPFreshIndex.create_throws fr heap g.fs p then some (0, g)
    else if SPFreshIndex.create_returns fr g.fs p then
      let r := SPFreshIndex.create fr g.fs p
      some (addr, { index_map := fun h => if h = addr then some r.1 else g.index_map h,
                    fs := r.2 })
    else none

/-- `spfresh_index_append`; `vector = none` is the null pointer. -/
def spfresh_index_append (fr : FloatRepr) (index_ptr : ℕ) (vector : Option (List ℚ)) (dim : ℕ)
    (g : Registry) : ℤ × Registry :=
  match vector with
  | none => (-1, g)
  | some vec =>
    if index_ptr = 0 then (-1, g)
    else
      match g.index_map index_ptr with
      | none => (-1, g)
      | some index =>
        let r := append fr g.fs index vec dim
        (r.1, { index_map := fun h => if h = index_ptr then some r.2.1 else g.index_map h,
                fs := r.2.2 })

end SPFreshLocal

/-! # Verification

## Rounding error of binary32 operations -/

namespace SPFresh
namespace F32

theorem roundHalfEven_sub_le (y : ℚ) : |(roundHalfEven y : ℚ) - y| ≤ 1 / 2 := by
  have h1 := Int.floor_le y
  have h2 := Int.lt_floor_add_one y
  unfold roundHalfEven
  simp only []
  split_ifs <;> rw [abs_le] <;> constructor <;> push_cast <;> linarith

theorem roundHalfEven_eq_of (y : ℚ) (m : ℤ) (h : |y - m| < 1 / 2) : roundHalfEven y = m := by
  have h1 := roundHalfEven_sub_le y
  rw [abs_le] at h1
  rw [abs_lt] at h
  have h2 : ((roundHalfEven y : ℤ) : ℚ) < ((m + 1 : ℤ) : ℚ) := by push_cast; linarith
  have h3 : ((m - 1 : ℤ) : ℚ) < ((roundHalfEven y : ℤ) : ℚ) := by push_cast; linarith
  have h4 := Int.cast_lt.mp h2
  have h5 := Int.cast_lt.mp h3
  omega

theorem ulp_pos (x : ℚ) : 0 < ulp x := by
  unfold ulp
  positivity

theorem rnd_sub_le (x : ℚ) : |rnd x - x| ≤ ulp x / 2 := by
  have hu := ulp_pos x
  have h := roundHalfEven_sub_le (x / ulp x)
  have e : rnd x - x = ((roundHalfEven (x / ulp x) : ℚ) - x / ulp x) * ulp x := by
    unfold rnd
    field_simp
  rw [e, abs_mul, abs_of_pos hu]
  nlinarith

theorem rnd_zero : rnd 0 = 0 := by
  simp [rnd, roundHalfEven]

theorem expo_le (x : ℚ) (k : ℤ) (hk : -126 ≤ k) (hx0 : x ≠ 0) (hx : |x| ≤ 2 ^ k) :
    expo x ≤ k := by
  unfold expo
  apply max_le _ hk
  have h0 : 0 < |x| := abs_pos.mpr hx0
  have h := Int.log_mono_right (b := 2) h0 hx
  have h2 : Int.log 2 ((2 : ℚ) ^ k) = k := by
    have := Int.log_zpow (R := ℚ) (b := 2) (by norm_num) k
    simpa using this
  omega

theorem rnd_abs_err (x : ℚ) (k : ℤ) (hk : -126 ≤ k) (hx : |x| ≤ 2 ^ k) :
    |rnd x - x| ≤ 2 ^ (k - 24) := by
  by_cases hx0 : x = 0
  · subst hx0
    simp [rnd_zero]
    positivity
  · have h1 := rnd_sub_le x
    have h2 := expo_le x k hk hx0 hx
    have h3 : ulp x / 2 = 2 ^ (expo x - 24) := by
      unfold ulp
      rw [show expo x - 23 = (expo x - 24) + 1 by ring, zpow_add₀ (by norm_num)]
      simp
    have h4 : (2 : ℚ) ^ (expo x - 24) ≤ 2 ^ (k - 24) :=
      zpow_le_zpow_right₀ (by norm_num) (by omega)
    linarith

theorem expo_eq (x : ℚ) (e : ℤ) (he : -126 ≤ e) (h1 : 2 ^ e ≤ |x|) (h2 : |x| < 2 ^ (e + 1)) :
    expo x = e := by
  have h0 : 0 < |x| := lt_of_lt_of_le (by positivity) h1
  have ha : e ≤ Int.log 2 |x| := (Int.zpow_le_iff_le_log (b := 2) (by norm_num) h0).mp (by simpa using h1)
  have hb : Int.log 2 |x| < e + 1 := (Int.lt_zpow_iff_log_lt (b := 2) (by norm_num) h0).mp (by simpa using h2)
  unfold expo
  omega

theorem rnd_eq_of (x : ℚ) (e m : ℤ) (he : -126 ≤ e) (h1 : 2 ^ e ≤ |x|) (h2 : |x| < 2 ^ (e + 1))
    (hm : |x / 2 ^ (e - 23) - m| < 1 / 2) : rnd x = m * 2 ^ (e - 23) := by
  unfold rnd ulp
  rw [expo_eq x e he h1 h2, roundHalfEven_eq_of _ m hm]

end F32
end SPFresh

namespace SPFresh
namespace F32

theorem rnd_natCast (n : ℕ) (h : n < 2 ^ 24) : rnd (n : ℚ) = n := by
  by_cases hn : n = 0
  · subst hn
    simpa using rnd_zero
  · have hlog : Nat.log 2 n < 24 := Nat.log_lt_of_lt_pow hn h
    have hlo : 2 ^ Nat.log 2 n ≤ n := Nat.pow_log_le_self 2 hn
    have hhi : n < 2 ^ (Nat.log 2 n + 1) := Nat.lt_pow_succ_log_self (by norm_num) n
    obtain ⟨d, hd⟩ : ∃ d : ℕ, Nat.log 2 n + d = 23 := ⟨23 - Nat.log 2 n, by omega⟩
    have hlo' : ((2 : ℚ) ^ Nat.log 2 n) ≤ (n : ℚ) := by exact_mod_cast hlo
    have hhi' : (n : ℚ) < (2 : ℚ) ^ (Nat.log 2 n + 1) := by exact_mod_cast hhi
    have hz : ((Nat.log 2 n : ℤ) - 23) = -(d : ℤ) := by omega
    have hpow : (2 : ℚ) ^ ((Nat.log 2 n : ℤ) - 23) = ((2 : ℚ) ^ d)⁻¹ := by
      rw [hz, zpow_neg, zpow_natCast]
    have key := rnd_eq_of (n : ℚ) (Nat.log 2 n : ℤ) ((n * 2 ^ d : ℕ) : ℤ) (by omega)
      (by rw [abs_of_nonneg (Nat.cast_nonneg n), zpow_natCast]; exact hlo')
      (by
        rw [abs_of_nonneg (Nat.cast_nonneg n)]
        have : ((Nat.log 2 n : ℤ) + 1) = ((Nat.log 2 n + 1 : ℕ) : ℤ) := by push_cast; ring
        rw [this, zpow_natCast]; exact hhi')
      (by
        rw [hpow]
        have : (n : ℚ) / ((2 : ℚ) ^ d)⁻¹ - (((n * 2 ^ d : ℕ) : ℤ) : ℚ) = 0 := by
          push_cast
          field_simp
        rw [this]; norm_num)
    rw [key, hpow]
    push_cast
    field_simp

end F32

theorem clamp_of_mem (v : ℚ) (h1 : MIN_VAL ≤ v) (h2 : v ≤ MAX_VAL) :
    std_max MIN_VAL (std_min MAX_VAL v) = v := by
  unfold MIN_VAL at *
  unfold MAX_VAL at *
  unfold std_max std_min
  split_ifs <;> linarith

theorem sub_max_min : F32.sub MAX_VAL MIN_VAL = 4 := by
  have h := F32.rnd_natCast 4 (by norm_num)
  unfold F32.sub MAX_VAL MIN_VAL
  norm_num at h ⊢
  exact h

theorem ofNat_eq (n : ℕ) (h : n < 2 ^ 24) : F32.ofNat n = n := F32.rnd_natCast n h

theorem toUInt8_bounds (p : ℚ) (h1 : -1 < p) (h2 : p < 256) :
    |((F32.toUInt8 p : ℕ) : ℚ) - p| < 1 ∧ ((F32.toUInt8 p : ℕ) : ℚ) ≤ max p 0 := by
  unfold F32.toUInt8
  have hf1 := Int.floor_le p
  have hf2 := Int.lt_floor_add_one p
  have hlt : ⌊p⌋ < 256 := by
    have : (⌊p⌋ : ℚ) < ((256 : ℤ) : ℚ) := by push_cast; linarith
    exact Int.cast_lt.mp this
  have hmod : ⌊p⌋.toNat % 256 = ⌊p⌋.toNat := Nat.mod_eq_of_lt (by omega)
  rw [hmod]
  by_cases hp : 0 ≤ p
  · have h0 : 0 ≤ ⌊p⌋ := Int.floor_nonneg.mpr hp
    have hc : ((⌊p⌋.toNat : ℕ) : ℚ) = (⌊p⌋ : ℚ) := by
      have : ((⌊p⌋.toNat : ℕ) : ℤ) = ⌊p⌋ := Int.toNat_of_nonneg h0
      exact_mod_cast this
    rw [hc, abs_lt]
    refine ⟨⟨by linarith, by linarith⟩, le_trans hf1 (le_max_left _ _)⟩
  · push_neg at hp
    have h0 : ⌊p⌋ < 0 := by
      have : (⌊p⌋ : ℚ) < ((0 : ℤ) : ℚ) := by push_cast; linarith
      exact Int.cast_lt.mp this
    have hz : ⌊p⌋.toNat = 0 := by omega
    rw [hz, abs_lt]
    simp only [Nat.cast_zero]
    refine ⟨⟨by linarith, by linarith⟩, le_max_right _ _⟩

end SPFresh

namespace SPFresh

theorem quantize_spec (L : ℕ) (hL1 : 127 ≤ L) (hL2 : L ≤ 255) (v : ℚ)
    (h1 : MIN_VAL ≤ v) (h2 : v ≤ MAX_VAL) :
    quantize L v ≤ L ∧ |((quantize L v : ℕ) : ℚ) - (v + 2) / 4 * L| ≤ 1 + 1 / 16384 := by
  have hLq1 : (127 : ℚ) ≤ L := by exact_mod_cast hL1
  have hLq2 : (L : ℚ) ≤ 255 := by exact_mod_cast hL2
  unfold quantize
  simp only []
  rw [clamp_of_mem v h1 h2, sub_max_min, ofNat_eq L (by omega)]
  unfold MIN_VAL at h1
  unfold MAX_VAL at h2
  unfold F32.div F32.sub F32.mul MIN_VAL
  have ht := F32.rnd_abs_err (v - -2) 2 (by norm_num) (by rw [abs_le]; constructor <;> norm_num <;> linarith)
  set t := F32.rnd (v - -2) with htdef
  rw [abs_le] at ht
  norm_num at ht
  have hn := F32.rnd_abs_err (t / 4) 1 (by norm_num) (by rw [abs_le]; constructor <;> norm_num <;> linarith)
  set n := F32.rnd (t / 4) with hndef
  rw [abs_le] at hn
  norm_num at hn
  have hp := F32.rnd_abs_err (n * L) 8 (by norm_num) (by
    rw [abs_le]; constructor <;> norm_num <;> nlinarith)
  set p := F32.rnd (n * L) with hpdef
  rw [abs_le] at hp
  norm_num at hp
  have hpx : |p - (v + 2) / 4 * L| ≤ 1 / 16384 := by
    rw [abs_le]; constructor <;> nlinarith
  rw [abs_le] at hpx
  have hx0 : 0 ≤ (v + 2) / 4 * (L : ℚ) := by
    apply mul_nonneg <;> linarith
  have hxL : (v + 2) / 4 * (L : ℚ) ≤ L := by nlinarith
  obtain ⟨hq1, hq2⟩ := toUInt8_bounds p (by linarith) (by linarith)
  rw [abs_lt] at hq1
  constructor
  · have : ((F32.toUInt8 p : ℕ) : ℚ) < ((L + 1 : ℕ) : ℚ) := by
      push_cast
      rcases max_cases p 0 with ⟨hm, _⟩ | ⟨hm, _⟩ <;> rw [hm] at hq2 <;> linarith
    have := Nat.cast_lt.mp this
    omega
  · rw [abs_le]; constructor <;> linarith

theorem dequantize_spec (L : ℕ) (hL1 : 127 ≤ L) (hL2 : L ≤ 255) (q : ℕ) (hq : q ≤ L) :
    |dequantize L q - (4 * (q : ℚ) / L - 2)| ≤ 5 / 4194304 := by
  have hLq1 : (127 : ℚ) ≤ L := by exact_mod_cast hL1
  have hLq2 : (L : ℚ) ≤ 255 := by exact_mod_cast hL2
  have hqL : (q : ℚ) ≤ L := by exact_mod_cast hq
  have hq0 : (0 : ℚ) ≤ q := Nat.cast_nonneg q
  have hLpos : (0 : ℚ) < L := by linarith
  unfold dequantize
  simp only []
  rw [sub_max_min, ofNat_eq L (by omega), ofNat_eq q (by omega)]
  unfold F32.div F32.add F32.mul MIN_VAL
  have hfrac0 : 0 ≤ (q : ℚ) / L := div_nonneg hq0 hLpos.le
  have hfrac1 : (q : ℚ) / L ≤ 1 := (div_le_one hLpos).mpr hqL
  have hd := F32.rnd_abs_err ((q : ℚ) / L) 0 (by norm_num) (by
    rw [abs_le]; constructor <;> norm_num <;> linarith)
  set d := F32.rnd ((q : ℚ) / L) with hddef
  rw [abs_le] at hd
  norm_num at hd
  have he := F32.rnd_abs_err (d * 4) 3 (by norm_num) (by
    rw [abs_le]; constructor <;> norm_num <;> linarith)
  set e := F32.rnd (d * 4) with hedef
  rw [abs_le] at he
  norm_num at he
  have hr := F32.rnd_abs_err (e + -2) 3 (by norm_num) (by
    rw [abs_le]; constructor <;> norm_num <;> linarith)
  set r := F32.rnd (e + -2) with hrdef
  rw [abs_le] at hr
  norm_num at hr
  have hmul : 4 * (q : ℚ) / L = 4 * ((q : ℚ) / L) := by ring
  rw [hmul, abs_le]
  constructor <;> linarith

end SPFresh

namespace SPFresh

theorem F32.rnd_eval (x : ℚ) (e m : ℤ) (he : -126 ≤ e) (h1 : 2 ^ e ≤ |x|)
    (h2 : |x| < 2 ^ (e + 1)) (hm : F32.roundHalfEven (x / 2 ^ (e - 23)) = m) :
    F32.rnd x = m * 2 ^ (e - 23) := by
  unfold F32.rnd F32.ulp
  rw [F32.expo_eq x e he h1 h2, hm]

end SPFresh

namespace SPFresh

theorem quantize_255_eval : quantize 255 (-16711423 / 16777216) = 63 := by
  have h1 : std_max MIN_VAL (std_min MAX_VAL (-16711423 / 16777216)) = -16711423 / 16777216 :=
    clamp_of_mem _ (by norm_num [MIN_VAL]) (by norm_num [MAX_VAL])
  have ht : F32.rnd ((-16711423 / 16777216 : ℚ) - -2) = 65793 / 65536 := by
    rw [F32.rnd_eval _ 0 8421504 (by norm_num) (by norm_num [abs_of_pos])
      (by norm_num [abs_of_pos]) (by norm_num [F32.roundHalfEven])]
    norm_num
  have hn : F32.rnd ((65793 / 65536 : ℚ) / 4) = 65793 / 262144 := by
    rw [F32.rnd_eval _ (-2) 8421504 (by norm_num) (by norm_num [abs_of_pos])
      (by norm_num [abs_of_pos]) (by norm_num [F32.roundHalfEven])]
    norm_num
  have hp : F32.rnd ((65793 / 262144 : ℚ) * (255 : ℕ)) = 16777215 / 262144 := by
    rw [F32.rnd_eval _ 5 16777215 (by norm_num) (by norm_num [abs_of_pos])
      (by norm_num [abs_of_pos]) (by norm_num [F32.roundHalfEven])]
    norm_num
  unfold quantize
  simp only []
  rw [h1, sub_max_min, ofNat_eq 255 (by norm_num)]
  unfold F32.div F32.sub F32.mul MIN_VAL
  rw [ht, hn, hp]
  have hfl : ⌊(16777215 / 262144 : ℚ)⌋ = 63 := by norm_num
  rw [F32.toUInt8, hfl]
  rfl

theorem dequantize_255_eval : dequantize 255 63 = -4243649 / 4194304 := by
  have hd : F32.rnd (((63 : ℕ) : ℚ) / (255 : ℕ)) = 16579837 / 67108864 := by
    rw [F32.rnd_eval _ (-3) 16579837 (by norm_num) (by norm_num [abs_of_pos])
      (by norm_num [abs_of_pos]) (by norm_num [F32.roundHalfEven])]
    norm_num
  have he : F32.rnd ((16579837 / 67108864 : ℚ) * 4) = 16579837 / 16777216 := by
    rw [F32.rnd_eval _ (-1) 16579837 (by norm_num) (by norm_num [abs_of_pos])
      (by norm_num [abs_of_pos]) (by norm_num [F32.roundHalfEven])]
    norm_num
  have hr : F32.rnd ((16579837 / 16777216 : ℚ) + -2) = -4243649 / 4194304 := by
    rw [F32.rnd_eval _ 0 (-8487298) (by norm_num) (by norm_num [abs_of_neg])
      (by norm_num [abs_of_neg]) (by norm_num [F32.roundHalfEven])]
    norm_num
  unfold dequantize
  simp only []
  rw [sub_max_min, ofNat_eq 255 (by norm_num), ofNat_eq 63 (by norm_num)]
  unfold F32.div F32.add F32.mul MIN_VAL
  rw [hd, he, hr]

theorem quantize_127_eval : quantize 127 (2245769 / 8388608) = 71 := by
  have h1 : std_max MIN_VAL (std_min MAX_VAL (2245769 / 8388608)) = 2245769 / 8388608 :=
    clamp_of_mem _ (by norm_num [MIN_VAL]) (by norm_num [MAX_VAL])
  have ht : F32.rnd ((2245769 / 8388608 : ℚ) - -2) = 2377873 / 1048576 := by
    rw [F32.rnd_eval _ 1 9511492 (by norm_num) (by norm_num [abs_of_pos])
      (by norm_num [abs_of_pos]) (by norm_num [F32.roundHalfEven])]
    norm_num
  have hn : F32.rnd ((2377873 / 1048576 : ℚ) / 4) = 2377873 / 4194304 := by
    rw [F32.rnd_eval _ (-1) 9511492 (by norm_num) (by norm_num [abs_of_pos])
      (by norm_num [abs_of_pos]) (by norm_num [F32.roundHalfEven])]
    norm_num
  have hp : F32.rnd ((2377873 / 4194304 : ℚ) * (127 : ℕ)) = 9437183 / 131072 := by
    rw [F32.rnd_eval _ 6 9437183 (by norm_num) (by norm_num [abs_of_pos])
      (by norm_num [abs_of_pos]) (by norm_num [F32.roundHalfEven])]
    norm_num
  unfold quantize
  simp only []
  rw [h1, sub_max_min, ofNat_eq 127 (by norm_num)]
  unfold F32.div F32.sub F32.mul MIN_VAL
  rw [ht, hn, hp]
  have hfl : ⌊(9437183 / 131072 : ℚ)⌋ = 71 := by norm_num
  rw [F32.toUInt8, hfl]
  rfl

theorem dequantize_127_eval : dequantize 127 71 = 247695 / 1048576 := by
  have hd : F32.rnd (((71 : ℕ) : ℚ) / (127 : ℕ)) = 2344847 / 4194304 := by
    rw [F32.rnd_eval _ (-1) 9379388 (by norm_num) (by norm_num [abs_of_pos])
      (by norm_num [abs_of_pos]) (by norm_num [F32.roundHalfEven])]
    norm_num
  have he : F32.rnd ((2344847 / 4194304 : ℚ) * 4) = 2344847 / 1048576 := by
    rw [F32.rnd_eval _ 1 9379388 (by norm_num) (by norm_num [abs_of_pos])
      (by norm_num [abs_of_pos]) (by norm_num [F32.roundHalfEven])]
    norm_num
  have hr : F32.rnd ((2344847 / 1048576 : ℚ) + -2) = 247695 / 1048576 := by
    rw [F32.rnd_eval _ (-3) 15852480 (by norm_num) (by norm_num [abs_of_pos])
      (by norm_num [abs_of_pos]) (by norm_num [F32.roundHalfEven])]
    norm_num
  unfold dequantize
  simp only []
  rw [sub_max_min, ofNat_eq 127 (by norm_num), ofNat_eq 71 (by norm_num)]
  unfold F32.div F32.add F32.mul MIN_VAL
  rw [hd, he, hr]

theorem isFloat_v255 : F32.IsFloat (-16711423 / 16777216) := by
  unfold F32.IsFloat
  rw [F32.rnd_eval _ (-1) (-16711423) (by norm_num) (by norm_num [abs_of_neg])
    (by norm_num [abs_of_neg]) (by norm_num [F32.roundHalfEven])]
  norm_num

theorem isFloat_v127 : F32.IsFloat (2245769 / 8388608) := by
  unfold F32.IsFloat
  rw [F32.rnd_eval _ (-2) 8983076 (by norm_num) (by norm_num [abs_of_pos])
    (by norm_num [abs_of_pos]) (by norm_num [F32.roundHalfEven])]
  norm_num

/-! ## C1: reconstruction error of the codec -/

/-- C1, counterexample.  The claim bounds the reconstruction error by
`(MAX_VAL - MIN_VAL) / LEVELS` for every float in `[MIN_VAL, MAX_VAL]`.  With
`LEVELS = 255` the binary32 value `-16711423 / 2^24` is quantized to level 63 and
dequantized to `-4243649 / 2^22`, an error of `263173 / 2^24`, above `4 / 255`; with
`LEVELS = 127` the binary32 value `2245769 / 2^23` is quantized to level 71 and
dequantized to `247695 / 2^20`, an error of `264209 / 2^23`, above `4 / 127`. -/
theorem codec_error_exceeds_step :
    (F32.IsFloat (-16711423 / 16777216) ∧
      MIN_VAL ≤ (-16711423 / 16777216 : ℚ) ∧ (-16711423 / 16777216 : ℚ) ≤ MAX_VAL ∧
      ¬ |dequantize 255 (quantize 255 (-16711423 / 16777216)) - (-16711423 / 16777216)|
          ≤ (MAX_VAL - MIN_VAL) / (255 : ℕ)) ∧
    (F32.IsFloat (2245769 / 8388608) ∧
      MIN_VAL ≤ (2245769 / 8388608 : ℚ) ∧ (2245769 / 8388608 : ℚ) ≤ MAX_VAL ∧
      ¬ |dequantize 127 (quantize 127 (2245769 / 8388608)) - 2245769 / 8388608|
          ≤ (MAX_VAL - MIN_VAL) / (127 : ℕ)) := by
  refine ⟨⟨isFloat_v255, by norm_num [MIN_VAL], by norm_num [MAX_VAL], ?_⟩,
    ⟨isFloat_v127, by norm_num [MIN_VAL], by norm_num [MAX_VAL], ?_⟩⟩
  · rw [quantize_255_eval, dequantize_255_eval]
    norm_num [MIN_VAL, MAX_VAL, abs_of_neg]
  · rw [quantize_127_eval, dequantize_127_eval]
    norm_num [MIN_VAL, MAX_VAL, abs_of_neg]

/-- C1, amended.  For every `LEVELS` between 127 and 255 (both variants) and every
value `v` with `MIN_VAL ≤ v ≤ MAX_VAL`, the reconstruction error
`|dequantize(quantize(v)) - v|` is at most `(MAX_VAL - MIN_VAL) / LEVELS + 2^(-18)`:
one quantization step plus the accumulated rounding of the binary32 operations. -/
theorem codec_error_bound (L : ℕ) (hlo : 127 ≤ L) (hhi : L ≤ 255) (v : ℚ)
    (h1 : MIN_VAL ≤ v) (h2 : v ≤ MAX_VAL) :
    |dequantize L (quantize L v) - v| ≤ (MAX_VAL - MIN_VAL) / L + 1 / 262144 := by
  have hLq1 : (127 : ℚ) ≤ L := by exact_mod_cast hlo
  have hLpos : (0 : ℚ) < L := by linarith
  obtain ⟨hqL, hqx⟩ := quantize_spec L hlo hhi v h1 h2
  have hd := dequantize_spec L hlo hhi (quantize L v) hqL
  set q : ℚ := ((quantize L v : ℕ) : ℚ) with hqdef
  set r := dequantize L (quantize L v) with hrdef
  have hc : (4 : ℚ) / L ≤ 4 / 127 := by
    exact div_le_div_of_nonneg_left (by norm_num) (by norm_num) hLq1
  have hc0 : (0 : ℚ) < 4 / L := by positivity
  have hid : 4 * q / L - 2 - v = 4 / L * (q - (v + 2) / 4 * L) := by
    field_simp
    ring
  have hb : |4 * q / L - 2 - v| ≤ 4 / L * (1 + 1 / 16384) := by
    rw [hid, abs_mul, abs_of_pos hc0]
    exact mul_le_mul_of_nonneg_left hqx hc0.le
  have hsplit : r - v = (r - (4 * q / L - 2)) + (4 * q / L - 2 - v) := by ring
  have htri := abs_add (r - (4 * q / L - 2)) (4 * q / L - 2 - v)
  rw [← hsplit] at htri
  unfold MAX_VAL MIN_VAL
  have h4 : ((2 : ℚ) - -2) / L = 4 / L := by norm_num
  rw [h4]
  nlinarith

/-- C1, witness of the amended bound: `LEVELS = 255` and `v = 1`. -/
theorem codec_error_bound_witness :
    127 ≤ 255 ∧ 255 ≤ 255 ∧ MIN_VAL ≤ (1 : ℚ) ∧ (1 : ℚ) ≤ MAX_VAL ∧
    |dequantize 255 (quantize 255 1) - 1| ≤ (MAX_VAL - MIN_VAL) / (255 : ℕ) + 1 / 262144 :=
  ⟨by decide, by decide, by norm_num [MIN_VAL], by norm_num [MAX_VAL],
    codec_error_bound 255 (by decide) (by decide) 1 (by norm_num [MIN_VAL]) (by norm_num [MAX_VAL])⟩

end SPFresh

namespace SPFreshLocal
open SPFresh
theorem flush_fields (fr : FloatRepr) (fs : FileSys) (s : SPFreshIndex) :
    (flush_write_buffer fr fs s).1.quantized_vectors = s.quantized_vectors ∧
    (flush_write_buffer fr fs s).1.norms = s.norms ∧
    (flush_write_buffer fr fs s).1.dimension = s.dimension ∧
    (flush_write_buffer fr fs s).1.path = s.path := by
  unfold flush_write_buffer
  dsimp only
  split_ifs <;> simp

theorem append_ok_local (fr : FloatRepr) (fs : FileSys) (s : SPFreshIndex) (vector : List ℚ)
    (dim : ℕ) (h : dim = s.dimension) :
    (append fr fs s vector dim).1 = 0 ∧
    (append fr fs s vector dim).2.1.quantized_vectors =
      s.quantized_vectors ++ [quantize_vector QUANTIZATION_LEVELS (readBuf vector dim)] ∧
    (append fr fs s vector dim).2.1.norms = s.norms ++ [calculate_norm (readBuf vector dim)] ∧
    (append fr fs s vector dim).2.1.dimension = s.dimension ∧
    (append fr fs s vector dim).2.1.path = s.path := by
  unfold append
  rw [if_neg (by simpa using h)]
  simp only []
  split_ifs
  · simp [flush_fields]
  · simp

theorem append_all_ok_local (fr : FloatRepr) (vs : List (List ℚ)) :
    ∀ (fs : FileSys) (s : SPFreshIndex),
      (append_all fr fs s vs).2.1.size = s.size + vs.length ∧
      (∀ st ∈ (append_all fr fs s vs).1, st = 0) ∧
      (append_all fr fs s vs).1.length = vs.length := by
  induction vs with
  | nil => intro fs s; simp [append_all]
  | cons v vs ih =>
    intro fs s
    obtain ⟨h1, h2, _, _, _⟩ := append_ok_local fr fs s v s.dimension rfl
    obtain ⟨i1, i2, i3⟩ := ih (append fr fs s v s.dimension).2.2 (append fr fs s v s.dimension).2.1
    simp only [append_all]
    refine ⟨?_, ?_, ?_⟩
    · rw [i1]
      simp only [SPFreshIndex.size, h2, List.length_append, List.length_cons, List.length_nil]
      omega
    · intro st hst
      rcases List.mem_cons.mp hst with h | h
      · rw [h, h1]
      · exact i2 st h
    · simp [i3]

theorem create_fresh_local (fr : FloatRepr) (fs : FileSys) (p : String)
    (h : fs.content (base_path p ++ ".vectors") = none) :
    (SPFreshIndex.create fr fs p).1 =
      { path := base_path p, quantized_vectors := [], norms := [], dimension := 768,
        write_buffer_vectors := [], write_buffer_norms := [] } := by
  simp [SPFreshIndex.create, load_index, vec_path, h]

end SPFreshLocal

namespace SPFresh

/-- An append with the dimension of the index pushes the vector and its norm and then
blocks in `save_index`: no status, no file written. -/
theorem append_fields (fr : FloatRepr) (fs : FileSys) (s : SPFreshIndex) (vector : List ℚ)
    (dim : ℕ) (h : dim = s.dimension) :
    (append fr fs s vector dim).1 = none ∧
    (append fr fs s vector dim).2.1.quantized_vectors =
      s.quantized_vectors ++ [quantize_vector QUANTIZATION_LEVELS (readBuf vector dim)] ∧
    (append fr fs s vector dim).2.1.norms = s.norms ++ [calculate_norm (readBuf vector dim)] ∧
    (append fr fs s vector dim).2.1.dimension = s.dimension ∧
    (append fr fs s vector dim).2.1.path = s.path ∧
    (append fr fs s vector dim).2.2 = fs := by
  unfold append
  rw [if_neg (by simpa using h)]
  simp [save_index_call, lock_guard]

/-- The statuses `append` can return. -/
theorem append_status (fr : FloatRepr) (fs : FileSys) (s : SPFreshIndex) (vector : List ℚ)
    (dim : ℕ) :
    (append fr fs s vector dim).1 = (if dim ≠ s.dimension then some (-1) else none) := by
  by_cases h : dim = s.dimension
  · rw [(append_fields fr fs s vector dim h).1, if_neg (by simpa using h)]
  · unfold append
    rw [if_pos h, if_pos h]

theorem create_fresh (fr : FloatRepr) (junk : Uninit) (fs : FileSys) (p : String)
    (h : fs.content p = none) :
    SPFreshIndex.create fr junk fs p =
      { path := p, quantized_vectors := [], norms := [], dimension := 768 } := by
  simp [SPFreshIndex.create, load_index, h]

end SPFresh

namespace SPFresh
theorem freshIndex_eq : freshIndex = SPFreshIndex.mk "idx" [] [] 768 :=
  create_fresh _ _ _ _ rfl
end SPFresh

namespace SPFreshLocal
theorem freshIndex_eq_local : freshIndex = SPFreshIndex.mk "idx" [] [] 768 [] [] :=
  create_fresh_local _ _ _ (by rfl)
end SPFreshLocal

/-! ## C2: append with a wrong dimension -/

/-- C2.  In both layouts an append whose `dim` differs from the dimension of the index
returns `-1` and changes nothing: the index (its vectors, norms, size and, in the
split-file layout, its write buffer) and the files are returned as they were. -/
theorem append_dimension_mismatch (fr : SPFresh.FloatRepr)
    (fsA : SPFresh.FileSys) (sA : SPFresh.SPFreshIndex) (vecA : List ℚ) (dimA : ℕ)
    (fsB : SPFresh.FileSys) (sB : SPFreshLocal.SPFreshIndex) (vecB : List ℚ) (dimB : ℕ)
    (hA : dimA ≠ sA.dimension) (hB : dimB ≠ sB.dimension) :
    SPFresh.append fr fsA sA vecA dimA = (some (-1), sA, fsA) ∧
    SPFreshLocal.append fr fsB sB vecB dimB = (-1, sB, fsB) := by
  constructor
  · unfold SPFresh.append
    rw [if_pos hA]
  · unfold SPFreshLocal.append
    rw [if_pos hB]

/-- C2, witness: a three-element vector offered to empty indexes of dimension 768. -/
theorem append_dimension_mismatch_witness :
    (3 ≠ (SPFresh.SPFreshIndex.mk "a" [] [] 768).dimension ∧
     3 ≠ (SPFreshLocal.SPFreshIndex.mk "a" [] [] 768 [] []).dimension) ∧
    (SPFresh.append SPFresh.zeroRepr SPFresh.emptyFs (SPFresh.SPFreshIndex.mk "a" [] [] 768)
        [1, 2, 3] 3 = (some (-1), SPFresh.SPFreshIndex.mk "a" [] [] 768, SPFresh.emptyFs) ∧
     SPFreshLocal.append SPFresh.zeroRepr SPFresh.emptyFs
        (SPFreshLocal.SPFreshIndex.mk "a" [] [] 768 [] []) [1, 2, 3] 3
        = (-1, SPFreshLocal.SPFreshIndex.mk "a" [] [] 768 [] [], SPFresh.emptyFs)) :=
  ⟨⟨by decide, by decide⟩,
    append_dimension_mismatch SPFresh.zeroRepr SPFresh.emptyFs _ [1, 2, 3] 3
      SPFresh.emptyFs _ [1, 2, 3] 3 (by decide) (by decide)⟩

/-! ## C3: value returned by a successful append -/

/-- C3, counterexample.  The claim has a successful append return the id of the new
vector, the length of the store before the call.  In the split-file layout the second
append of a 768-element vector to an index constructed on a fresh path succeeds with the
store holding one vector before the call and two after it, and returns `0`, not `1`. -/
theorem second_append_returns_zero :
    SPFreshLocal.onceAppended.1 = 0 ∧ SPFreshLocal.onceAppended.2.1.size = 1 ∧
    (SPFreshLocal.append SPFresh.zeroRepr SPFreshLocal.onceAppended.2.2
      SPFreshLocal.onceAppended.2.1 SPFresh.zeros768 768).2.1.size = 2 ∧
    (SPFreshLocal.append SPFresh.zeroRepr SPFreshLocal.onceAppended.2.2
      SPFreshLocal.onceAppended.2.1 SPFresh.zeros768 768).1 = 0 ∧
    (SPFreshLocal.append SPFresh.zeroRepr SPFreshLocal.onceAppended.2.2
      SPFreshLocal.onceAppended.2.1 SPFresh.zeros768 768).1
      ≠ (SPFreshLocal.onceAppended.2.1.size : ℤ) := by
  have hd0 : (768 : ℕ) = SPFreshLocal.freshIndex.dimension := by
    rw [SPFreshLocal.freshIndex_eq_local]
  obtain ⟨a1, a2, _, a4, _⟩ :=
    SPFreshLocal.append_ok_local SPFresh.zeroRepr SPFresh.emptyFs SPFreshLocal.freshIndex
      SPFresh.zeros768 768 hd0
  have hs1 : SPFreshLocal.onceAppended.2.1.size = 1 := by
    unfold SPFreshLocal.onceAppended SPFreshLocal.SPFreshIndex.size
    rw [a2, SPFreshLocal.freshIndex_eq_local]
    rfl
  have hd1 : (768 : ℕ) = SPFreshLocal.onceAppended.2.1.dimension := by
    unfold SPFreshLocal.onceAppended
    rw [a4, SPFreshLocal.freshIndex_eq_local]
  obtain ⟨b1, b2, _, _, _⟩ :=
    SPFreshLocal.append_ok_local SPFresh.zeroRepr SPFreshLocal.onceAppended.2.2
      SPFreshLocal.onceAppended.2.1 SPFresh.zeros768 768 hd1
  refine ⟨a1, hs1, ?_, b1, ?_⟩
  · unfold SPFreshLocal.SPFreshIndex.size at hs1 ⊢
    rw [b2, List.length_append, hs1]
    rfl
  · rw [b1, hs1]
    decide

/-- C3, amended.  In the split-file layout an append with `dim` equal to the dimension of
the index succeeds and returns the status `0`, not an id; the id of the new vector is the
length of the store before the call, the position at which its quantized form is
stored. -/
theorem append_returns_status (fr : SPFresh.FloatRepr)
    (fsB : SPFresh.FileSys) (sB : SPFreshLocal.SPFreshIndex) (vecB : List ℚ) (dimB : ℕ)
    (hB : dimB = sB.dimension) :
    (SPFreshLocal.append fr fsB sB vecB dimB).1 = 0 ∧
    (SPFreshLocal.append fr fsB sB vecB dimB).2.1.quantized_vectors[sB.size]? =
      some (SPFresh.quantize_vector SPFreshLocal.QUANTIZATION_LEVELS
        (SPFresh.readBuf vecB dimB)) ∧
    (SPFreshLocal.append fr fsB sB vecB dimB).2.1.size = sB.size + 1 := by
  obtain ⟨h1, h2, _⟩ := SPFreshLocal.append_ok_local fr fsB sB vecB dimB hB
  refine ⟨h1, ?_, ?_⟩
  · rw [h2]
    simp [SPFreshLocal.SPFreshIndex.size]
  · simp [SPFreshLocal.SPFreshIndex.size, h2]

/-- C3, witness: a two-element vector appended to an index of dimension 2 that holds one
vector: the status is `0` and the vector is stored at position 1. -/
theorem append_returns_status_witness :
    (SPFreshLocal.append SPFresh.zeroRepr SPFresh.emptyFs
        (SPFreshLocal.SPFreshIndex.mk "a" [[0, 0]] [0] 2 [] []) [1, 1] 2).1 = 0 ∧
    (SPFreshLocal.append SPFresh.zeroRepr SPFresh.emptyFs
        (SPFreshLocal.SPFreshIndex.mk "a" [[0, 0]] [0] 2 [] []) [1, 1] 2).2.1.quantized_vectors[
          (SPFreshLocal.SPFreshIndex.mk "a" [[0, 0]] [0] 2 [] []).size]? =
      some (SPFresh.quantize_vector SPFreshLocal.QUANTIZATION_LEVELS
        (SPFresh.readBuf [1, 1] 2)) ∧
    (SPFreshLocal.append SPFresh.zeroRepr SPFresh.emptyFs
        (SPFreshLocal.SPFreshIndex.mk "a" [[0, 0]] [0] 2 [] []) [1, 1] 2).2.1.size =
      (SPFreshLocal.SPFreshIndex.mk "a" [[0, 0]] [0] 2 [] []).size + 1 :=
  append_returns_status SPFresh.zeroRepr SPFresh.emptyFs
    (SPFreshLocal.SPFreshIndex.mk "a" [[0, 0]] [0] 2 [] []) [1, 1] 2 rfl

/-! ## C4: the store is append-only -/

/-- C4.  Split-file layout: an append with `dim` equal to the dimension of the index
succeeds (status 0) and, for a store of `n` vectors, appends the element-wise quantization
of the vector to `quantized_vectors` and the norm of the unquantized vector to `norms`:
entries `0..n-1` of both are unchanged, entry `n` is the new one (for `norms` when it has
the length `n` of the store, as the invariant of the data model says) and the size
becomes `n + 1`; a run of `N` such appends succeeds throughout and raises the size by `N`,
so from an empty index the size is `N`.  Single-file layout: no append with `dim` equal
to the dimension returns, so none is successful; the two `push_back`s it makes before it
blocks change the store in the same way. -/
theorem append_only_store (fr : SPFresh.FloatRepr)
    (fsA : SPFresh.FileSys) (sA : SPFresh.SPFreshIndex) (vecA : List ℚ) (dimA : ℕ)
    (fsB : SPFresh.FileSys) (sB : SPFreshLocal.SPFreshIndex) (vecB : List ℚ) (dimB : ℕ)
    (vsB : List (List ℚ))
    (hA : dimA = sA.dimension) (hB : dimB = sB.dimension) :
    ((SPFreshLocal.append fr fsB sB vecB dimB).1 = 0 ∧
      (SPFreshLocal.append fr fsB sB vecB dimB).2.1.quantized_vectors =
        sB.quantized_vectors ++
          [SPFresh.quantize_vector SPFreshLocal.QUANTIZATION_LEVELS (SPFresh.readBuf vecB dimB)] ∧
      (SPFreshLocal.append fr fsB sB vecB dimB).2.1.norms =
        sB.norms ++ [SPFresh.calculate_norm (SPFresh.readBuf vecB dimB)] ∧
      (SPFreshLocal.append fr fsB sB vecB dimB).2.1.size = sB.size + 1 ∧
      (∀ i, i < sB.size →
        (SPFreshLocal.append fr fsB sB vecB dimB).2.1.quantized_vectors[i]?
          = sB.quantized_vectors[i]?) ∧
      (∀ i, i < sB.norms.length →
        (SPFreshLocal.append fr fsB sB vecB dimB).2.1.norms[i]? = sB.norms[i]?) ∧
      (SPFreshLocal.append fr fsB sB vecB dimB).2.1.quantized_vectors[sB.size]? =
        some (SPFresh.quantize_vector SPFreshLocal.QUANTIZATION_LEVELS
          (SPFresh.readBuf vecB dimB)) ∧
      (SPFreshLocal.append fr fsB sB vecB dimB).2.1.norms[sB.norms.length]? =
        some (SPFresh.calculate_norm (SPFresh.readBuf vecB dimB)) ∧
      (sB.norms.length = sB.size →
        (SPFreshLocal.append fr fsB sB vecB dimB).2.1.norms[sB.size]? =
          some (SPFresh.calculate_norm (SPFresh.readBuf vecB dimB))) ∧
      (∀ st ∈ (SPFreshLocal.append_all fr fsB sB vsB).1, st = 0) ∧
      (SPFreshLocal.append_all fr fsB sB vsB).1.length = vsB.length ∧
      (SPFreshLocal.append_all fr fsB sB vsB).2.1.size = sB.size + vsB.length ∧
      (sB.size = 0 → (SPFreshLocal.append_all fr fsB sB vsB).2.1.size = vsB.length)) ∧
    ((SPFresh.append fr fsA sA vecA dimA).1 = none ∧
      (SPFresh.append fr fsA sA vecA dimA).2.1.quantized_vectors =
        sA.quantized_vectors ++
          [SPFresh.quantize_vector SPFresh.QUANTIZATION_LEVELS (SPFresh.readBuf vecA dimA)] ∧
      (SPFresh.append fr fsA sA vecA dimA).2.1.norms =
        sA.norms ++ [SPFresh.calculate_norm (SPFresh.readBuf vecA dimA)] ∧
      (SPFresh.append fr fsA sA vecA dimA).2.1.size = sA.size + 1 ∧
      (∀ i, i < sA.size →
        (SPFresh.append fr fsA sA vecA dimA).2.1.quantized_vectors[i]? = sA.quantized_vectors[i]?) ∧
      (∀ i, i < sA.norms.length →
        (SPFresh.append fr fsA sA vecA dimA).2.1.norms[i]? = sA.norms[i]?)) := by
  constructor
  · obtain ⟨h1, h2, h3, _⟩ := SPFreshLocal.append_ok_local fr fsB sB vecB dimB hB
    obtain ⟨i1, i2, i3⟩ := SPFreshLocal.append_all_ok_local fr vsB fsB sB
    refine ⟨h1, h2, h3, ?_, ?_, ?_, ?_, ?_, ?_, i2, i3, i1, ?_⟩
    · simp [SPFreshLocal.SPFreshIndex.size, h2]
    · intro i hi
      rw [h2]
      exact List.getElem?_append_left hi
    · intro i hi
      rw [h3]
      exact List.getElem?_append_left hi
    · rw [h2]
      simp [SPFreshLocal.SPFreshIndex.size]
    · rw [h3]
      simp
    · intro hn
      rw [h3, ← hn]
      simp
    · intro h0
      rw [i1, h0]
      simp
  · obtain ⟨h1, h2, h3, _⟩ := SPFresh.append_fields fr fsA sA vecA dimA hA
    refine ⟨h1, h2, h3, ?_, ?_, ?_⟩
    · simp [SPFresh.SPFreshIndex.size, h2]
    · intro i hi
      rw [h2]
      exact List.getElem?_append_left hi
    · intro i hi
      rw [h3]
      exact List.getElem?_append_left hi

/-- C4, witness: appends to indexes of dimension 2 that already hold one vector. -/
theorem append_only_store_witness :
    (SPFreshLocal.append SPFresh.zeroRepr SPFresh.emptyFs
        (SPFreshLocal.SPFreshIndex.mk "a" [[0, 0]] [0] 2 [] []) [1, 1] 2).1 = 0 ∧
    (SPFreshLocal.append SPFresh.zeroRepr SPFresh.emptyFs
        (SPFreshLocal.SPFreshIndex.mk "a" [[0, 0]] [0] 2 [] []) [1, 1] 2).2.1.size = 2 ∧
    (SPFreshLocal.append_all SPFresh.zeroRepr SPFresh.emptyFs
        (SPFreshLocal.SPFreshIndex.mk "a" [[0, 0]] [0] 2 [] []) [[1, 1], [0, 1]]).2.1.size
      = 3 :=
  have h := (append_only_store SPFresh.zeroRepr SPFresh.emptyFs
      (SPFresh.SPFreshIndex.mk "a" [[0, 0]] [0] 2) [1, 1] 2 SPFresh.emptyFs
      (SPFreshLocal.SPFreshIndex.mk "a" [[0, 0]] [0] 2 [] []) [1, 1] 2 [[1, 1], [0, 1]]
      rfl rfl).1
  ⟨h.1, h.2.2.2.1, h.2.2.2.2.2.2.2.2.2.2.2.1⟩

/-! ## Store invariants -/

namespace SPFresh

theorem read_length (st : IStream) (buf : List ℕ) : (st.read buf).1.length = buf.length := by
  unfold IStream.read
  split_ifs
  · simp only [List.length_append, List.length_take, List.length_drop]
    omega
  · rfl

theorem read_vectors_spec (dimension : ℕ) (n : ℕ) :
    ∀ st : IStream, (read_vectors dimension n st).length = n ∧
      ∀ v ∈ read_vectors dimension n st, v.length = dimension := by
  induction n with
  | zero => intro st; simp [read_vectors]
  | succ n ih =>
    intro st
    obtain ⟨h1, h2⟩ := ih (st.read (List.replicate dimension 0)).2
    simp only [read_vectors, List.length_cons, List.mem_cons]
    refine ⟨by omega, ?_⟩
    intro v hv
    rcases hv with hv | hv
    · rw [hv, read_length, List.length_replicate]
    · exact h2 v hv

theorem chunk_length (k n : ℕ) (bs : List ℕ) : (chunk k n bs).length = n := by
  simp [chunk]

theorem readBuf_length (p : List ℚ) (n : ℕ) : (readBuf p n).length = n := by
  simp [readBuf]

theorem quantize_vector_length (L : ℕ) (vec : List ℚ) :
    (quantize_vector L vec).length = vec.length := by
  simp [quantize_vector]

end SPFresh

namespace SPFreshLocal
open SPFresh

theorem load_index_inv_local (fr : FloatRepr) (fs : FileSys) (s : SPFreshIndex) :
    Inv (load_index fr fs s).2.1 := by
  unfold load_index
  cases h : fs.content (vec_path s) with
  | none => simp [Inv]
  | some vbytes =>
    simp only [save_index_call, lock_guard, Bool.not_true, Bool.false_eq_true, if_false]
    split_ifs with h1 h2
    · simp [Inv]
    · refine ⟨?_, ?_⟩
      · simp
      · exact (read_vectors_spec _ _ _).2
    · refine ⟨?_, ?_⟩
      · push_neg at h2
        simp only []
        rw [h2]
        exact ((read_vectors_spec _ _ _).1).symm
      · exact (read_vectors_spec _ _ _).2

theorem append_inv_local (fr : FloatRepr) (fs : FileSys) (s : SPFreshIndex) (vector : List ℚ)
    (dim : ℕ) (h : Inv s) : Inv (append fr fs s vector dim).2.1 := by
  by_cases hd : dim = s.dimension
  · obtain ⟨_, h2, h3, h4, _⟩ := append_ok_local fr fs s vector dim hd
    refine ⟨?_, ?_⟩
    · rw [h2, h3]
      simp [h.1]
    · rw [h2, h4]
      intro v hv
      rcases List.mem_append.mp hv with hv | hv
      · exact h.2 v hv
      · rw [List.mem_singleton.mp hv, quantize_vector_length, readBuf_length, hd]
  · unfold append
    rw [if_pos hd]
    exact h

end SPFreshLocal

/-! ## C5: invariants of the store -/

namespace SPFresh

theorem sort_insert_perm (x : ℚ × ℕ) (l : List (ℚ × ℕ)) : (sort_insert x l).Perm (x :: l) := by
  induction l with
  | nil => simp [sort_insert]
  | cons y ys ih =>
    unfold sort_insert
    split_ifs
    · exact (List.Perm.cons y ih).trans (List.Perm.swap x y ys)
    · exact List.Perm.refl _

theorem std_sort_perm (l : List (ℚ × ℕ)) : (std_sort l).Perm l := by
  induction l with
  | nil => simp [std_sort]
  | cons x xs ih =>
    have h : std_sort (x :: xs) = sort_insert x (std_sort xs) := rfl
    rw [h]
    exact (sort_insert_perm x _).trans (List.Perm.cons x ih)

theorem std_sort_length (l : List (ℚ × ℕ)) : (std_sort l).length = l.length :=
  (std_sort_perm l).length_eq

theorem scan_length (L : ℕ) (qv : List (List ℕ)) (norms : List ℚ) (query : List ℚ) (dim : ℕ) :
    (scan L qv norms query dim).length = qv.length := by
  simp [scan]

theorem scan_ids (L : ℕ) (qv : List (List ℕ)) (norms : List ℚ) (query : List ℚ) (dim : ℕ) :
    (scan L qv norms query dim).map Prod.snd = List.range qv.length := by
  simp [scan, List.map_map, Function.comp_def]

theorem mem_scan (L : ℕ) (qv : List (List ℕ)) (norms : List ℚ) (query : List ℚ) (dim : ℕ)
    (p : ℚ × ℕ) (hp : p ∈ scan L qv norms query dim) :
    p.2 < qv.length ∧
    p.1 = similarity (calculate_norm (readBuf query dim)) (norms.getD p.2 0)
      (dot_product L query (qv.getD p.2 []) dim) := by
  unfold scan at hp
  obtain ⟨i, hi, rfl⟩ := List.mem_map.mp hp
  exact ⟨List.mem_range.mp hi, rfl⟩

theorem search_results_length (L : ℕ) (qv : List (List ℕ)) (norms : List ℚ) (query : List ℚ)
    (dim top_k : ℕ) :
    (search_results L qv norms query dim top_k).length = min top_k qv.length := by
  unfold search_results
  simp only [List.length_take, std_sort_length, scan_length]
  omega

theorem search_results_eq (L : ℕ) (qv : List (List ℕ)) (norms : List ℚ) (query : List ℚ)
    (dim top_k : ℕ) :
    search_results L qv norms query dim top_k =
      (std_sort (scan L qv norms query dim)).take (min top_k qv.length) := by
  unfold search_results
  simp only [std_sort_length, scan_length]

theorem write_results_get (scores : List (ℚ × ℕ)) (n : ℕ) (ri : List ℕ) (rs : List ℚ) (i : ℕ) :
    (write_results scores n ri rs).1.length = ri.length ∧
    (write_results scores n ri rs).2.length = rs.length ∧
    (write_results scores n ri rs).1[i]? =
      (if i < n ∧ i < ri.length then some (scores.getD i (0, 0)).2 else ri[i]?) ∧
    (write_results scores n ri rs).2[i]? =
      (if i < n ∧ i < rs.length then some (scores.getD i (0, 0)).1 else rs[i]?) := by
  induction n with
  | zero => simp [write_results]
  | succ n ih =>
    obtain ⟨h1, h2, h3, h4⟩ := ih
    have hstep : write_results scores (n + 1) ri rs =
        ((write_results scores n ri rs).1.set n (scores.getD n (0, 0)).2,
         (write_results scores n ri rs).2.set n (scores.getD n (0, 0)).1) := by
      simp [write_results, List.range_succ, List.foldl_append]
    rw [hstep]
    refine ⟨by simp [h1], by simp [h2], ?_, ?_⟩
    · simp only [List.getElem?_set, h1]
      by_cases hin : n = i
      · subst hin
        by_cases hl : n < ri.length
        · simp [hl]
        · simp [hl, h3]
          omega
      · rw [if_neg hin, h3]
        have : (i < n + 1) ↔ (i < n) := by omega
        simp only [this]
    · simp only [List.getElem?_set, h2]
      by_cases hin : n = i
      · subst hin
        by_cases hl : n < rs.length
        · simp [hl]
        · simp [hl, h4]
          omega
      · rw [if_neg hin, h4]
        have : (i < n + 1) ↔ (i < n) := by omega
        simp only [this]

end SPFresh

namespace SPFresh

theorem search_core_status (L dimension : ℕ) (qv : List (List ℕ)) (norms : List ℚ)
    (query : List ℚ) (dim top_k : ℕ) (ri : List ℕ) (rs : List ℚ) :
    ((dim ≠ dimension ∨ top_k = 0 ∨ qv = []) →
      search_core L dimension qv norms query dim top_k ri rs = (-1, ri, rs)) ∧
    (¬ (dim ≠ dimension ∨ top_k = 0 ∨ qv = []) →
      search_core L dimension qv norms query dim top_k ri rs =
        (0, (write_results (std_sort (scan L qv norms query dim)) (min top_k qv.length) ri rs).1,
            (write_results (std_sort (scan L qv norms query dim)) (min top_k qv.length) ri rs).2)) := by
  constructor
  · intro h
    unfold search_core
    rw [if_pos h]
  · intro h
    unfold search_core
    rw [if_neg h]
    simp only [std_sort_length, scan_length]

theorem search_core_fail_iff (L dimension : ℕ) (qv : List (List ℕ)) (norms : List ℚ)
    (query : List ℚ) (dim top_k : ℕ) (ri : List ℕ) (rs : List ℚ) :
    (search_core L dimension qv norms query dim top_k ri rs).1 = -1 ↔
      (dim ≠ dimension ∨ top_k = 0 ∨ qv = []) := by
  obtain ⟨h1, h2⟩ := search_core_status L dimension qv norms query dim top_k ri rs
  constructor
  · intro h
    by_contra hc
    rw [h2 hc] at h
    simp at h
  · intro h
    rw [h1 h]

theorem search_core_success (L dimension : ℕ) (qv : List (List ℕ)) (norms : List ℚ)
    (query : List ℚ) (dim top_k : ℕ) (ri : List ℕ) (rs : List ℚ)
    (h : (search_core L dimension qv norms query dim top_k ri rs).1 = 0) :
    search_core L dimension qv norms query dim top_k ri rs =
        (0, (write_results (std_sort (scan L qv norms query dim)) (min top_k qv.length) ri rs).1,
            (write_results (std_sort (scan L qv norms query dim)) (min top_k qv.length) ri rs).2) := by
  obtain ⟨h1, h2⟩ := search_core_status L dimension qv norms query dim top_k ri rs
  by_cases hc : dim ≠ dimension ∨ top_k = 0 ∨ qv = []
  · rw [h1 hc] at h
    simp at h
  · exact h2 hc

theorem sorted_getD (l : List (ℚ × ℕ)) (n i : ℕ) (hi : i < n) (hn : n ≤ l.length) :
    some (l.getD i (0, 0)) = (l.take n)[i]? := by
  rw [List.getElem?_take_of_lt hi, List.getD_eq_getElem?_getD,
    List.getElem?_eq_getElem (by omega)]
  rfl

/-- What the output buffers hold after a successful search, slot by slot. -/
theorem search_core_slots (L dimension : ℕ) (qv : List (List ℕ)) (norms : List ℚ)
    (query : List ℚ) (dim top_k : ℕ) (ri : List ℕ) (rs : List ℚ)
    (h : (search_core L dimension qv norms query dim top_k ri rs).1 = 0) (i : ℕ) :
    (search_core L dimension qv norms query dim top_k ri rs).2.1.length = ri.length ∧
    (search_core L dimension qv norms query dim top_k ri rs).2.2.length = rs.length ∧
    (i < min top_k qv.length → i < ri.length →
      (search_core L dimension qv norms query dim top_k ri rs).2.1[i]? =
        ((search_results L qv norms query dim top_k)[i]?).map Prod.snd) ∧
    (i < min top_k qv.length → i < rs.length →
      (search_core L dimension qv norms query dim top_k ri rs).2.2[i]? =
        ((search_results L qv norms query dim top_k)[i]?).map Prod.fst) ∧
    (min top_k qv.length ≤ i →
      (search_core L dimension qv norms query dim top_k ri rs).2.1[i]? = ri[i]? ∧
      (search_core L dimension qv norms query dim top_k ri rs).2.2[i]? = rs[i]?) := by
  rw [search_core_success L dimension qv norms query dim top_k ri rs h, search_results_eq]
  obtain ⟨h1, h2, h3, h4⟩ :=
    write_results_get (std_sort (scan L qv norms query dim)) (min top_k qv.length) ri rs i
  have hlen : min top_k qv.length ≤ (std_sort (scan L qv norms query dim)).length := by
    rw [std_sort_length, scan_length]
    exact min_le_right _ _
  refine ⟨h1, h2, ?_, ?_, ?_⟩
  · intro hi hl
    simp only []
    rw [h3, if_pos ⟨hi, hl⟩, ← sorted_getD _ _ _ hi hlen]
    rfl
  · intro hi hl
    simp only []
    rw [h4, if_pos ⟨hi, hl⟩, ← sorted_getD _ _ _ hi hlen]
    rfl
  · intro hi
    simp only []
    rw [h3, h4, if_neg (by omega), if_neg (by omega)]
    exact ⟨rfl, rfl⟩

/-- With buffers of at least `min(top_k, N)` slots, the first `min(top_k, N)` slots of the
output buffers are the ids and the scores of `search_results`. -/
theorem search_core_take (L dimension : ℕ) (qv : List (List ℕ)) (norms : List ℚ)
    (query : List ℚ) (dim top_k : ℕ) (ri : List ℕ) (rs : List ℚ)
    (h : (search_core L dimension qv norms query dim top_k ri rs).1 = 0)
    (hri : min top_k qv.length ≤ ri.length) (hrs : min top_k qv.length ≤ rs.length) :
    (search_core L dimension qv norms query dim top_k ri rs).2.1.take (min top_k qv.length) =
      (search_results L qv norms query dim top_k).map Prod.snd ∧
    (search_core L dimension qv norms query dim top_k ri rs).2.2.take (min top_k qv.length) =
      (search_results L qv norms query dim top_k).map Prod.fst := by
  have hlen := search_results_length L qv norms query dim top_k
  constructor
  · apply List.ext_getElem?
    intro i
    obtain ⟨h1, _, h3, _, _⟩ := search_core_slots L dimension qv norms query dim top_k ri rs h i
    by_cases hi : i < min top_k qv.length
    · rw [List.getElem?_take_of_lt hi, h3 hi (by omega), List.getElem?_map]
    · rw [List.getElem?_eq_none (by rw [List.length_take]; omega),
        List.getElem?_eq_none (by rw [List.length_map]; omega)]
  · apply List.ext_getElem?
    intro i
    obtain ⟨_, h2, _, h4, _⟩ := search_core_slots L dimension qv norms query dim top_k ri rs h i
    by_cases hi : i < min top_k qv.length
    · rw [List.getElem?_take_of_lt hi, h4 hi (by omega), List.getElem?_map]
    · rw [List.getElem?_eq_none (by rw [List.length_take]; omega),
        List.getElem?_eq_none (by rw [List.length_map]; omega)]

theorem search_results_mem (L : ℕ) (qv : List (List ℕ)) (norms : List ℚ) (query : List ℚ)
    (dim top_k : ℕ) (r : ℚ × ℕ) (hr : r ∈ search_results L qv norms query dim top_k) :
    r ∈ scan L qv norms query dim := by
  rw [search_results_eq] at hr
  exact (std_sort_perm _).mem_iff.mp (List.mem_of_mem_take hr)

theorem search_results_ids_nodup (L : ℕ) (qv : List (List ℕ)) (norms : List ℚ)
    (query : List ℚ) (dim top_k : ℕ) :
    ((search_results L qv norms query dim top_k).map Prod.snd).Nodup := by
  rw [search_results_eq]
  have hp : ((std_sort (scan L qv norms query dim)).map Prod.snd).Perm (List.range qv.length) := by
    rw [← scan_ids L qv norms query dim]
    exact (std_sort_perm _).map _
  have hn : ((std_sort (scan L qv norms query dim)).map Prod.snd).Nodup :=
    hp.nodup_iff.mpr (List.nodup_range _)
  rw [List.map_take]
  exact hn.sublist (List.take_sublist _ _)

theorem search_results_all (L : ℕ) (qv : List (List ℕ)) (norms : List ℚ)
    (query : List ℚ) (dim top_k : ℕ) (hk : qv.length ≤ top_k) :
    ((search_results L qv norms query dim top_k).map Prod.snd).Perm (List.range qv.length) := by
  rw [search_results_eq, min_eq_right hk]
  have hl : (std_sort (scan L qv norms query dim)).length = qv.length := by
    rw [std_sort_length, scan_length]
  have ht : (std_sort (scan L qv norms query dim)).take qv.length
      = std_sort (scan L qv norms query dim) := by
    rw [← hl, List.take_length]
  rw [ht, ← scan_ids L qv norms query dim]
  exact (std_sort_perm _).map _

end SPFresh

namespace SPFresh

theorem getD_succ_tail (q : List ℚ) (j : ℕ) : q.getD (j + 1) 0 = q.tail.getD j 0 := by
  cases q <;> simp

theorem readBuf_succ (q : List ℚ) (n : ℕ) :
    readBuf q (n + 1) = q.getD 0 0 :: readBuf q.tail n := by
  unfold readBuf
  rw [List.range_succ_eq_map, List.map_cons, List.map_map]
  congr 1
  apply List.map_congr_left
  intro j _
  exact getD_succ_tail q j

theorem dot_product_zip_aux (L : ℕ) (v : List ℕ) :
    ∀ (q : List ℚ) (init : ℚ),
      (List.range v.length).foldl
        (fun dot j => F32.add dot (F32.mul (q.getD j 0) (dequantize L (v.getD j 0)))) init =
      ((readBuf q v.length).zip (dequantize_vector L v)).foldl
        (fun dot p => F32.add dot (F32.mul p.1 p.2)) init := by
  induction v with
  | nil => intro q init; simp [readBuf, dequantize_vector]
  | cons x xs ih =>
    intro q init
    rw [List.length_cons, List.range_succ_eq_map, List.foldl_cons, List.foldl_map, readBuf_succ]
    simp only [dequantize_vector, List.map_cons, List.zip_cons_cons, List.foldl_cons]
    have := ih q.tail (F32.add init (F32.mul (q.getD 0 0) (dequantize L x)))
    simp only [dequantize_vector] at this
    rw [← this]
    simp only [List.getD_cons_zero, List.getD_cons_succ, getD_succ_tail]

/-- The accumulated dot product is the dot product of the raw query values with the
dequantized stored vector. -/
theorem dot_product_eq_zip (L : ℕ) (q : List ℚ) (v : List ℕ) (dim : ℕ) (h : v.length = dim) :
    dot_product L q v dim =
      ((readBuf q dim).zip (dequantize_vector L v)).foldl
        (fun dot p => F32.add dot (F32.mul p.1 p.2)) 0 := by
  subst h
  exact dot_product_zip_aux L v q 0

theorem search_results_scores (L dimension : ℕ) (qv : List (List ℕ)) (norms : List ℚ)
    (q : List ℚ) (dim k : ℕ) (ri : List ℕ) (rs : List ℚ)
    (h : (search_core L dimension qv norms q dim k ri rs).1 = 0)
    (hri : min k qv.length ≤ ri.length) (hrs : min k qv.length ≤ rs.length)
    (i : ℕ) (hi : i < min k qv.length) :
    ∃ id, id < qv.length ∧
      (search_core L dimension qv norms q dim k ri rs).2.1[i]? = some id ∧
      (search_core L dimension qv norms q dim k ri rs).2.2[i]? =
        some (similarity (calculate_norm (readBuf q dim)) (norms.getD id 0)
          (dot_product L q (qv.getD id []) dim)) := by
  obtain ⟨_, _, s3, s4, _⟩ := search_core_slots L dimension qv norms q dim k ri rs h i
  have hl := search_results_length L qv norms q dim k
  have hlt : i < (search_results L qv norms q dim k).length := by omega
  have hget : (search_results L qv norms q dim k)[i]? =
      some (search_results L qv norms q dim k)[i] :=
    List.getElem?_eq_getElem hlt
  have hmem : (search_results L qv norms q dim k)[i] ∈
      search_results L qv norms q dim k := List.getElem_mem _
  obtain ⟨m1, m2⟩ := mem_scan L qv norms q dim _ (search_results_mem L qv norms q dim k _ hmem)
  refine ⟨((search_results L qv norms q dim k)[i]).2, m1, ?_, ?_⟩
  · rw [s3 hi (by omega), hget]
    rfl
  · rw [s4 hi (by omega), hget, Option.map_some', m2]

end SPFresh

namespace SPFresh

theorem F32.sqrt_one : F32.sqrt 1 = 1 := by
  have hlog : Int.log 2 (1 : ℚ) = 0 := Int.log_one_right 2
  have hs : Nat.sqrt 70368744177664 = 8388608 := by
    symm
    rw [Nat.eq_sqrt]
    constructor <;> norm_num
  have hy : (1 : ℚ) / ((2 : ℚ) ^ ((0 : ℤ) / 2 - 23) * (2 : ℚ) ^ ((0 : ℤ) / 2 - 23))
      = 70368744177664 := by norm_num
  have hf : ⌊(70368744177664 : ℚ)⌋₊ = 70368744177664 := by
    rw [Nat.floor_eq_iff (by norm_num)]
    constructor <;> norm_num
  unfold F32.sqrt
  rw [if_neg (by norm_num)]
  simp only [hlog]
  rw [hy, hf, hs]
  norm_num

theorem F32.rnd_one : F32.rnd 1 = 1 := by
  simpa using F32.rnd_natCast 1 (by norm_num)

theorem F32.rnd_two : F32.rnd 2 = 2 := by
  simpa using F32.rnd_natCast 2 (by norm_num)

theorem F32.rnd_neg_one : F32.rnd (-1) = -1 := by
  rw [F32.rnd_eval _ 0 (-8388608) (by norm_num) (by norm_num) (by norm_num)
    (by norm_num [F32.roundHalfEven])]
  norm_num

theorem F32.rnd_neg_two : F32.rnd (-2) = -2 := by
  rw [F32.rnd_eval _ 1 (-8388608) (by norm_num) (by norm_num) (by norm_num)
    (by norm_num [F32.roundHalfEven])]
  norm_num

theorem calculate_norm_unit : calculate_norm (readBuf [1] 1) = 1 := by
  have h : readBuf [1] 1 = [1] := by decide
  rw [h]
  simp [calculate_norm, F32.add, F32.mul, F32.rnd_one, F32.sqrt_one]

theorem dequantize_top (L : ℕ) (h0 : 0 < L) (h : L < 2 ^ 24) : dequantize L L = 2 := by
  have hL : (L : ℚ) ≠ 0 := by exact_mod_cast (Nat.pos_iff_ne_zero.mp h0)
  unfold dequantize
  simp only []
  rw [sub_max_min, ofNat_eq L h]
  unfold F32.div F32.mul F32.add MIN_VAL
  rw [div_self hL, F32.rnd_one]
  norm_num
  have h4 : F32.rnd 4 = 4 := by simpa using F32.rnd_natCast 4 (by norm_num)
  rw [h4]
  norm_num
  exact F32.rnd_two

theorem dot_product_unit (L : ℕ) (h0 : 0 < L) (h : L < 2 ^ 24) :
    dot_product L [1] [L] 1 = 2 := by
  simp [dot_product, List.range_succ, F32.add, F32.mul, dequantize_top L h0 h, F32.rnd_two]

theorem negNormIndex_eq : negNormIndex = SPFreshIndex.mk "idx" [[255]] [-1] 1 := rfl

theorem search_negNorm :
    search (SPFreshIndex.mk "idx" [[255]] [-1] 1) [1] 1 1 [7] [9]
      = (0, SPFreshIndex.mk "idx" [[255]] [-1] 1, [0], [0]) := by
  have hsim : ∀ a b : ℚ, similarity a (-1) b = 0 := by
    intro a b
    unfold similarity
    rw [if_neg (by norm_num)]
  simp [search, search_core, scan, std_sort, sort_insert, write_results, hsim,
    List.range_succ]

end SPFresh

/-! ## C6: when search fails -/

/-- C6.  In both layouts `search` returns `-1` exactly when `dim` differs from the
dimension of the index, or `top_k` is 0, or the store holds no vector; a failing search
hands back both output buffers and the index as they were; every other search returns
`0`; and a search of an index constructed where no file exists fails. -/
theorem search_failure (fr : SPFresh.FloatRepr) (junk : SPFresh.Uninit) (fs : SPFresh.FileSys)
    (p : String) (sA : SPFresh.SPFreshIndex) (sB : SPFreshLocal.SPFreshIndex)
    (query : List ℚ) (dim top_k : ℕ) (ri : List ℕ) (rs : List ℚ) :
    (((SPFresh.search sA query dim top_k ri rs).1 = -1 ↔
        (dim ≠ sA.dimension ∨ top_k = 0 ∨ sA.size = 0)) ∧
      ((SPFresh.search sA query dim top_k ri rs).1 = -1 →
        SPFresh.search sA query dim top_k ri rs = (-1, sA, ri, rs)) ∧
      ((SPFresh.search sA query dim top_k ri rs).1 ≠ -1 →
        (SPFresh.search sA query dim top_k ri rs).1 = 0) ∧
      (SPFresh.search sA query dim top_k ri rs).2.1 = sA ∧
      (fs.content p = none →
        (SPFresh.search (SPFresh.SPFreshIndex.create fr junk fs p) query dim top_k ri rs).1 = -1)) ∧
    (((SPFreshLocal.search sB query dim top_k ri rs).1 = -1 ↔
        (dim ≠ sB.dimension ∨ top_k = 0 ∨ sB.size = 0)) ∧
      ((SPFreshLocal.search sB query dim top_k ri rs).1 = -1 →
        SPFreshLocal.search sB query dim top_k ri rs = (-1, sB, ri, rs)) ∧
      ((SPFreshLocal.search sB query dim top_k ri rs).1 ≠ -1 →
        (SPFreshLocal.search sB query dim top_k ri rs).1 = 0) ∧
      (SPFreshLocal.search sB query dim top_k ri rs).2.1 = sB ∧
      (fs.content (SPFreshLocal.base_path p ++ ".vectors") = none →
        (SPFreshLocal.search (SPFreshLocal.SPFreshIndex.create fr fs p).1
          query dim top_k ri rs).1 = -1)) := by
  have key : ∀ (L dimension : ℕ) (qv : List (List ℕ)) (norms : List ℚ),
      ((SPFresh.search_core L dimension qv norms query dim top_k ri rs).1 = -1 ↔
        (dim ≠ dimension ∨ top_k = 0 ∨ qv.length = 0)) ∧
      ((SPFresh.search_core L dimension qv norms query dim top_k ri rs).1 = -1 →
        SPFresh.search_core L dimension qv norms query dim top_k ri rs = (-1, ri, rs)) ∧
      ((SPFresh.search_core L dimension qv norms query dim top_k ri rs).1 ≠ -1 →
        (SPFresh.search_core L dimension qv norms query dim top_k ri rs).1 = 0) := by
    intro L dimension qv norms
    have hiff := SPFresh.search_core_fail_iff L dimension qv norms query dim top_k ri rs
    obtain ⟨h1, h2⟩ := SPFresh.search_core_status L dimension qv norms query dim top_k ri rs
    refine ⟨?_, ?_, ?_⟩
    · rw [hiff, List.length_eq_zero]
    · intro h
      exact h1 (hiff.mp h)
    · intro h
      rw [h2 (fun hc => h (hiff.mpr hc))]
  constructor
  · obtain ⟨k1, k2, k3⟩ := key SPFresh.QUANTIZATION_LEVELS sA.dimension sA.quantized_vectors sA.norms
    refine ⟨k1, ?_, k3, rfl, ?_⟩
    · intro h
      have := k2 h
      unfold SPFresh.search
      rw [this]
    · intro hnone
      rw [SPFresh.create_fresh fr junk fs p hnone]
      exact (SPFresh.search_core_fail_iff _ _ _ _ _ _ _ _ _).mpr (Or.inr (Or.inr rfl))
  · obtain ⟨k1, k2, k3⟩ :=
      key SPFreshLocal.QUANTIZATION_LEVELS sB.dimension sB.quantized_vectors sB.norms
    refine ⟨k1, ?_, k3, rfl, ?_⟩
    · intro h
      have := k2 h
      unfold SPFreshLocal.search
      rw [this]
    · intro hnone
      rw [SPFreshLocal.create_fresh_local fr fs p hnone]
      exact (SPFresh.search_core_fail_iff _ _ _ _ _ _ _ _ _).mpr (Or.inr (Or.inr rfl))

/-- C6, witness: searching the index constructed on a path where no file exists. -/
theorem search_failure_witness :
    (SPFresh.emptyFs.content "idx" = none ∧
      SPFresh.emptyFs.content (SPFreshLocal.base_path "idx" ++ ".vectors") = none) ∧
    (SPFresh.search SPFresh.freshIndex SPFresh.zeros768 768 1 [7] [9]).1 = -1 ∧
    (SPFreshLocal.search SPFreshLocal.freshIndex SPFresh.zeros768 768 1 [7] [9]).1 = -1 :=
  ⟨⟨rfl, rfl⟩,
    (search_failure SPFresh.zeroRepr ⟨0, 0, 0⟩ SPFresh.emptyFs "idx" SPFresh.freshIndex
      SPFreshLocal.freshIndex SPFresh.zeros768 768 1 [7] [9]).1.2.2.2.2 rfl,
    (search_failure SPFresh.zeroRepr ⟨0, 0, 0⟩ SPFresh.emptyFs "idx" SPFresh.freshIndex
      SPFreshLocal.freshIndex SPFresh.zeros768 768 1 [7] [9]).2.2.2.2.2 rfl⟩

/-! ## C7: number of results -/

/-- C7.  In both layouts a successful search of a store of `N` vectors produces exactly
`min(top_k, N)` pairs (so exactly `N` when `top_k > N`): both output buffers keep their
length, slot `i` receives the id and the score of the `i`-th pair for every
`i < min(top_k, N)` inside the buffer, and every slot at an index `≥ min(top_k, N)` keeps
its previous content. -/
theorem search_result_count
    (sA : SPFresh.SPFreshIndex) (qA : List ℚ) (dimA kA : ℕ) (riA : List ℕ) (rsA : List ℚ)
    (sB : SPFreshLocal.SPFreshIndex) (qB : List ℚ) (dimB kB : ℕ) (riB : List ℕ) (rsB : List ℚ)
    (hA : (SPFresh.search sA qA dimA kA riA rsA).1 = 0)
    (hB : (SPFreshLocal.search sB qB dimB kB riB rsB).1 = 0) :
    ((SPFresh.search_results SPFresh.QUANTIZATION_LEVELS sA.quantized_vectors sA.norms
        qA dimA kA).length = min kA sA.size ∧
      (sA.size < kA → (SPFresh.search_results SPFresh.QUANTIZATION_LEVELS sA.quantized_vectors
        sA.norms qA dimA kA).length = sA.size) ∧
      (SPFresh.search sA qA dimA kA riA rsA).2.2.1.length = riA.length ∧
      (SPFresh.search sA qA dimA kA riA rsA).2.2.2.length = rsA.length ∧
      ∀ i : ℕ,
        (i < min kA sA.size → i < riA.length →
          (SPFresh.search sA qA dimA kA riA rsA).2.2.1[i]? =
            ((SPFresh.search_results SPFresh.QUANTIZATION_LEVELS sA.quantized_vectors sA.norms
              qA dimA kA)[i]?).map Prod.snd) ∧
        (i < min kA sA.size → i < rsA.length →
          (SPFresh.search sA qA dimA kA riA rsA).2.2.2[i]? =
            ((SPFresh.search_results SPFresh.QUANTIZATION_LEVELS sA.quantized_vectors sA.norms
              qA dimA kA)[i]?).map Prod.fst) ∧
        (min kA sA.size ≤ i →
          (SPFresh.search sA qA dimA kA riA rsA).2.2.1[i]? = riA[i]? ∧
          (SPFresh.search sA qA dimA kA riA rsA).2.2.2[i]? = rsA[i]?)) ∧
    ((SPFresh.search_results SPFreshLocal.QUANTIZATION_LEVELS sB.quantized_vectors sB.norms
        qB dimB kB).length = min kB sB.size ∧
      (sB.size < kB → (SPFresh.search_results SPFreshLocal.QUANTIZATION_LEVELS
        sB.quantized_vectors sB.norms qB dimB kB).length = sB.size) ∧
      (SPFreshLocal.search sB qB dimB kB riB rsB).2.2.1.length = riB.length ∧
      (SPFreshLocal.search sB qB dimB kB riB rsB).2.2.2.length = rsB.length ∧
      ∀ i : ℕ,
        (i < min kB sB.size → i < riB.length →
          (SPFreshLocal.search sB qB dimB kB riB rsB).2.2.1[i]? =
            ((SPFresh.search_results SPFreshLocal.QUANTIZATION_LEVELS sB.quantized_vectors
              sB.norms qB dimB kB)[i]?).map Prod.snd) ∧
        (i < min kB sB.size → i < rsB.length →
          (SPFreshLocal.search sB qB dimB kB riB rsB).2.2.2[i]? =
            ((SPFresh.search_results SPFreshLocal.QUANTIZATION_LEVELS sB.quantized_vectors
              sB.norms qB dimB kB)[i]?).map Prod.fst) ∧
        (min kB sB.size ≤ i →
          (SPFreshLocal.search sB qB dimB kB riB rsB).2.2.1[i]? = riB[i]? ∧
          (SPFreshLocal.search sB qB dimB kB riB rsB).2.2.2[i]? = rsB[i]?)) := by
  constructor
  · have hl := SPFresh.search_results_length SPFresh.QUANTIZATION_LEVELS sA.quantized_vectors
      sA.norms qA dimA kA
    have h0 := (SPFresh.search_core_slots SPFresh.QUANTIZATION_LEVELS sA.dimension
      sA.quantized_vectors sA.norms qA dimA kA riA rsA hA 0)
    refine ⟨hl, ?_, h0.1, h0.2.1, ?_⟩
    · intro hk
      rw [hl]
      exact min_eq_right (le_of_lt hk)
    · intro i
      exact (SPFresh.search_core_slots SPFresh.QUANTIZATION_LEVELS sA.dimension
        sA.quantized_vectors sA.norms qA dimA kA riA rsA hA i).2.2
  · have hl := SPFresh.search_results_length SPFreshLocal.QUANTIZATION_LEVELS
      sB.quantized_vectors sB.norms qB dimB kB
    have h0 := (SPFresh.search_core_slots SPFreshLocal.QUANTIZATION_LEVELS sB.dimension
      sB.quantized_vectors sB.norms qB dimB kB riB rsB hB 0)
    refine ⟨hl, ?_, h0.1, h0.2.1, ?_⟩
    · intro hk
      rw [hl]
      exact min_eq_right (le_of_lt hk)
    · intro i
      exact (SPFresh.search_core_slots SPFreshLocal.QUANTIZATION_LEVELS sB.dimension
        sB.quantized_vectors sB.norms qB dimB kB riB rsB hB i).2.2

/-- C7, witness: `top_k = 3` on stores of one vector; one pair is produced and the
output buffers keep their three slots. -/
theorem search_result_count_witness :
    ((SPFresh.search (SPFresh.SPFreshIndex.mk "a" [[0, 0]] [0] 2) [1, 1] 2 3
        [7, 7, 7] [9, 9, 9]).1 = 0 ∧
      (SPFreshLocal.search (SPFreshLocal.SPFreshIndex.mk "a" [[0, 0]] [0] 2 [] []) [1, 1] 2 3
        [7, 7, 7] [9, 9, 9]).1 = 0) ∧
    (SPFresh.search_results SPFresh.QUANTIZATION_LEVELS [[0, 0]] [0] [1, 1] 2 3).length = 1 ∧
    (SPFresh.search_results SPFreshLocal.QUANTIZATION_LEVELS [[0, 0]] [0] [1, 1] 2 3).length
      = 1 :=
  ⟨⟨by decide, by decide⟩,
    (search_result_count (SPFresh.SPFreshIndex.mk "a" [[0, 0]] [0] 2) [1, 1] 2 3
      [7, 7, 7] [9, 9, 9] (SPFreshLocal.SPFreshIndex.mk "a" [[0, 0]] [0] 2 [] []) [1, 1] 2 3
      [7, 7, 7] [9, 9, 9] (by decide) (by decide)).1.2.1 (by decide),
    (search_result_count (SPFresh.SPFreshIndex.mk "a" [[0, 0]] [0] 2) [1, 1] 2 3
      [7, 7, 7] [9, 9, 9] (SPFreshLocal.SPFreshIndex.mk "a" [[0, 0]] [0] 2 [] []) [1, 1] 2 3
      [7, 7, 7] [9, 9, 9] (by decide) (by decide)).2.2.1 (by decide)⟩

/-! ## C8: order of the results -/

/-- C9.  In both layouts, after a successful search of a store of `N` vectors into
buffers of at least `min(top_k, N)` slots, the ids in the first `min(top_k, N)` slots are
pairwise distinct and each is below `N`; with `top_k ≥ N` they are a permutation of
`0, …, N-1`, every id exactly once. -/
theorem search_ids_distinct
    (sA : SPFresh.SPFreshIndex) (qA : List ℚ) (dimA kA : ℕ) (riA : List ℕ) (rsA : List ℚ)
    (sB : SPFreshLocal.SPFreshIndex) (qB : List ℚ) (dimB kB : ℕ) (riB : List ℕ) (rsB : List ℚ)
    (hA : (SPFresh.search sA qA dimA kA riA rsA).1 = 0)
    (hriA : min kA sA.size ≤ riA.length) (hrsA : min kA sA.size ≤ rsA.length)
    (hB : (SPFreshLocal.search sB qB dimB kB riB rsB).1 = 0)
    (hriB : min kB sB.size ≤ riB.length) (hrsB : min kB sB.size ≤ rsB.length) :
    (((SPFresh.search sA qA dimA kA riA rsA).2.2.1.take (min kA sA.size)).Nodup ∧
      (∀ id ∈ (SPFresh.search sA qA dimA kA riA rsA).2.2.1.take (min kA sA.size),
        id < sA.size) ∧
      (sA.size ≤ kA →
        ((SPFresh.search sA qA dimA kA riA rsA).2.2.1.take (min kA sA.size)).Perm
          (List.range sA.size))) ∧
    (((SPFreshLocal.search sB qB dimB kB riB rsB).2.2.1.take (min kB sB.size)).Nodup ∧
      (∀ id ∈ (SPFreshLocal.search sB qB dimB kB riB rsB).2.2.1.take (min kB sB.size),
        id < sB.size) ∧
      (sB.size ≤ kB →
        ((SPFreshLocal.search sB qB dimB kB riB rsB).2.2.1.take (min kB sB.size)).Perm
          (List.range sB.size))) := by
  have key : ∀ (L dimension : ℕ) (qv : List (List ℕ)) (norms : List ℚ) (q : List ℚ)
      (dim k : ℕ) (ri : List ℕ) (rs : List ℚ),
      (SPFresh.search_core L dimension qv norms q dim k ri rs).1 = 0 →
      min k qv.length ≤ ri.length → min k qv.length ≤ rs.length →
      ((SPFresh.search_core L dimension qv norms q dim k ri rs).2.1.take
          (min k qv.length)).Nodup ∧
      (∀ id ∈ (SPFresh.search_core L dimension qv norms q dim k ri rs).2.1.take
          (min k qv.length), id < qv.length) ∧
      (qv.length ≤ k →
        ((SPFresh.search_core L dimension qv norms q dim k ri rs).2.1.take
          (min k qv.length)).Perm (List.range qv.length)) := by
    intro L dimension qv norms q dim k ri rs h hri hrs
    obtain ⟨t1, _⟩ := SPFresh.search_core_take L dimension qv norms q dim k ri rs h hri hrs
    rw [t1]
    refine ⟨SPFresh.search_results_ids_nodup L qv norms q dim k, ?_,
      SPFresh.search_results_all L qv norms q dim k⟩
    intro id hid
    obtain ⟨r, hr, rfl⟩ := List.mem_map.mp hid
    exact (SPFresh.mem_scan L qv norms q dim r
      (SPFresh.search_results_mem L qv norms q dim k r hr)).1
  exact ⟨key _ _ _ _ _ _ _ _ _ hA hriA hrsA, key _ _ _ _ _ _ _ _ _ hB hriB hrsB⟩

/-- C9, witness: `top_k = 2` on stores of two vectors returns the ids 0 and 1. -/
theorem search_ids_distinct_witness :
    ((SPFresh.search (SPFresh.SPFreshIndex.mk "a" [[0, 0], [9, 9]] [0, 1] 2) [1, 1] 2 2
        [7, 7] [9, 9]).1 = 0 ∧
      (SPFreshLocal.search (SPFreshLocal.SPFreshIndex.mk "a" [[0, 0], [9, 9]] [0, 1] 2 [] [])
        [1, 1] 2 2 [7, 7] [9, 9]).1 = 0) ∧
    ((SPFresh.search (SPFresh.SPFreshIndex.mk "a" [[0, 0], [9, 9]] [0, 1] 2) [1, 1] 2 2
        [7, 7] [9, 9]).2.2.1.take
          (min 2 (SPFresh.SPFreshIndex.mk "a" [[0, 0], [9, 9]] [0, 1] 2).size)).Perm
      (List.range (SPFresh.SPFreshIndex.mk "a" [[0, 0], [9, 9]] [0, 1] 2).size) :=
  ⟨⟨by decide, by decide⟩,
    (search_ids_distinct (SPFresh.SPFreshIndex.mk "a" [[0, 0], [9, 9]] [0, 1] 2) [1, 1] 2 2
      [7, 7] [9, 9] (SPFreshLocal.SPFreshIndex.mk "a" [[0, 0], [9, 9]] [0, 1] 2 [] []) [1, 1] 2 2
      [7, 7] [9, 9] (by decide) (by decide) (by decide) (by decide) (by decide) (by decide)).1.2.2
      (by decide)⟩

/-! ## C10: the similarity score -/

/-- C10, counterexample.  The claim has every returned score equal to
`dot / (norm(query) * norms[id])`, and `0.0` when a norm is exactly zero.  The single-file
index constructed on a snapshot that holds one vector of dimension 1 (byte 255) with the
norm `-1.0f` answers the query `[1.0]` with the pair `(0, 0.0)`, although the norm of the
query is 1, the cached norm is -1 and `dot / (norm(query) * norms[0])` is `-2`. -/
theorem score_with_negative_norm :
    SPFresh.negNormIndex = SPFresh.SPFreshIndex.mk "idx" [[255]] [-1] 1 ∧
    SPFresh.search SPFresh.negNormIndex [1] 1 1 [7] [9] = (0, SPFresh.negNormIndex, [0], [0]) ∧
    SPFresh.calculate_norm (SPFresh.readBuf [1] 1) = 1 ∧
    SPFresh.negNormIndex.norms.getD 0 0 = -1 ∧
    SPFresh.F32.div
      (SPFresh.dot_product SPFresh.QUANTIZATION_LEVELS [1]
        (SPFresh.negNormIndex.quantized_vectors.getD 0 []) 1)
      (SPFresh.F32.mul (SPFresh.calculate_norm (SPFresh.readBuf [1] 1))
        (SPFresh.negNormIndex.norms.getD 0 0)) = -2 := by
  refine ⟨rfl, ?_, SPFresh.calculate_norm_unit, rfl, ?_⟩
  · rw [SPFresh.negNormIndex_eq]
    exact SPFresh.search_negNorm
  · rw [SPFresh.calculate_norm_unit, SPFresh.negNormIndex_eq]
    have hd : SPFresh.dot_product SPFresh.QUANTIZATION_LEVELS [1]
        ((SPFresh.SPFreshIndex.mk "idx" [[255]] [-1] 1).quantized_vectors.getD 0 []) 1 = 2 :=
      SPFresh.dot_product_unit 255 (by norm_num) (by norm_num)
    rw [hd]
    have hn : (SPFresh.SPFreshIndex.mk "idx" [[255]] [-1] 1).norms.getD 0 0 = -1 := rfl
    rw [hn]
    unfold SPFresh.F32.div SPFresh.F32.mul
    norm_num
    rw [SPFresh.F32.rnd_neg_one]
    norm_num
    exact SPFresh.F32.rnd_neg_two

/-- C10, amended.  In both layouts, after a successful search into buffers of at least
`min(top_k, N)` slots, every returned pair `(id, score)` has `id` below `N` and
`score = dot / (norm(query) * norms[id])` when `norm(query)` and `norms[id]` are both
greater than zero, and `score = 0` otherwise, in particular when either norm is exactly
zero; `dot` is accumulated from the raw query values and the dequantized stored values. -/
theorem search_score_formula
    (sA : SPFresh.SPFreshIndex) (qA : List ℚ) (dimA kA : ℕ) (riA : List ℕ) (rsA : List ℚ)
    (sB : SPFreshLocal.SPFreshIndex) (qB : List ℚ) (dimB kB : ℕ) (riB : List ℕ) (rsB : List ℚ)
    (hA : (SPFresh.search sA qA dimA kA riA rsA).1 = 0)
    (hriA : min kA sA.size ≤ riA.length) (hrsA : min kA sA.size ≤ rsA.length)
    (hB : (SPFreshLocal.search sB qB dimB kB riB rsB).1 = 0)
    (hriB : min kB sB.size ≤ riB.length) (hrsB : min kB sB.size ≤ rsB.length) :
    (∀ i, i < min kA sA.size → ∃ id, id < sA.size ∧
      (SPFresh.search sA qA dimA kA riA rsA).2.2.1[i]? = some id ∧
      (SPFresh.search sA qA dimA kA riA rsA).2.2.2[i]? = some
        (if 0 < SPFresh.calculate_norm (SPFresh.readBuf qA dimA) ∧ 0 < sA.norms.getD id 0 then
          SPFresh.F32.div
            (SPFresh.dot_product SPFresh.QUANTIZATION_LEVELS qA
              (sA.quantized_vectors.getD id []) dimA)
            (SPFresh.F32.mul (SPFresh.calculate_norm (SPFresh.readBuf qA dimA))
              (sA.norms.getD id 0))
         else 0) ∧
      ((SPFresh.calculate_norm (SPFresh.readBuf qA dimA) = 0 ∨ sA.norms.getD id 0 = 0) →
        (SPFresh.search sA qA dimA kA riA rsA).2.2.2[i]? = some 0) ∧
      ((sA.quantized_vectors.getD id []).length = dimA →
        SPFresh.dot_product SPFresh.QUANTIZATION_LEVELS qA (sA.quantized_vectors.getD id []) dimA
          = ((SPFresh.readBuf qA dimA).zip (SPFresh.dequantize_vector SPFresh.QUANTIZATION_LEVELS
              (sA.quantized_vectors.getD id []))).foldl
              (fun dot p => SPFresh.F32.add dot (SPFresh.F32.mul p.1 p.2)) 0)) ∧
    (∀ i, i < min kB sB.size → ∃ id, id < sB.size ∧
      (SPFreshLocal.search sB qB dimB kB riB rsB).2.2.1[i]? = some id ∧
      (SPFreshLocal.search sB qB dimB kB riB rsB).2.2.2[i]? = some
        (if 0 < SPFresh.calculate_norm (SPFresh.readBuf qB dimB) ∧ 0 < sB.norms.getD id 0 then
          SPFresh.F32.div
            (SPFresh.dot_product SPFreshLocal.QUANTIZATION_LEVELS qB
              (sB.quantized_vectors.getD id []) dimB)
            (SPFresh.F32.mul (SPFresh.calculate_norm (SPFresh.readBuf qB dimB))
              (sB.norms.getD id 0))
         else 0) ∧
      ((SPFresh.calculate_norm (SPFresh.readBuf qB dimB) = 0 ∨ sB.norms.getD id 0 = 0) →
        (SPFreshLocal.search sB qB dimB kB riB rsB).2.2.2[i]? = some 0) ∧
      ((sB.quantized_vectors.getD id []).length = dimB →
        SPFresh.dot_product SPFreshLocal.QUANTIZATION_LEVELS qB
            (sB.quantized_vectors.getD id []) dimB
          = ((SPFresh.readBuf qB dimB).zip
              (SPFresh.dequantize_vector SPFreshLocal.QUANTIZATION_LEVELS
                (sB.quantized_vectors.getD id []))).foldl
              (fun dot p => SPFresh.F32.add dot (SPFresh.F32.mul p.1 p.2)) 0)) := by
  have key : ∀ (L dimension : ℕ) (qv : List (List ℕ)) (norms : List ℚ) (q : List ℚ)
      (dim k : ℕ) (ri : List ℕ) (rs : List ℚ),
      (SPFresh.search_core L dimension qv norms q dim k ri rs).1 = 0 →
      min k qv.length ≤ ri.length → min k qv.length ≤ rs.length →
      ∀ i, i < min k qv.length → ∃ id, id < qv.length ∧
        (SPFresh.search_core L dimension qv norms q dim k ri rs).2.1[i]? = some id ∧
        (SPFresh.search_core L dimension qv norms q dim k ri rs).2.2[i]? = some
          (if 0 < SPFresh.calculate_norm (SPFresh.readBuf q dim) ∧ 0 < norms.getD id 0 then
            SPFresh.F32.div (SPFresh.dot_product L q (qv.getD id []) dim)
              (SPFresh.F32.mul (SPFresh.calculate_norm (SPFresh.readBuf q dim))
                (norms.getD id 0))
           else 0) ∧
        ((SPFresh.calculate_norm (SPFresh.readBuf q dim) = 0 ∨ norms.getD id 0 = 0) →
          (SPFresh.search_core L dimension qv norms q dim k ri rs).2.2[i]? = some 0) ∧
        ((qv.getD id []).length = dim →
          SPFresh.dot_product L q (qv.getD id []) dim
            = ((SPFresh.readBuf q dim).zip (SPFresh.dequantize_vector L (qv.getD id []))).foldl
                (fun dot p => SPFresh.F32.add dot (SPFresh.F32.mul p.1 p.2)) 0) := by
    intro L dimension qv norms q dim k ri rs h hri hrs i hi
    obtain ⟨id, h1, h2, h3⟩ :=
      SPFresh.search_results_scores L dimension qv norms q dim k ri rs h hri hrs i hi
    refine ⟨id, h1, h2, ?_, ?_, ?_⟩
    · rw [h3]
      rfl
    · intro hz
      rw [h3]
      unfold SPFresh.similarity
      rw [if_neg]
      rintro ⟨ha, hb⟩
      rcases hz with hz | hz
      · rw [hz] at ha
        exact lt_irrefl _ ha
      · rw [hz] at hb
        exact lt_irrefl _ hb
    · intro hlen
      exact SPFresh.dot_product_eq_zip L q _ dim hlen
  exact ⟨key _ _ _ _ _ _ _ _ _ hA hriA hrsA, key _ _ _ _ _ _ _ _ _ hB hriB hrsB⟩

/-- C10, witness: `top_k = 1` on stores of one vector of dimension 1. -/
theorem search_score_formula_witness :
    ((SPFresh.search (SPFresh.SPFreshIndex.mk "a" [[255]] [1] 1) [1] 1 1 [7] [9]).1 = 0 ∧
      (SPFreshLocal.search (SPFreshLocal.SPFreshIndex.mk "a" [[127]] [1] 1 [] []) [1] 1 1
        [7] [9]).1 = 0) ∧
    ∃ id, id < (SPFresh.SPFreshIndex.mk "a" [[255]] [1] 1).size ∧
      (SPFresh.search (SPFresh.SPFreshIndex.mk "a" [[255]] [1] 1) [1] 1 1 [7] [9]).2.2.1[0]?
        = some id :=
  ⟨⟨by decide, by decide⟩,
    ((search_score_formula (SPFresh.SPFreshIndex.mk "a" [[255]] [1] 1) [1] 1 1 [7] [9]
      (SPFreshLocal.SPFreshIndex.mk "a" [[127]] [1] 1 [] []) [1] 1 1 [7] [9]
      (by decide) (by decide) (by decide) (by decide) (by decide) (by decide)).1 0
      (by decide)).imp (fun _ h => ⟨h.1, h.2.1⟩)⟩

namespace SPFresh

/-- What a search with `top_k ≥ N` into large enough buffers reports for a given id. -/
theorem search_core_finds (L dimension : ℕ) (qv : List (List ℕ)) (norms : List ℚ)
    (q : List ℚ) (dim k : ℕ) (ri : List ℕ) (rs : List ℚ)
    (hd : dim = dimension) (hk : qv.length ≤ k) (hri : qv.length ≤ ri.length)
    (hrs : qv.length ≤ rs.length) (id : ℕ) (hid : id < qv.length) :
    (search_core L dimension qv norms q dim k ri rs).1 = 0 ∧
    ∃ i, i < qv.length ∧
      (search_core L dimension qv norms q dim k ri rs).2.1[i]? = some id ∧
      (search_core L dimension qv norms q dim k ri rs).2.2[i]? =
        some (similarity (calculate_norm (readBuf q dim)) (norms.getD id 0)
          (dot_product L q (qv.getD id []) dim)) := by
  have hne : qv ≠ [] := by
    intro h
    rw [h] at hid
    exact absurd hid (by simp)
  have hk0 : k ≠ 0 := by omega
  have hst : (search_core L dimension qv norms q dim k ri rs).1 = 0 := by
    rw [(search_core_status L dimension qv norms q dim k ri rs).2 (by
      rintro (h | h | h)
      · exact h hd
      · exact hk0 h
      · exact hne h)]
  refine ⟨hst, ?_⟩
  have hmin : min k qv.length = qv.length := min_eq_right hk
  obtain ⟨t1, _⟩ := search_core_take L dimension qv norms q dim k ri rs hst
    (by rw [hmin]; exact hri) (by rw [hmin]; exact hrs)
  have hperm := search_results_all L qv norms q dim k hk
  have hmem : id ∈ (search_results L qv norms q dim k).map Prod.snd :=
    hperm.mem_iff.mpr (List.mem_range.mpr hid)
  rw [← t1, hmin] at hmem
  obtain ⟨i, hi, hget⟩ := List.getElem_of_mem hmem
  have hi2 : i < qv.length := by
    rw [List.length_take] at hi
    omega
  obtain ⟨id2, _, e1, e2⟩ := search_results_scores L dimension qv norms q dim k ri rs hst
    (by rw [hmin]; exact hri) (by rw [hmin]; exact hrs) i (by rw [hmin]; exact hi2)
  have hid2 : id2 = id := by
    have h3 : ((search_core L dimension qv norms q dim k ri rs).2.1.take qv.length)[i]? = some id := by
      rw [List.getElem?_eq_getElem hi, hget]
    rw [List.getElem?_take_of_lt hi2, e1] at h3
    exact Option.some.inj h3
  subst hid2
  exact ⟨i, hi2, e1, e2⟩

end SPFresh

/-! ## Evaluation of the float operations on padded vectors -/

namespace SPFresh

theorem F32.sqrt_four_pow (j : ℤ) : F32.sqrt ((2 : ℚ) ^ (2 * j)) = 2 ^ j := by
  have hpos : (0 : ℚ) < 2 ^ (2 * j) := by positivity
  have hlog : Int.log 2 ((2 : ℚ) ^ (2 * j)) = 2 * j := by
    have := Int.log_zpow (R := ℚ) (b := 2) (by norm_num) (2 * j)
    simpa using this
  have hdiv : (2 * j) / 2 = j := Int.mul_ediv_cancel_left j (by norm_num)
  have hs : Nat.sqrt 70368744177664 = 8388608 := by
    symm
    rw [Nat.eq_sqrt]
    constructor <;> norm_num
  have hf : ⌊(70368744177664 : ℚ)⌋₊ = 70368744177664 := by
    rw [Nat.floor_eq_iff (by norm_num)]
    constructor <;> norm_num
  have hy : (2 : ℚ) ^ (2 * j) / ((2 : ℚ) ^ (j - 23) * (2 : ℚ) ^ (j - 23)) = 70368744177664 := by
    rw [← zpow_add₀ (by norm_num : (2 : ℚ) ≠ 0), ← zpow_sub₀ (by norm_num : (2 : ℚ) ≠ 0)]
    have : 2 * j - (j - 23 + (j - 23)) = 46 := by ring
    rw [this]
    norm_num
  unfold F32.sqrt
  rw [if_neg (not_le.mpr hpos)]
  simp only [hlog, hdiv]
  rw [hy, hf, hs]
  norm_num
  rw [zpow_sub₀ (by norm_num : (2 : ℚ) ≠ 0)]
  norm_num
  field_simp

theorem F32.mul_zero_left (x : ℚ) : F32.mul 0 x = 0 := by
  unfold F32.mul
  rw [zero_mul]
  exact F32.rnd_zero

theorem F32.add_zero_right (c : ℚ) (hc : F32.rnd c = c) : F32.add c 0 = c := by
  unfold F32.add
  rw [add_zero]
  exact hc

theorem foldl_zeros_norm (n : ℕ) (c : ℚ) (hc : F32.rnd c = c) :
    (List.replicate n (0 : ℚ)).foldl (fun sum_sq val => F32.add sum_sq (F32.mul val val)) c = c := by
  induction n with
  | zero => rfl
  | succ n ih =>
    rw [List.replicate_succ, List.foldl_cons, F32.mul_zero_left, F32.add_zero_right c hc]
    exact ih

theorem foldl_zeros_dot (n : ℕ) (c : ℚ) (hc : F32.rnd c = c) :
    ∀ ys : List ℚ, ((List.replicate n (0 : ℚ)).zip ys).foldl
      (fun dot p => F32.add dot (F32.mul p.1 p.2)) c = c := by
  induction n with
  | zero => intro ys; simp
  | succ n ih =>
    intro ys
    cases ys with
    | nil => simp
    | cons y ys =>
      rw [List.replicate_succ, List.zip_cons_cons, List.foldl_cons]
      simp only [F32.mul_zero_left]
      rw [F32.add_zero_right c hc]
      exact ih ys

theorem readBuf_self (p : List ℚ) : readBuf p p.length = p := by
  apply List.ext_getElem?
  intro i
  unfold readBuf
  by_cases h : i < p.length
  · simp [h, List.getD_eq_getElem?_getD]
  · have h2 : p.length ≤ i := by omega
    rw [List.getElem?_eq_none (by simpa using h2), List.getElem?_eq_none h2]

/-- A vector with one leading entry followed by `n` zeros. -/
theorem norm_padded (x c : ℚ) (n : ℕ) (h1 : F32.add 0 (F32.mul x x) = c) (hc : F32.rnd c = c) :
    calculate_norm (x :: List.replicate n 0) = F32.sqrt c := by
  unfold calculate_norm
  rw [List.foldl_cons, h1, foldl_zeros_norm n c hc]

theorem dot_padded (L : ℕ) (x c : ℚ) (b : ℕ) (bs : List ℕ) (n : ℕ) (hbs : bs.length = n)
    (h1 : F32.add 0 (F32.mul x (dequantize L b)) = c) (hc : F32.rnd c = c) :
    dot_product L (x :: List.replicate n 0) (b :: bs) (n + 1) = c := by
  rw [dot_product_eq_zip L _ (b :: bs) (n + 1) (by simp [hbs])]
  have hr : readBuf (x :: List.replicate n 0) (n + 1) = x :: List.replicate n 0 := by
    have := readBuf_self (x :: List.replicate n 0)
    simpa using this
  rw [hr]
  simp only [dequantize_vector, List.map_cons, List.zip_cons_cons, List.foldl_cons]
  rw [h1]
  exact foldl_zeros_dot n c hc _

theorem readBuf_padded (x : ℚ) (n : ℕ) :
    readBuf (x :: List.replicate n 0) (n + 1) = x :: List.replicate n 0 := by
  have := readBuf_self (x :: List.replicate n 0)
  simpa using this

theorem quantize_vector_padded (L : ℕ) (x : ℚ) (n : ℕ) :
    quantize_vector L (x :: List.replicate n 0) = quantize L x :: List.replicate n (quantize L 0) := by
  simp [quantize_vector]

end SPFresh

namespace SPFresh

theorem quantize_eval (L : ℕ) (v t n p : ℚ) (q : ℕ) (h1 : MIN_VAL ≤ v) (h2 : v ≤ MAX_VAL)
    (hL : L < 2 ^ 24) (ht : F32.rnd (v - -2) = t) (hn : F32.rnd (t / 4) = n)
    (hp : F32.rnd (n * L) = p) (hq : ⌊p⌋ = q) (hq2 : q < 256) : quantize L v = q := by
  unfold quantize
  simp only []
  rw [clamp_of_mem v h1 h2, sub_max_min, ofNat_eq L hL]
  unfold F32.div F32.sub F32.mul MIN_VAL
  rw [ht, hn, hp, F32.toUInt8, hq, Int.toNat_ofNat, Nat.mod_eq_of_lt hq2]

theorem dequantize_eval (L q : ℕ) (d e r : ℚ) (hL : L < 2 ^ 24) (hq : q < 2 ^ 24)
    (hd : F32.rnd ((q : ℚ) / L) = d) (he : F32.rnd (d * 4) = e) (hr : F32.rnd (e + -2) = r) :
    dequantize L q = r := by
  unfold dequantize
  simp only []
  rw [sub_max_min, ofNat_eq L hL, ofNat_eq q hq]
  unfold F32.div F32.add F32.mul MIN_VAL
  rw [hd, he, hr]

theorem quantize_255_two : quantize 255 2 = 255 := by
  have h4 : F32.rnd 4 = 4 := by simpa using F32.rnd_natCast 4 (by norm_num)
  have h255 : F32.rnd 255 = 255 := by simpa using F32.rnd_natCast 255 (by norm_num)
  exact quantize_eval 255 2 4 1 255 255 (by norm_num [MIN_VAL]) (by norm_num [MAX_VAL])
    (by norm_num) (by norm_num; exact h4) (by norm_num; exact F32.rnd_one)
    (by norm_num; exact h255) (by norm_num) (by norm_num)

theorem quantize_255_zero : quantize 255 0 = 127 := by
  refine quantize_eval 255 0 2 (1 / 2) (255 / 2) 127 (by norm_num [MIN_VAL])
    (by norm_num [MAX_VAL]) (by norm_num) (by norm_num; exact F32.rnd_two) ?_ ?_
    (by norm_num) (by norm_num)
  · rw [F32.rnd_eval _ (-1) 8388608 (by norm_num) (by norm_num [abs_of_pos])
      (by norm_num [abs_of_pos]) (by norm_num [F32.roundHalfEven])]
    norm_num
  · rw [F32.rnd_eval _ 6 16711680 (by norm_num) (by norm_num [abs_of_pos])
      (by norm_num [abs_of_pos]) (by norm_num [F32.roundHalfEven])]
    norm_num

theorem quantize_255_one : quantize 255 1 = 191 := by
  refine quantize_eval 255 1 3 (3 / 4) (765 / 4) 191 (by norm_num [MIN_VAL])
    (by norm_num [MAX_VAL]) (by norm_num) ?_ ?_ ?_ (by norm_num) (by norm_num)
  · norm_num
    simpa using F32.rnd_natCast 3 (by norm_num)
  · rw [F32.rnd_eval _ (-1) 12582912 (by norm_num) (by norm_num [abs_of_pos])
      (by norm_num [abs_of_pos]) (by norm_num [F32.roundHalfEven])]
    norm_num
  · rw [F32.rnd_eval _ 7 12533760 (by norm_num) (by norm_num [abs_of_pos])
      (by norm_num [abs_of_pos]) (by norm_num [F32.roundHalfEven])]
    norm_num

theorem dequantize_255_191 : dequantize 255 191 = 65279 / 65536 := by
  refine dequantize_eval 255 191 (196351 / 262144) (196351 / 65536) (65279 / 65536)
    (by norm_num) (by norm_num) ?_ ?_ ?_
  · rw [F32.rnd_eval _ (-1) 12566464 (by norm_num) (by norm_num [abs_of_pos])
      (by norm_num [abs_of_pos]) (by norm_num [F32.roundHalfEven])]
    norm_num
  · rw [F32.rnd_eval _ 1 12566464 (by norm_num) (by norm_num [abs_of_pos])
      (by norm_num [abs_of_pos]) (by norm_num [F32.roundHalfEven])]
    norm_num
  · rw [F32.rnd_eval _ (-1) 16711424 (by norm_num) (by norm_num [abs_of_pos])
      (by norm_num [abs_of_pos]) (by norm_num [F32.roundHalfEven])]
    norm_num

end SPFresh

namespace SPFresh

theorem append_eq (fr : FloatRepr) (fs : FileSys) (s : SPFreshIndex) (vector : List ℚ)
    (dim : ℕ) (h : dim = s.dimension) :
    (append fr fs s vector dim).2.1 =
      { s with quantized_vectors := s.quantized_vectors ++
                 [quantize_vector QUANTIZATION_LEVELS (readBuf vector dim)],
               norms := s.norms ++ [calculate_norm (readBuf vector dim)] } := by
  unfold append
  rw [if_neg (by simpa using h)]
  simp [save_index_call, lock_guard]

theorem dim4Index_eq : dim4Index = SPFreshIndex.mk "idx" [] [] 4 := rfl

theorem rnd_small_sq : F32.rnd (1 / 4096) = 1 / 4096 := by
  rw [F32.rnd_eval _ (-12) 8388608 (by norm_num) (by norm_num [abs_of_pos])
    (by norm_num [abs_of_pos]) (by norm_num [F32.roundHalfEven])]
  norm_num

theorem rnd_four : F32.rnd 4 = 4 := by
  simpa using F32.rnd_natCast 4 (by norm_num)

theorem norm_padded_two : calculate_norm (padded 2) = 2 := by
  unfold padded
  rw [norm_padded 2 4 767 (by unfold F32.add F32.mul; norm_num; rw [rnd_four, rnd_four])
    rnd_four]
  have := F32.sqrt_four_pow 1
  norm_num at this
  exact this

theorem norm_padded_small : calculate_norm (padded (1 / 64)) = 1 / 64 := by
  unfold padded
  rw [norm_padded (1 / 64) (1 / 4096) 767
    (by unfold F32.add F32.mul; norm_num; rw [rnd_small_sq, rnd_small_sq]) rnd_small_sq]
  have := F32.sqrt_four_pow (-6)
  norm_num at this
  exact this

theorem norm_padded_neg_one : calculate_norm (padded (-1)) = 1 := by
  unfold padded
  rw [norm_padded (-1) 1 767
    (by unfold F32.add F32.mul; norm_num; rw [F32.rnd_one, F32.rnd_one]) F32.rnd_one]
  exact F32.sqrt_one

end SPFresh

namespace SPFresh

theorem rnd_thirty_second : F32.rnd (1 / 32) = 1 / 32 := by
  rw [F32.rnd_eval _ (-5) 8388608 (by norm_num) (by norm_num [abs_of_pos])
    (by norm_num [abs_of_pos]) (by norm_num [F32.roundHalfEven])]
  norm_num

theorem search_eval (s : SPFreshIndex) (q : List ℚ) (dim k : ℕ) (ri : List ℕ) (rs : List ℚ)
    (sc : List (ℚ × ℕ)) (hd : dim = s.dimension) (hk : k ≠ 0) (hne : s.quantized_vectors ≠ [])
    (hsc : scan QUANTIZATION_LEVELS s.quantized_vectors s.norms q dim = sc) :
    search s q dim k ri rs =
      (0, s, (write_results (std_sort sc) (min k s.quantized_vectors.length) ri rs).1,
             (write_results (std_sort sc) (min k s.quantized_vectors.length) ri rs).2) := by
  unfold search
  rw [(search_core_status QUANTIZATION_LEVELS s.dimension s.quantized_vectors s.norms q dim k
    ri rs).2 (by
      rintro (h | h | h)
      · exact h hd
      · exact hk h
      · exact hne h), hsc]

end SPFresh

namespace SPFresh

theorem rnd_score_unit : F32.rnd (65279 / 65536) = 65279 / 65536 := by
  rw [F32.rnd_eval _ (-1) 16711424 (by norm_num) (by norm_num [abs_of_pos])
    (by norm_num [abs_of_pos]) (by norm_num [F32.roundHalfEven])]
  norm_num

theorem unit4_readBuf : readBuf [1, 0, 0, 0] 4 = [1, 0, 0, 0] := readBuf_self [1, 0, 0, 0]

theorem unit4_norm : calculate_norm [1, 0, 0, 0] = 1 := by
  have h := norm_padded 1 1 3
    (by unfold F32.add F32.mul; norm_num; rw [F32.rnd_one, F32.rnd_one]) F32.rnd_one
  rw [F32.sqrt_one] at h
  exact h

theorem unit4_quantized : quantize_vector 255 [1, 0, 0, 0] = [191, 127, 127, 127] := by
  simp [quantize_vector, quantize_255_one, quantize_255_zero]

theorem unit4_dot : dot_product 255 [1, 0, 0, 0] [191, 127, 127, 127] 4 = 65279 / 65536 :=
  dot_padded 255 1 (65279 / 65536) 191 [127, 127, 127] 3 rfl
    (by rw [dequantize_255_191]
        unfold F32.add F32.mul
        norm_num
        rw [rnd_score_unit, rnd_score_unit])
    rnd_score_unit

theorem unit4_similarity : similarity 1 1 (65279 / 65536) = 65279 / 65536 := by
  unfold similarity
  rw [if_pos (by norm_num)]
  unfold F32.div F32.mul
  norm_num
  rw [F32.rnd_one]
  norm_num
  exact rnd_score_unit

end SPFresh

/-! ## Byte streams -/

namespace SPFresh

theorem leBytes_length (n v : ℕ) : (leBytes n v).length = n := by
  simp [leBytes]

theorem leBytes_succ (n v : ℕ) : leBytes (n + 1) v = v % 256 :: leBytes n (v / 256) := by
  unfold leBytes
  rw [List.range_succ_eq_map, List.map_cons, List.map_map]
  congr 1
  · simp
  · apply List.map_congr_left
    intro i _
    simp only [Function.comp, pow_succ]
    rw [Nat.div_div_eq_div_mul, mul_comm]

theorem leVal_leBytes (n : ℕ) : ∀ v : ℕ, leVal (leBytes n v) = v % 256 ^ n := by
  induction n with
  | zero => intro v; simp [leBytes, leVal, Nat.mod_one]
  | succ n ih =>
    intro v
    rw [leBytes_succ, leVal, ih, pow_succ', Nat.mod_mul]

theorem read_exact (a rest buf : List ℕ) (h : buf.length = a.length) :
    IStream.read { data := a ++ rest, good := true } buf = (a, { data := rest, good := true }) := by
  have ht : (a ++ rest).take buf.length = a := List.take_left' h.symm
  have hd : (a ++ rest).drop buf.length = rest := List.drop_left' h.symm
  have hb : buf.drop a.length = [] := List.drop_eq_nil_of_le (by omega)
  unfold IStream.read
  simp only [if_true]
  rw [ht, hd, hb, List.append_nil]
  simp [h]

theorem readBytes_self (v : List ℕ) : readBytes v.length v = v := by
  apply List.ext_getElem?
  intro i
  unfold readBytes
  by_cases h : i < v.length
  · simp [h, List.getD_eq_getElem?_getD]
  · have h2 : v.length ≤ i := by omega
    rw [List.getElem?_eq_none (by simpa using h2), List.getElem?_eq_none h2]

theorem read_vectors_flatten (d : ℕ) (vs : List (List ℕ)) (hv : ∀ v ∈ vs, v.length = d) :
    ∀ rest : List ℕ,
      read_vectors d vs.length { data := vs.flatten ++ rest, good := true } = vs := by
  induction vs with
  | nil => intro rest; rfl
  | cons v vs ih =>
    intro rest
    have hvl : v.length = d := hv v (List.mem_cons_self _ _)
    rw [List.length_cons, read_vectors, List.flatten_cons, List.append_assoc,
      read_exact v (vs.flatten ++ rest) _ (by rw [List.length_replicate, hvl])]
    simp only []
    rw [ih (fun w hw => hv w (List.mem_cons_of_mem _ hw)) rest]

theorem chunk_flatten (k : ℕ) (ls : List (List ℕ)) (hl : ∀ l ∈ ls, l.length = k) :
    chunk k ls.length ls.flatten = ls := by
  induction ls with
  | nil => rfl
  | cons l ls ih =>
    have hll : l.length = k := hl l (List.mem_cons_self _ _)
    unfold chunk at ih ⊢
    rw [List.length_cons, List.range_succ_eq_map, List.map_cons, List.map_map, List.flatten_cons]
    congr 1
    · simp [List.take_left' hll]
    · refine Eq.trans ?_ (ih (fun w hw => hl w (List.mem_cons_of_mem _ hw)))
      apply List.map_congr_left
      intro i _
      simp only [Function.comp]
      have : (i + 1) * k = l.length + i * k := by rw [hll]; ring
      rw [Nat.succ_eq_add_one, this, ← List.drop_drop, List.drop_left' rfl]

theorem readBuf_norms (norms : List ℚ) : readBuf norms norms.length = norms := readBuf_self norms

theorem map_readBytes_self (d : ℕ) (vs : List (List ℕ)) (hv : ∀ v ∈ vs, v.length = d) :
    vs.map (readBytes d) = vs := by
  conv_rhs => rw [← List.map_id vs]
  apply List.map_congr_left
  intro v hvm
  rw [← hv v hvm]
  exact readBytes_self v

end SPFresh

namespace SPFresh

/-- The bytes `save_index` writes for an index that satisfies the invariants. -/
theorem serialize_eq (fr : FloatRepr) (s : SPFreshIndex)
    (h1 : s.norms.length = s.quantized_vectors.length)
    (h2 : ∀ v ∈ s.quantized_vectors, v.length = s.dimension)
    (hn : s.size < 2 ^ 32) :
    serialize fr s =
      leBytes 4 0x50534648 ++ leBytes 4 1 ++ leBytes 8 s.dimension ++ leBytes 4 s.size
        ++ (s.norms.map fr.enc).flatten ++ s.quantized_vectors.flatten := by
  unfold serialize
  simp only []
  have hm : s.quantized_vectors.length % 2 ^ 32 = s.quantized_vectors.length :=
    Nat.mod_eq_of_lt hn
  rw [hm, ← h1, readBuf_self, map_readBytes_self s.dimension s.quantized_vectors h2]
  unfold SPFreshIndex.size
  rw [h1]

/-- Loading a well-formed snapshot. -/
theorem load_bytes (fr : FloatRepr) (junk : Uninit) (fs : FileSys) (t : SPFreshIndex)
    (dimension : ℕ) (norms : List ℚ) (qv : List (List ℕ))
    (hc : fs.content t.path = some (leBytes 4 0x50534648 ++ leBytes 4 1 ++ leBytes 8 dimension
      ++ leBytes 4 qv.length ++ (norms.map fr.enc).flatten ++ qv.flatten))
    (h1 : norms.length = qv.length) (h2 : ∀ v ∈ qv, v.length = dimension)
    (hn : qv.length < 2 ^ 32) (hdim : dimension < 2 ^ 64)
    (hfr : ∀ x ∈ norms, (fr.enc x).length = 4 ∧ fr.dec (fr.enc x) = x) :
    load_index fr junk fs t =
      (true, { t with quantized_vectors := qv, norms := norms, dimension := dimension }) := by
  have hmagic : leVal (leBytes 4 0x50534648) = 0x50534648 := by
    rw [leVal_leBytes]
    norm_num
  have hdimv : leVal (leBytes 8 dimension) = dimension := by
    rw [leVal_leBytes]
    exact Nat.mod_eq_of_lt (by norm_num at hdim ⊢; exact hdim)
  have hnv : leVal (leBytes 4 qv.length) = qv.length := by
    rw [leVal_leBytes]
    exact Nat.mod_eq_of_lt (by norm_num at hn ⊢; exact hn)
  have hnl : ((norms.map fr.enc).flatten).length = qv.length * 4 := by
    rw [← h1]
    clear hc h1
    induction norms with
    | nil => rfl
    | cons x xs ih =>
      rw [List.map_cons, List.flatten_cons, List.length_append,
        ih (fun y hy => hfr y (List.mem_cons_of_mem _ hy)),
        (hfr x (List.mem_cons_self _ _)).1, List.length_cons]
      ring
  have hchunk : chunk 4 qv.length (norms.map fr.enc).flatten = norms.map fr.enc := by
    have := chunk_flatten 4 (norms.map fr.enc) (by
      intro l hl
      obtain ⟨x, hx, rfl⟩ := List.mem_map.mp hl
      exact (hfr x hx).1)
    rw [List.length_map, h1] at this
    exact this
  have hdec : (norms.map fr.enc).map fr.dec = norms := by
    rw [List.map_map]
    conv_rhs => rw [← List.map_id norms]
    apply List.map_congr_left
    intro x hx
    exact (hfr x hx).2
  unfold load_index
  simp only [hc]
  rw [List.append_assoc, List.append_assoc, List.append_assoc, List.append_assoc,
    read_exact (leBytes 4 0x50534648) _ _ (by rw [leBytes_length, leBytes_length])]
  simp only [hmagic, ne_eq, not_true_eq_false, if_false]
  rw [read_exact (leBytes 4 1) _ _ (by rw [leBytes_length, leBytes_length])]
  simp only []
  rw [read_exact (leBytes 8 dimension) _ _ (by rw [leBytes_length, leBytes_length])]
  simp only [hdimv]
  rw [read_exact (leBytes 4 qv.length) _ _ (by rw [leBytes_length, leBytes_length])]
  simp only [hnv]
  rw [read_exact ((norms.map fr.enc).flatten) _ _ (by rw [List.length_replicate, hnl])]
  simp only [hchunk, hdec]
  have hrv := read_vectors_flatten dimension qv h2 []
  rw [List.append_nil] at hrv
  rw [hrv]

end SPFresh

/-! ## C13: round trip of the single-file snapshot -/

/-- C13.  For a single-file index that satisfies the two invariants, holds fewer than
`2^32` vectors and has a dimension that fits `size_t`, with a file that can be written
and a float representation that gives four bytes per cached norm and reads them back:
`save_index` succeeds and writes the magic `0x50534648`, the version 1, the dimension
(8 bytes), the vector count (4 bytes), the norms and then the bytes of every vector, in
that order; and `load_index` on the file written, run on any index object at the same
path, succeeds and leaves that object with the same dimension, vectors and norms. -/
theorem snapshot_round_trip (fr : SPFresh.FloatRepr) (junk : SPFresh.Uninit)
    (fs : SPFresh.FileSys) (s t : SPFresh.SPFreshIndex)
    (hp : t.path = s.path) (hw : fs.writable s.path = true)
    (h1 : s.norms.length = s.quantized_vectors.length)
    (h2 : ∀ v ∈ s.quantized_vectors, v.length = s.dimension)
    (hn : s.size < 2 ^ 32) (hdim : s.dimension < 2 ^ 64)
    (hfr : ∀ x ∈ s.norms, (fr.enc x).length = 4 ∧ fr.dec (fr.enc x) = x) :
    (SPFresh.save_index fr fs s).1 = true ∧
    (SPFresh.save_index fr fs s).2.content s.path =
      some (SPFresh.leBytes 4 0x50534648 ++ SPFresh.leBytes 4 1 ++ SPFresh.leBytes 8 s.dimension
        ++ SPFresh.leBytes 4 s.size ++ (s.norms.map fr.enc).flatten
        ++ s.quantized_vectors.flatten) ∧
    SPFresh.load_index fr junk (SPFresh.save_index fr fs s).2 t =
      (true, { t with quantized_vectors := s.quantized_vectors, norms := s.norms,
                      dimension := s.dimension }) ∧
    (SPFresh.load_index fr junk (SPFresh.save_index fr fs s).2 t).2.size = s.size := by
  have hsave : SPFresh.save_index fr fs s = (true, fs.write s.path (SPFresh.serialize fr s)) := by
    unfold SPFresh.save_index
    rw [if_pos hw]
  have hcontent : (fs.write s.path (SPFresh.serialize fr s)).content s.path =
      some (SPFresh.leBytes 4 0x50534648 ++ SPFresh.leBytes 4 1 ++ SPFresh.leBytes 8 s.dimension
        ++ SPFresh.leBytes 4 s.size ++ (s.norms.map fr.enc).flatten
        ++ s.quantized_vectors.flatten) := by
    rw [← SPFresh.serialize_eq fr s h1 h2 hn]
    simp [SPFresh.FileSys.write]
  have hload := SPFresh.load_bytes fr junk (fs.write s.path (SPFresh.serialize fr s)) t
    s.dimension s.norms s.quantized_vectors (by rw [hp]; exact hcontent) h1 h2 hn hdim hfr
  rw [hsave]
  refine ⟨rfl, hcontent, hload, ?_⟩
  rw [hload]
  rfl

/-- C13, witness: an index with one vector of dimension 1 and the norm 1. -/
theorem snapshot_round_trip_witness :
    SPFresh.load_index SPFresh.unitRepr ⟨0, 0, 0⟩
        (SPFresh.save_index SPFresh.unitRepr SPFresh.emptyFs
          (SPFresh.SPFreshIndex.mk "idx" [[255]] [1] 1)).2
        (SPFresh.SPFreshIndex.mk "idx" [] [] 768)
      = (true, SPFresh.SPFreshIndex.mk "idx" [[255]] [1] 1) :=
  (snapshot_round_trip SPFresh.unitRepr ⟨0, 0, 0⟩ SPFresh.emptyFs
    (SPFresh.SPFreshIndex.mk "idx" [[255]] [1] 1) (SPFresh.SPFreshIndex.mk "idx" [] [] 768)
    rfl rfl rfl (by decide) (by decide) (by decide)
    (by
      intro x hx
      rw [List.mem_singleton.mp hx]
      constructor
      · norm_num [SPFresh.unitRepr]
      · norm_num [SPFresh.unitRepr])).2.2.1

namespace SPFresh

theorem flatten_length_eq (k : ℕ) (ls : List (List ℕ)) (h : ∀ l ∈ ls, l.length = k) :
    ls.flatten.length = ls.length * k := by
  induction ls with
  | nil => simp
  | cons l ls ih =>
    rw [List.flatten_cons, List.length_append, ih (fun y hy => h y (List.mem_cons_of_mem _ hy)),
      h l (List.mem_cons_self _ _), List.length_cons]
    ring

end SPFresh

namespace SPFreshLocal
open SPFresh

theorem vec_ne_meta (s : SPFreshIndex) : vec_path s ≠ meta_path s := by
  unfold vec_path meta_path
  intro h
  have h2 := congrArg String.data h
  rw [String.data_append, String.data_append] at h2
  have h3 := List.append_cancel_left h2
  revert h3
  decide

theorem flush_writable (fr : FloatRepr) (fs : FileSys) (s : SPFreshIndex) :
    (flush_write_buffer fr fs s).2.writable = fs.writable := by
  unfold flush_write_buffer
  dsimp only
  split_ifs <;> simp [FileSys.appendTo]

theorem append_writable (fr : FloatRepr) (fs : FileSys) (s : SPFreshIndex) (vector : List ℚ)
    (dim : ℕ) : (append fr fs s vector dim).2.2.writable = fs.writable := by
  unfold append
  dsimp only
  split_ifs <;> simp [flush_writable]

theorem append_all_fields (fr : FloatRepr) (vs : List (List ℚ)) :
    ∀ (fs : FileSys) (s : SPFreshIndex),
      (append_all fr fs s vs).2.1.quantized_vectors = s.quantized_vectors ++
        vs.map (fun v => quantize_vector QUANTIZATION_LEVELS (readBuf v s.dimension)) ∧
      (append_all fr fs s vs).2.1.norms = s.norms ++
        vs.map (fun v => calculate_norm (readBuf v s.dimension)) ∧
      (append_all fr fs s vs).2.1.dimension = s.dimension ∧
      (append_all fr fs s vs).2.1.path = s.path ∧
      (append_all fr fs s vs).2.2.writable = fs.writable ∧
      (append_all fr fs s vs).1 = List.replicate vs.length 0 := by
  induction vs with
  | nil => intro fs s; simp [append_all]
  | cons v vs ih =>
    intro fs s
    obtain ⟨h1, h2, h3, h4, h5⟩ := append_ok_local fr fs s v s.dimension rfl
    obtain ⟨i1, i2, i3, i4, i5, i6⟩ :=
      ih (append fr fs s v s.dimension).2.2 (append fr fs s v s.dimension).2.1
    simp only [append_all]
    refine ⟨?_, ?_, ?_, ?_, ?_, ?_⟩
    · rw [i1, h2, h4]; simp
    · rw [i2, h3, h4]; simp
    · rw [i3, h4]
    · rw [i4, h5]
    · rw [i5, append_writable]
    · rw [i6, h1]; rfl

theorem save_content (fr : FloatRepr) (fs : FileSys) (s : SPFreshIndex)
    (hwv : fs.writable (vec_path s) = true) (hwm : fs.writable (meta_path s) = true) :
    (save_index fr fs s).1 = true ∧
    (save_index fr fs s).2.content (vec_path s) =
      some (s.quantized_vectors.map (readBytes s.dimension)).flatten ∧
    (save_index fr fs s).2.content (meta_path s) = some (s.norms.map fr.enc).flatten ∧
    (save_index fr fs s).2.writable = fs.writable := by
  unfold save_index
  simp [hwv, hwm, FileSys.write, vec_ne_meta s]

theorem create_fresh_files (fr : FloatRepr) (fs : FileSys) (p : String)
    (h : fs.content (base_path p ++ ".vectors") = none) :
    (SPFreshIndex.create fr fs p).2 = fs := by
  simp [SPFreshIndex.create, load_index, vec_path, h]

end SPFreshLocal

/-! ## C14: persistence of the split-file index across destroy and reopen -/

/-- C15.  The code at the failing inputs, for every allocator: `load_index` reports the
hard error (`false`) for a single-file snapshot whose four magic bytes are zero and for a
vectors file of one byte (not a multiple of the dimension 768), yet
`spfresh_index_create` returns the non-null address `1` and registers an empty index of
dimension 768 in both layouts. -/
theorem create_after_failed_load (heap : SPFresh.Heap) :
    (SPFresh.load_index SPFresh.zeroRepr ⟨0, 0, 0⟩ (SPFresh.emptyFs.write "idx" [0, 0, 0, 0])
      (SPFresh.SPFreshIndex.mk "idx" [] [] 768)).1 = false ∧
    (SPFresh.spfresh_index_create SPFresh.zeroRepr ⟨0, 0, 0⟩ heap 1 (some "idx")
      ⟨fun _ => none, SPFresh.emptyFs.write "idx" [0, 0, 0, 0]⟩).1 = 1 ∧
    (SPFresh.spfresh_index_create SPFresh.zeroRepr ⟨0, 0, 0⟩ heap 1 (some "idx")
      ⟨fun _ => none, SPFresh.emptyFs.write "idx" [0, 0, 0, 0]⟩).2.index_map 1 =
        some (SPFresh.SPFreshIndex.mk "idx" [] [] 768) ∧
    (SPFreshLocal.load_index SPFresh.zeroRepr (SPFresh.emptyFs.write "idx.vectors" [7])
      (SPFreshLocal.SPFreshIndex.mk "idx" [] [] 768 [] [])).1 = some false ∧
    (SPFreshLocal.spfresh_index_create SPFresh.zeroRepr heap 1 (some "idx")
      ⟨fun _ => none, SPFresh.emptyFs.write "idx.vectors" [7]⟩).map Prod.fst = some 1 ∧
    (SPFreshLocal.spfresh_index_create SPFresh.zeroRepr heap 1 (some "idx")
      ⟨fun _ => none, SPFresh.emptyFs.write "idx.vectors" [7]⟩).bind
        (fun r => r.2.index_map 1) =
        some (SPFreshLocal.SPFreshIndex.mk "idx" [] [] 768 [] []) := by
  refine ⟨?_, ?_, ?_, ?_, ?_, ?_⟩
  · rfl
  · rfl
  · rfl
  · rfl
  · rfl
  · rfl

/-! ## C16: create with an empty or unset path -/

/-- C16, counterexample: with the empty string as path, in a table without entries and
without files, `spfresh_index_create` returns the non-null address `1` and registers an
(empty) index at that handle, in both layouts. -/
theorem create_empty_path_registers :
    (SPFresh.spfresh_index_create SPFresh.zeroRepr ⟨0, 0, 0⟩ SPFresh.ampleHeap 1 (some "")
      ⟨fun _ => none, SPFresh.emptyFs⟩).1 = 1 ∧
    (SPFresh.spfresh_index_create SPFresh.zeroRepr ⟨0, 0, 0⟩ SPFresh.ampleHeap 1 (some "")
      ⟨fun _ => none, SPFresh.emptyFs⟩).2.index_map 1 =
        some (SPFresh.SPFreshIndex.mk "" [] [] 768) ∧
    (SPFreshLocal.spfresh_index_create SPFresh.zeroRepr SPFresh.ampleHeap 1 (some "")
      ⟨fun _ => none, SPFresh.emptyFs⟩).map Prod.fst = some 1 ∧
    (SPFreshLocal.spfresh_index_create SPFresh.zeroRepr SPFresh.ampleHeap 1 (some "")
      ⟨fun _ => none, SPFresh.emptyFs⟩).bind (fun r => r.2.index_map 1) =
        some (SPFreshLocal.SPFreshIndex.mk "" [] [] 768 [] []) := by
  refine ⟨?_, ?_, ?_, ?_⟩
  · rfl
  · rfl
  · rfl
  · rfl

/-- C16, amended.  With an unset (null) path `spfresh_index_create` returns the null
handle and leaves the handle table and the files as they were, in both layouts and for
every allocator.  A path string is not tested for being empty: with any string `p`, the
empty one included, under which no file exists, the call returns the address of the new
index object, which is not null, and registers under it the empty index of dimension 768
constructed on `p`. -/
theorem create_null_path (fr : SPFresh.FloatRepr) (junk : SPFresh.Uninit) (heap : SPFresh.Heap)
    (addr : ℕ) (p : String) (g : SPFresh.Registry) (gl : SPFreshLocal.Registry) :
    SPFresh.spfresh_index_create fr junk heap addr none g = (0, g) ∧
    SPFreshLocal.spfresh_index_create fr heap addr none gl = some (0, gl) ∧
    (addr ≠ 0 → g.fs.content p = none →
      (SPFresh.spfresh_index_create fr junk heap addr (some p) g).1 = addr ∧
      (SPFresh.spfresh_index_create fr junk heap addr (some p) g).1 ≠ 0 ∧
      (SPFresh.spfresh_index_create fr junk heap addr (some p) g).2.index_map addr =
        some (SPFresh.SPFreshIndex.mk p [] [] 768) ∧
      (SPFresh.spfresh_index_create fr junk heap addr (some p) g).2.fs = g.fs) ∧
    (addr ≠ 0 → gl.fs.content (SPFreshLocal.base_path p ++ ".vectors") = none →
      ∃ r, SPFreshLocal.spfresh_index_create fr heap addr (some p) gl = some r ∧
        r.1 = addr ∧ r.1 ≠ 0 ∧
        r.2.index_map addr =
          some (SPFreshLocal.SPFreshIndex.mk (SPFreshLocal.base_path p) [] [] 768 [] []) ∧
        r.2.fs = gl.fs) := by
  refine ⟨rfl, rfl, ?_, ?_⟩
  · intro ha hc
    have ht : SPFresh.SPFreshIndex.create_throws heap junk g.fs p = false := by
      simp [SPFresh.SPFreshIndex.create_throws, hc]
    have hcr := SPFresh.create_fresh fr junk g.fs p hc
    unfold SPFresh.spfresh_index_create
    simp only [ht, Bool.false_eq_true, if_false, hcr]
    simp [ha]
  · intro ha hc
    have ht : SPFreshLocal.SPFreshIndex.create_throws fr heap gl.fs p = false := by
      simp [SPFreshLocal.SPFreshIndex.create_throws, hc]
    have hr : SPFreshLocal.SPFreshIndex.create_returns fr gl.fs p = true := by
      simp [SPFreshLocal.SPFreshIndex.create_returns, SPFreshLocal.load_index,
        SPFreshLocal.vec_path, hc]
    have h1 := SPFreshLocal.create_fresh_local fr gl.fs p hc
    have h2 := SPFreshLocal.create_fresh_files fr gl.fs p hc
    unfold SPFreshLocal.spfresh_index_create
    simp only [ht, hr, Bool.false_eq_true, if_false, if_true, h1, h2]
    exact ⟨_, rfl, rfl, ha, by simp, rfl⟩

/-- C16, witness: the empty string as path, no files, the address `1`. -/
theorem create_null_path_witness :
    (SPFresh.spfresh_index_create SPFresh.zeroRepr ⟨0, 0, 0⟩ SPFresh.smallHeap 1 (some "")
      ⟨fun _ => none, SPFresh.emptyFs⟩).1 = 1 ∧
    (SPFresh.spfresh_index_create SPFresh.zeroRepr ⟨0, 0, 0⟩ SPFresh.smallHeap 1 (some "")
      ⟨fun _ => none, SPFresh.emptyFs⟩).1 ≠ 0 ∧
    (SPFresh.spfresh_index_create SPFresh.zeroRepr ⟨0, 0, 0⟩ SPFresh.smallHeap 1 (some "")
      ⟨fun _ => none, SPFresh.emptyFs⟩).2.index_map 1 =
        some (SPFresh.SPFreshIndex.mk "" [] [] 768) ∧
    (SPFresh.spfresh_index_create SPFresh.zeroRepr ⟨0, 0, 0⟩ SPFresh.smallHeap 1 (some "")
      ⟨fun _ => none, SPFresh.emptyFs⟩).2.fs = SPFresh.emptyFs :=
  (create_null_path SPFresh.zeroRepr ⟨0, 0, 0⟩ SPFresh.smallHeap 1 ""
    ⟨fun _ => none, SPFresh.emptyFs⟩ ⟨fun _ => none, SPFresh.emptyFs⟩).2.2.1
    (by decide) rfl

/-! ## C18: the handle table -/

namespace SPFresh

theorem F32.sqrt_nonneg (x : ℚ) : 0 ≤ F32.sqrt x := by
  unfold F32.sqrt
  split_ifs with h
  · exact le_refl 0
  · dsimp only
    positivity

theorem calculate_norm_nonneg (v : List ℚ) : 0 ≤ calculate_norm v :=
  F32.sqrt_nonneg _

theorem chunk_take (k n : ℕ) (bs : List ℕ) : chunk k n (bs.take (n * k)) = chunk k n bs := by
  unfold chunk
  apply List.map_congr_left
  intro i hi
  have hi2 : i < n := List.mem_range.mp hi
  rw [List.drop_take, List.take_take]
  have : k ≤ n * k - i * k := by
    rw [← Nat.sub_mul]
    exact Nat.le_mul_of_pos_left k (by omega)
  rw [min_eq_left this]

end SPFresh

/-! ## Loading the split-file index -/

namespace SPFreshLocal
open SPFresh

/-- With the metadata file missing or short, `load_index` recomputes the norms of the
vectors `qv` in memory and then blocks in `save_index`: no result, no file written. -/
theorem load_repair (fr : FloatRepr) (fs : FileSys) (t : SPFreshIndex) (qv : List (List ℕ))
    (hd : t.dimension ≠ 0) (hq : qv ≠ [])
    (hv : fs.content (vec_path t) = some qv.flatten)
    (h2 : ∀ v ∈ qv, v.length = t.dimension)
    (hm : ∀ mb, fs.content (meta_path t) = some mb → mb.length < qv.length * 4) :
    load_index fr fs t =
      (none,
       { t with quantized_vectors := qv,
                norms := qv.map (fun v => calculate_norm (dequantize_vector QUANTIZATION_LEVELS v)) },
       fs) := by
  have hlen : qv.flatten.length = qv.length * t.dimension := flatten_length_eq _ qv h2
  have hpos : 0 < qv.length := List.length_pos.mpr hq
  have hdpos : 0 < t.dimension := Nat.pos_of_ne_zero hd
  have hrv := read_vectors_flatten t.dimension qv h2 []
  rw [List.append_nil] at hrv
  have hne : ¬ (qv.length * t.dimension = 0) := by
    intro h
    rcases Nat.mul_eq_zero.mp h with h | h <;> omega
  have hn0 : ¬ (0 = qv.length) := by omega
  unfold load_index
  cases hc : fs.content (meta_path t) with
  | none =>
    simp only [hv, hlen, Nat.mul_mod_left, Nat.mul_div_cancel _ hdpos, hrv, hne, ne_eq,
      not_true_eq_false, or_self, if_false, List.length_nil, hn0, not_false_eq_true, if_true,
      save_index_call, lock_guard, Bool.not_true, Bool.false_eq_true]
  | some mb =>
    have hlt := hm mb hc
    have hg : ¬ (min mb.length (qv.length * 4) = qv.length * 4) := by
      rw [min_eq_left (le_of_lt hlt)]
      omega
    simp only [hv, hlen, Nat.mul_mod_left, Nat.mul_div_cancel _ hdpos, hrv, hne, ne_eq,
      not_true_eq_false, or_self, if_false, List.length_nil, hn0, not_false_eq_true, if_true,
      IStream.gcount, hg, save_index_call, lock_guard, Bool.not_true, Bool.false_eq_true]

/-- The index `load_index` leaves when the metadata file holds enough bytes. -/
theorem load_keep (fr : FloatRepr) (fs : FileSys) (t : SPFreshIndex) (qv : List (List ℕ))
    (mb : List ℕ) (hd : t.dimension ≠ 0) (hq : qv ≠ [])
    (hv : fs.content (vec_path t) = some qv.flatten)
    (h2 : ∀ v ∈ qv, v.length = t.dimension)
    (hc : fs.content (meta_path t) = some mb) (hge : qv.length * 4 ≤ mb.length) :
    load_index fr fs t =
      (some true, { t with quantized_vectors := qv,
                           norms := (chunk 4 qv.length mb).map fr.dec }, fs) := by
  have hlen : qv.flatten.length = qv.length * t.dimension := flatten_length_eq _ qv h2
  have hpos : 0 < qv.length := List.length_pos.mpr hq
  have hdpos : 0 < t.dimension := Nat.pos_of_ne_zero hd
  have hrv := read_vectors_flatten t.dimension qv h2 []
  rw [List.append_nil] at hrv
  have hne : ¬ (qv.length * t.dimension = 0) := by
    intro h
    rcases Nat.mul_eq_zero.mp h with h | h <;> omega
  have hrd : (IStream.read ⟨mb, true⟩ (List.replicate (qv.length * 4) 0)).1 =
      mb.take (qv.length * 4) := by
    have := read_exact (mb.take (qv.length * 4)) (mb.drop (qv.length * 4))
      (List.replicate (qv.length * 4) 0)
      (by rw [List.length_replicate, List.length_take, min_eq_left hge])
    rw [List.take_append_drop] at this
    rw [this]
  unfold load_index
  simp only [hv, hc, hlen, Nat.mul_mod_left, Nat.mul_div_cancel _ hdpos, hrv, hne, ne_eq,
    not_true_eq_false, or_self, if_false, IStream.gcount, if_true, min_eq_right hge, hrd,
    chunk_take, List.length_map, chunk_length]

end SPFreshLocal

/-! ## Scores over a store of appended vectors -/

namespace SPFresh

/-- Scores of a successful search over a store whose vectors and norms were derived
from the original vectors `vs`. -/
theorem search_core_scores_of (L dimension d : ℕ) (vs : List (List ℚ))
    (q : List ℚ) (dim k : ℕ) (ri : List ℕ) (rs : List ℚ)
    (h : (search_core L dimension (vs.map (fun v => quantize_vector L (readBuf v d)))
      (vs.map (fun v => calculate_norm (readBuf v d))) q dim k ri rs).1 = 0)
    (hri : min k vs.length ≤ ri.length) (hrs : min k vs.length ≤ rs.length)
    (i : ℕ) (hi : i < min k vs.length) :
    ∃ id, id < vs.length ∧
      (search_core L dimension (vs.map (fun v => quantize_vector L (readBuf v d)))
        (vs.map (fun v => calculate_norm (readBuf v d))) q dim k ri rs).2.1[i]? = some id ∧
      (search_core L dimension (vs.map (fun v => quantize_vector L (readBuf v d)))
        (vs.map (fun v => calculate_norm (readBuf v d))) q dim k ri rs).2.2[i]? =
        some (similarity (calculate_norm (readBuf q dim))
          (calculate_norm (readBuf (vs.getD id []) d))
          (dot_product L q (quantize_vector L (readBuf (vs.getD id []) d)) dim)) := by
  obtain ⟨id, h1, h2, h3⟩ := search_results_scores L dimension _ _ q dim k ri rs h
    (by rw [List.length_map]; exact hri) (by rw [List.length_map]; exact hrs) i
    (by rw [List.length_map]; exact hi)
  rw [List.length_map] at h1
  refine ⟨id, h1, h2, ?_⟩
  rw [h3]
  have e1 : (vs.map (fun v => calculate_norm (readBuf v d))).getD id 0 =
      calculate_norm (readBuf (vs.getD id []) d) := by
    rw [List.getD_eq_getElem?_getD, List.getD_eq_getElem?_getD, List.getElem?_map,
      List.getElem?_eq_getElem h1]
    rfl
  have e2 : (vs.map (fun v => quantize_vector L (readBuf v d))).getD id [] =
      quantize_vector L (readBuf (vs.getD id []) d) := by
    rw [List.getD_eq_getElem?_getD, List.getD_eq_getElem?_getD, List.getElem?_map,
      List.getElem?_eq_getElem h1]
    rfl
  rw [e1, e2]

end SPFresh

namespace SPFreshLocal
open SPFresh

theorem synced_flush (fr : FloatRepr) (s : SPFreshIndex) (fs : FileSys)
    (h : Synced fr (s, fs)) :
    Synced fr (flush_write_buffer fr fs s) ∧
    (flush_write_buffer fr fs s).1.write_buffer_vectors = [] := by
  obtain ⟨h1, h2, h3, h4, h5⟩ := h
  simp only [] at h1 h2 h3 h4 h5
  have hne := vec_ne_meta s
  have hne2 : meta_path s ≠ vec_path s := fun e => hne e.symm
  unfold flush_write_buffer
  by_cases hb : s.write_buffer_vectors = []
  · rw [if_pos hb]
    exact ⟨⟨h1, h2, h3, h4, h5⟩, hb⟩
  · rw [if_neg hb, if_neg (by simpa using h4)]
    simp only []
    rw [if_neg (by simpa [FileSys.appendTo] using h5)]
    refine ⟨⟨?_, ?_, rfl, ?_, ?_⟩, rfl⟩
    · show ((((fs.appendTo (vec_path s) _).appendTo (meta_path s) _).content (vec_path s)).getD []
        ++ _ = _)
      simp only [FileSys.appendTo, if_neg hne, if_true, Option.getD_some, List.map_nil,
        List.flatten_nil, List.append_nil]
      exact h1
    · show ((((fs.appendTo (vec_path s) _).appendTo (meta_path s) _).content (meta_path s)).getD []
        ++ _ = _)
      simp only [FileSys.appendTo, if_neg hne2, if_true, Option.getD_some, List.map_nil,
        List.flatten_nil, List.append_nil]
      exact h2
    · simpa [FileSys.appendTo] using h4
    · simpa [FileSys.appendTo] using h5

theorem synced_save (fr : FloatRepr) (s : SPFreshIndex) (fs : FileSys)
    (h : Synced fr (s, fs)) (hb : s.write_buffer_vectors = []) :
    Synced fr (s, (save_index fr fs s).2) := by
  obtain ⟨h1, h2, h3, h4, h5⟩ := h
  simp only [] at h1 h2 h3 h4 h5
  obtain ⟨_, c2, c3, c4⟩ := save_content fr fs s h4 h5
  have hbn : s.write_buffer_norms = [] := by
    rw [hb] at h3
    exact List.length_eq_zero.mp h3.symm
  refine ⟨?_, ?_, h3, ?_, ?_⟩
  · simp only []
    rw [c2, hb]
    simp
  · simp only []
    rw [c3, hbn]
    simp
  · simp only []
    rw [c4]
    exact h4
  · simp only []
    rw [c4]
    exact h5

theorem synced_append (fr : FloatRepr) (s : SPFreshIndex) (fs : FileSys) (v : List ℚ)
    (h : Synced fr (s, fs)) :
    Synced fr (append fr fs s v s.dimension).2 ∧
    (append fr fs s v s.dimension).2.1.write_buffer_vectors.length < WRITE_BUFFER_SIZE := by
  obtain ⟨h1, h2, h3, h4, h5⟩ := h
  simp only [] at h1 h2 h3 h4 h5
  have hpush : Synced fr
      ({ s with quantized_vectors := s.quantized_vectors ++
                  [quantize_vector QUANTIZATION_LEVELS (readBuf v s.dimension)],
                norms := s.norms ++ [calculate_norm (readBuf v s.dimension)],
                write_buffer_vectors := s.write_buffer_vectors ++
                  [quantize_vector QUANTIZATION_LEVELS (readBuf v s.dimension)],
                write_buffer_norms := s.write_buffer_norms ++
                  [calculate_norm (readBuf v s.dimension)] }, fs) := by
    refine ⟨?_, ?_, ?_, h4, h5⟩
    · show (fs.content (vec_path s)).getD [] ++ _ = _
      simp only [List.map_append, List.flatten_append]
      rw [← List.append_assoc, h1]
    · show (fs.content (meta_path s)).getD [] ++ _ = _
      simp only [List.map_append, List.flatten_append]
      rw [← List.append_assoc, h2]
    · simp only [List.length_append, h3, List.length_cons, List.length_nil]
  unfold append
  rw [if_neg (by simp)]
  simp only []
  split_ifs with hf
  · obtain ⟨f1, f2⟩ := synced_flush fr _ fs hpush
    refine ⟨f1, ?_⟩
    rw [f2]
    exact Nat.zero_lt_succ _
  · refine ⟨hpush, ?_⟩
    simp only [ge_iff_le, not_le] at hf
    exact hf

theorem run_ops_synced (fr : FloatRepr) (ops : List Op) :
    ∀ st : SPFreshIndex × FileSys, Synced fr st →
      st.1.write_buffer_vectors.length < WRITE_BUFFER_SIZE → save_guarded fr ops st →
      Synced fr (run_ops fr ops st) ∧
      (run_ops fr ops st).1.write_buffer_vectors.length < WRITE_BUFFER_SIZE := by
  induction ops with
  | nil => intro st h hl _; exact ⟨h, hl⟩
  | cons op ops ih =>
    intro st h hl hg
    obtain ⟨s, fs⟩ := st
    cases op with
    | append v =>
      obtain ⟨a1, a2⟩ := synced_append fr s fs v h
      exact ih _ a1 a2 hg
    | flush =>
      obtain ⟨f1, f2⟩ := synced_flush fr s fs h
      refine ih _ f1 ?_ hg
      show (flush_write_buffer fr fs s).1.write_buffer_vectors.length < _
      rw [f2]
      exact Nat.zero_lt_succ _
    | save =>
      obtain ⟨g1, g2⟩ := hg
      exact ih _ (synced_save fr s fs h g1) hl g2

theorem synced_create (fr : FloatRepr) (fs : FileSys) (p : String)
    (hv : fs.content (base_path p ++ ".vectors") = none)
    (hm : fs.content (base_path p ++ ".metadata") = none)
    (hwv : fs.writable (base_path p ++ ".vectors") = true)
    (hwm : fs.writable (base_path p ++ ".metadata") = true) :
    Synced fr (SPFreshIndex.create fr fs p) ∧
    (SPFreshIndex.create fr fs p).1.write_buffer_vectors.length < WRITE_BUFFER_SIZE := by
  have e : SPFreshIndex.create fr fs p =
      (SPFreshIndex.mk (base_path p) [] [] 768 [] [], fs) :=
    Prod.ext (create_fresh_local fr fs p hv) (create_fresh_files fr fs p hv)
  rw [e]
  refine ⟨⟨?_, ?_, rfl, hwv, hwm⟩, Nat.zero_lt_succ _⟩
  · show (fs.content (base_path p ++ ".vectors")).getD [] ++ _ = _
    rw [hv]
    rfl
  · show (fs.content (base_path p ++ ".metadata")).getD [] ++ _ = _
    rw [hm]
    rfl

theorem run_ops_inv (fr : FloatRepr) (ops : List Op) :
    ∀ st : SPFreshIndex × FileSys, Inv st.1 → Inv (run_ops fr ops st).1 := by
  induction ops with
  | nil => intro st h; exact h
  | cons op ops ih =>
    intro st h
    cases op with
    | append v => exact ih _ (append_inv_local fr st.2 st.1 v st.1.dimension h)
    | flush =>
      refine ih _ ?_
      obtain ⟨f1, f2, f3, _⟩ := flush_fields fr st.2 st.1
      show Inv (flush_write_buffer fr st.2 st.1).1
      unfold Inv
      rw [f1, f2, f3]
      exact h
    | save => exact ih _ h

theorem savedThenFlushed_eq :
    savedThenFlushed =
      (SPFreshIndex.mk "idx" [quantize_vector QUANTIZATION_LEVELS (readBuf zeros768 768)]
        [calculate_norm (readBuf zeros768 768)] 768 [] [],
       ((emptyFs.write "idx.vectors"
          (readBytes 768 (quantize_vector QUANTIZATION_LEVELS (readBuf zeros768 768)) ++ [])).write
          "idx.metadata" ([0, 0, 0, 0] ++ [])
          |>.appendTo "idx.vectors"
            (readBytes 768 (quantize_vector QUANTIZATION_LEVELS (readBuf zeros768 768)) ++ [])
          |>.appendTo "idx.metadata" ([0, 0, 0, 0] ++ []))) := by
  rfl

theorem run_ops_append (fr : FloatRepr) (a b : List Op) :
    ∀ st : SPFreshIndex × FileSys, run_ops fr (a ++ b) st = run_ops fr b (run_ops fr a st) := by
  induction a with
  | nil => intro st; rfl
  | cons op a ih => intro st; exact ih _

theorem flush_buffer_cases (fr : FloatRepr) (fs : FileSys) (s : SPFreshIndex) :
    (flush_write_buffer fr fs s).1.write_buffer_vectors = s.write_buffer_vectors ∨
    (flush_write_buffer fr fs s).1.write_buffer_vectors = [] := by
  unfold flush_write_buffer
  dsimp only
  split_ifs <;> simp

theorem run_ops_buffer_len (fr : FloatRepr) (ops : List Op) :
    ∀ st : SPFreshIndex × FileSys,
      (∀ v ∈ st.1.write_buffer_vectors, v.length = st.1.dimension) →
      ∀ v ∈ (run_ops fr ops st).1.write_buffer_vectors,
        v.length = (run_ops fr ops st).1.dimension := by
  induction ops with
  | nil => intro st h; exact h
  | cons op ops ih =>
    intro st h
    cases op with
    | append v =>
      refine ih _ ?_
      show ∀ w ∈ (append fr st.2 st.1 v st.1.dimension).2.1.write_buffer_vectors,
        w.length = (append fr st.2 st.1 v st.1.dimension).2.1.dimension
      rw [(append_ok_local fr st.2 st.1 v st.1.dimension rfl).2.2.2.1]
      unfold append
      rw [if_neg (by simp)]
      simp only []
      split_ifs
      · intro w hw
        rcases flush_buffer_cases fr st.2 _ with e | e
        · rw [e] at hw
          rcases List.mem_append.mp hw with hw | hw
          · exact h w hw
          · rw [List.mem_singleton.mp hw, quantize_vector_length, readBuf_length]
        · rw [e] at hw
          exact absurd hw (List.not_mem_nil _)
      · intro w hw
        rcases List.mem_append.mp hw with hw | hw
        · exact h w hw
        · rw [List.mem_singleton.mp hw, quantize_vector_length, readBuf_length]
    | flush =>
      refine ih _ ?_
      show ∀ w ∈ (flush_write_buffer fr st.2 st.1).1.write_buffer_vectors,
        w.length = (flush_write_buffer fr st.2 st.1).1.dimension
      rw [(flush_fields fr st.2 st.1).2.2.1]
      intro w hw
      rcases flush_buffer_cases fr st.2 st.1 with e | e
      · rw [e] at hw
        exact h w hw
      · rw [e] at hw
        exact absurd hw (List.not_mem_nil _)
    | save => exact ih _ h

end SPFreshLocal

/-! ## C20: what the files and the write buffer hold -/

/-- C20, counterexample: open the split-file index on a path without files (every file
can be written), append one vector, call `save_index()` and then `flush_write_buffer()`.
The write buffer has just been flushed and the memory holds one vector of 768 bytes and
one norm, yet the vectors file holds 1536 bytes, the vector twice, and the metadata file
holds two norms. -/
theorem save_then_flush_duplicates :
    SPFreshLocal.savedThenFlushed.1.write_buffer_vectors = [] ∧
    SPFreshLocal.savedThenFlushed.1.quantized_vectors.length = 1 ∧
    SPFreshLocal.savedThenFlushed.1.norms.length = 1 ∧
    SPFreshLocal.savedThenFlushed.2.content "idx.vectors" =
      some ((SPFreshLocal.savedThenFlushed.1.quantized_vectors.map
              (SPFresh.readBytes 768)).flatten ++
            (SPFreshLocal.savedThenFlushed.1.quantized_vectors.map
              (SPFresh.readBytes 768)).flatten) ∧
    (SPFreshLocal.savedThenFlushed.1.quantized_vectors.map
      (SPFresh.readBytes 768)).flatten.length = 768 ∧
    SPFreshLocal.savedThenFlushed.2.content "idx.metadata" = some [0, 0, 0, 0, 0, 0, 0, 0] := by
  rw [SPFreshLocal.savedThenFlushed_eq]
  refine ⟨rfl, rfl, rfl, rfl, ?_, rfl⟩
  simp [SPFresh.readBytes]

/-- C20, amended.  Split-file layout, index opened on a path where neither file exists
and both can be written, followed by any sequence of `append`, `flush_write_buffer` and
`save_index` calls in which `save_index` runs only while the write buffer is empty.  In
the state reached: the write buffer holds fewer than 1000 entries and as many vectors as
norms; the bytes of the vectors file followed by the buffered vectors are exactly the
in-memory vectors in id order, and the metadata file followed by the buffered norms are
exactly the in-memory norms.  After a further `append` the write buffer again holds fewer
than 1000 entries and as many vectors as norms, and after a further
`flush_write_buffer` the buffer is empty, the vectors file holds exactly the in-memory
vectors, each once, and the metadata file exactly the in-memory norms. -/
theorem disk_buffer_consistency (fr : SPFresh.FloatRepr) (fs : SPFresh.FileSys) (p : String)
    (ops : List SPFreshLocal.Op) (v : List ℚ)
    (hv : fs.content (SPFreshLocal.base_path p ++ ".vectors") = none)
    (hm : fs.content (SPFreshLocal.base_path p ++ ".metadata") = none)
    (hwv : fs.writable (SPFreshLocal.base_path p ++ ".vectors") = true)
    (hwm : fs.writable (SPFreshLocal.base_path p ++ ".metadata") = true)
    (hg : SPFreshLocal.save_guarded fr ops (SPFreshLocal.SPFreshIndex.create fr fs p)) :
    ((SPFreshLocal.session fr fs p ops).1.write_buffer_vectors.length
        < SPFreshLocal.WRITE_BUFFER_SIZE ∧
      (SPFreshLocal.session fr fs p ops).1.write_buffer_vectors.length =
        (SPFreshLocal.session fr fs p ops).1.write_buffer_norms.length ∧
      ((SPFreshLocal.session fr fs p ops).2.content
          (SPFreshLocal.vec_path (SPFreshLocal.session fr fs p ops).1)).getD [] ++
        (SPFreshLocal.session fr fs p ops).1.write_buffer_vectors.flatten =
        (SPFreshLocal.session fr fs p ops).1.quantized_vectors.flatten ∧
      ((SPFreshLocal.session fr fs p ops).2.content
          (SPFreshLocal.meta_path (SPFreshLocal.session fr fs p ops).1)).getD [] ++
        ((SPFreshLocal.session fr fs p ops).1.write_buffer_norms.map fr.enc).flatten =
        ((SPFreshLocal.session fr fs p ops).1.norms.map fr.enc).flatten) ∧
    ((SPFreshLocal.session fr fs p (ops ++ [SPFreshLocal.Op.append v])).1.write_buffer_vectors.length
        < SPFreshLocal.WRITE_BUFFER_SIZE ∧
      (SPFreshLocal.session fr fs p (ops ++ [SPFreshLocal.Op.append v])).1.write_buffer_vectors.length
        = (SPFreshLocal.session fr fs p
            (ops ++ [SPFreshLocal.Op.append v])).1.write_buffer_norms.length) ∧
    ((SPFreshLocal.session fr fs p (ops ++ [SPFreshLocal.Op.flush])).1.write_buffer_vectors = [] ∧
      (SPFreshLocal.session fr fs p (ops ++ [SPFreshLocal.Op.flush])).1.quantized_vectors =
        (SPFreshLocal.session fr fs p ops).1.quantized_vectors ∧
      (SPFreshLocal.session fr fs p (ops ++ [SPFreshLocal.Op.flush])).1.norms =
        (SPFreshLocal.session fr fs p ops).1.norms ∧
      ((SPFreshLocal.session fr fs p (ops ++ [SPFreshLocal.Op.flush])).2.content
          (SPFreshLocal.vec_path (SPFreshLocal.session fr fs p ops).1)).getD [] =
        (SPFreshLocal.session fr fs p ops).1.quantized_vectors.flatten ∧
      ((SPFreshLocal.session fr fs p (ops ++ [SPFreshLocal.Op.flush])).2.content
          (SPFreshLocal.meta_path (SPFreshLocal.session fr fs p ops).1)).getD [] =
        ((SPFreshLocal.session fr fs p ops).1.norms.map fr.enc).flatten) := by
  have hc := SPFreshLocal.synced_create fr fs p hv hm hwv hwm
  obtain ⟨hs, hl⟩ := SPFreshLocal.run_ops_synced fr ops _ hc.1 hc.2 hg
  have hinv : SPFreshLocal.Inv (SPFreshLocal.session fr fs p ops).1 :=
    SPFreshLocal.run_ops_inv fr ops _ (SPFreshLocal.load_index_inv_local fr fs _)
  have hbuf : ∀ w ∈ (SPFreshLocal.session fr fs p ops).1.write_buffer_vectors,
      w.length = (SPFreshLocal.session fr fs p ops).1.dimension :=
    SPFreshLocal.run_ops_buffer_len fr ops _ (by
      rw [SPFreshLocal.create_fresh_local fr fs p hv]
      intro w hw
      exact absurd hw (List.not_mem_nil _))
  change SPFreshLocal.Synced fr (SPFreshLocal.session fr fs p ops) at hs
  change (SPFreshLocal.session fr fs p ops).1.write_buffer_vectors.length < _ at hl
  have ea : SPFreshLocal.session fr fs p (ops ++ [SPFreshLocal.Op.append v]) =
      (SPFreshLocal.append fr (SPFreshLocal.session fr fs p ops).2
        (SPFreshLocal.session fr fs p ops).1 v
        (SPFreshLocal.session fr fs p ops).1.dimension).2 := by
    unfold SPFreshLocal.session
    rw [SPFreshLocal.run_ops_append]
    rfl
  have ef : SPFreshLocal.session fr fs p (ops ++ [SPFreshLocal.Op.flush]) =
      SPFreshLocal.flush_write_buffer fr (SPFreshLocal.session fr fs p ops).2
        (SPFreshLocal.session fr fs p ops).1 := by
    unfold SPFreshLocal.session
    rw [SPFreshLocal.run_ops_append]
    rfl
  obtain ⟨a1, a2⟩ := SPFreshLocal.synced_append fr (SPFreshLocal.session fr fs p ops).1
    (SPFreshLocal.session fr fs p ops).2 v hs
  obtain ⟨f1, f2⟩ := SPFreshLocal.synced_flush fr (SPFreshLocal.session fr fs p ops).1
    (SPFreshLocal.session fr fs p ops).2 hs
  obtain ⟨g1, g2, g3, g4⟩ := SPFreshLocal.flush_fields fr (SPFreshLocal.session fr fs p ops).2
    (SPFreshLocal.session fr fs p ops).1
  obtain ⟨s1, s2, s3, _, _⟩ := hs
  refine ⟨⟨hl, s3, ?_, s2⟩, ?_, ?_⟩
  · rw [SPFresh.map_readBytes_self _ _ hinv.2, SPFresh.map_readBytes_self _ _ hbuf] at s1
    exact s1
  · rw [ea]
    exact ⟨a2, a1.2.2.1⟩
  · rw [ef]
    obtain ⟨t1, t2, t3, _, _⟩ := f1
    have hbn : (SPFreshLocal.flush_write_buffer fr (SPFreshLocal.session fr fs p ops).2
        (SPFreshLocal.session fr fs p ops).1).1.write_buffer_norms = [] := by
      rw [f2] at t3
      exact List.length_eq_zero.mp t3.symm
    refine ⟨f2, g1, g2, ?_, ?_⟩
    · rw [f2, g1, g3] at t1
      unfold SPFreshLocal.vec_path at t1 ⊢
      rw [g4] at t1
      rw [SPFresh.map_readBytes_self _ _ hinv.2] at t1
      simpa using t1
    · rw [hbn, g2] at t2
      unfold SPFreshLocal.meta_path at t2 ⊢
      rw [g4] at t2
      simpa using t2

/-- C20, witness: an append, a flush and then a save with the write buffer empty, on a
path without files; a further flush leaves the vectors file equal to the memory. -/
theorem disk_buffer_consistency_witness :
    ((SPFreshLocal.session SPFresh.zeroRepr SPFresh.emptyFs "idx"
        ([SPFreshLocal.Op.append SPFresh.zeros768, SPFreshLocal.Op.flush, SPFreshLocal.Op.save]
          ++ [SPFreshLocal.Op.flush])).2.content
        (SPFreshLocal.vec_path (SPFreshLocal.session SPFresh.zeroRepr SPFresh.emptyFs "idx"
          [SPFreshLocal.Op.append SPFresh.zeros768, SPFreshLocal.Op.flush,
            SPFreshLocal.Op.save]).1)).getD [] =
      (SPFreshLocal.session SPFresh.zeroRepr SPFresh.emptyFs "idx"
        [SPFreshLocal.Op.append SPFresh.zeros768, SPFreshLocal.Op.flush,
          SPFreshLocal.Op.save]).1.quantized_vectors.flatten :=
  (disk_buffer_consistency SPFresh.zeroRepr SPFresh.emptyFs "idx"
    [SPFreshLocal.Op.append SPFresh.zeros768, SPFreshLocal.Op.flush, SPFreshLocal.Op.save]
    SPFresh.zeros768 rfl rfl rfl rfl ⟨rfl, trivial⟩).2.2.2.2.2.1


namespace SPFresh

theorem quantize_127_two : quantize 127 2 = 127 := by
  have h127 : F32.rnd 127 = 127 := by simpa using F32.rnd_natCast 127 (by norm_num)
  exact quantize_eval 127 2 4 1 127 127 (by norm_num [MIN_VAL]) (by norm_num [MAX_VAL])
    (by norm_num) (by norm_num; exact rnd_four) (by norm_num; exact F32.rnd_one)
    (by norm_num; exact h127) (by norm_num) (by norm_num)

theorem quantize_127_small : quantize 127 (1 / 64) = 63 := by
  refine quantize_eval 127 (1 / 64) (129 / 64) (129 / 256) (16383 / 256) 63
    (by norm_num [MIN_VAL]) (by norm_num [MAX_VAL]) (by norm_num) ?_ ?_ ?_
    (by norm_num) (by norm_num)
  · rw [F32.rnd_eval _ 1 8454144 (by norm_num) (by norm_num [abs_of_pos])
      (by norm_num [abs_of_pos]) (by norm_num [F32.roundHalfEven])]
    norm_num
  · rw [F32.rnd_eval _ (-1) 8454144 (by norm_num) (by norm_num [abs_of_pos])
      (by norm_num [abs_of_pos]) (by norm_num [F32.roundHalfEven])]
    norm_num
  · rw [F32.rnd_eval _ 5 16776192 (by norm_num) (by norm_num [abs_of_pos])
      (by norm_num [abs_of_pos]) (by norm_num [F32.roundHalfEven])]
    norm_num

theorem quantize_127_neg_one : quantize 127 (-1) = 31 := by
  refine quantize_eval 127 (-1) 1 (1 / 4) (127 / 4) 31 (by norm_num [MIN_VAL])
    (by norm_num [MAX_VAL]) (by norm_num) (by norm_num; exact F32.rnd_one) ?_ ?_
    (by norm_num) (by norm_num)
  · rw [F32.rnd_eval _ (-2) 8388608 (by norm_num) (by norm_num [abs_of_pos])
      (by norm_num [abs_of_pos]) (by norm_num [F32.roundHalfEven])]
    norm_num
  · rw [F32.rnd_eval _ 4 16646144 (by norm_num) (by norm_num [abs_of_pos])
      (by norm_num [abs_of_pos]) (by norm_num [F32.roundHalfEven])]
    norm_num

theorem dequantize_127_63 : dequantize 127 63 = -16513 / 1048576 := by
  refine dequantize_eval 127 63 (2080639 / 4194304) (2080639 / 1048576) (-16513 / 1048576)
    (by norm_num) (by norm_num) ?_ ?_ ?_
  · rw [F32.rnd_eval _ (-2) 16645112 (by norm_num) (by norm_num [abs_of_pos])
      (by norm_num [abs_of_pos]) (by norm_num [F32.roundHalfEven])]
    norm_num
  · rw [F32.rnd_eval _ 0 16645112 (by norm_num) (by norm_num [abs_of_pos])
      (by norm_num [abs_of_pos]) (by norm_num [F32.roundHalfEven])]
    norm_num
  · rw [F32.rnd_eval _ (-6) (-8454656) (by norm_num) (by norm_num [abs_of_neg])
      (by norm_num [abs_of_neg]) (by norm_num [F32.roundHalfEven])]
    norm_num

theorem dequantize_127_31 : dequantize 127 31 = -2146691 / 2097152 := by
  refine dequantize_eval 127 31 (2047613 / 8388608) (2047613 / 2097152) (-2146691 / 2097152)
    (by norm_num) (by norm_num) ?_ ?_ ?_
  · rw [F32.rnd_eval _ (-3) 16380904 (by norm_num) (by norm_num [abs_of_pos])
      (by norm_num [abs_of_pos]) (by norm_num [F32.roundHalfEven])]
    norm_num
  · rw [F32.rnd_eval _ (-1) 16380904 (by norm_num) (by norm_num [abs_of_pos])
      (by norm_num [abs_of_pos]) (by norm_num [F32.roundHalfEven])]
    norm_num
  · rw [F32.rnd_eval _ 0 (-8586764) (by norm_num) (by norm_num [abs_of_neg])
      (by norm_num [abs_of_neg]) (by norm_num [F32.roundHalfEven])]
    norm_num

theorem rnd_dot_low : F32.rnd (-16513 / 67108864) = -16513 / 67108864 := by
  rw [F32.rnd_eval _ (-12) (-8454656) (by norm_num) (by norm_num [abs_of_neg])
    (by norm_num [abs_of_neg]) (by norm_num [F32.roundHalfEven])]
  norm_num

theorem rnd_score_low : F32.rnd (-16513 / 16384) = -16513 / 16384 := by
  rw [F32.rnd_eval _ 0 (-8454656) (by norm_num) (by norm_num [abs_of_neg])
    (by norm_num [abs_of_neg]) (by norm_num [F32.roundHalfEven])]
  norm_num

theorem rnd_score_high : F32.rnd (2146691 / 2097152) = 2146691 / 2097152 := by
  rw [F32.rnd_eval _ 0 8586764 (by norm_num) (by norm_num [abs_of_pos])
    (by norm_num [abs_of_pos]) (by norm_num [F32.roundHalfEven])]
  norm_num

end SPFresh

namespace SPFreshLocal
open SPFresh

/-- An append that does not fill the write buffer. -/
theorem append_eq_local (fr : FloatRepr) (fs : FileSys) (s : SPFreshIndex) (vector : List ℚ)
    (dim : ℕ) (h : dim = s.dimension)
    (hb : s.write_buffer_vectors.length + 1 < WRITE_BUFFER_SIZE) :
    append fr fs s vector dim =
      (0, { s with quantized_vectors := s.quantized_vectors ++
                     [quantize_vector QUANTIZATION_LEVELS (readBuf vector dim)],
                   norms := s.norms ++ [calculate_norm (readBuf vector dim)],
                   write_buffer_vectors := s.write_buffer_vectors ++
                     [quantize_vector QUANTIZATION_LEVELS (readBuf vector dim)],
                   write_buffer_norms := s.write_buffer_norms ++
                     [calculate_norm (readBuf vector dim)] }, fs) := by
  unfold append
  rw [if_neg (by simpa using h)]
  simp only []
  rw [if_neg (by
    simp only [List.length_append, List.length_cons, List.length_nil, ge_iff_le, not_le]
    exact hb)]

theorem search_eval_local (s : SPFreshIndex) (q : List ℚ) (dim k : ℕ) (ri : List ℕ)
    (rs : List ℚ) (sc : List (ℚ × ℕ)) (hd : dim = s.dimension) (hk : k ≠ 0)
    (hne : s.quantized_vectors ≠ [])
    (hsc : scan QUANTIZATION_LEVELS s.quantized_vectors s.norms q dim = sc) :
    search s q dim k ri rs =
      (0, s, (write_results (std_sort sc) (min k s.quantized_vectors.length) ri rs).1,
             (write_results (std_sort sc) (min k s.quantized_vectors.length) ri rs).2) := by
  unfold search
  rw [(search_core_status QUANTIZATION_LEVELS s.dimension s.quantized_vectors s.norms q dim k
    ri rs).2 (by
      rintro (h | h | h)
      · exact h hd
      · exact hk h
      · exact hne h), hsc]

/-- The result of `twiceAppended`: status 0, the two vectors in the store and in the write
buffer, no file written. -/
theorem twiceAppended_eq :
    twiceAppended = (0, SPFreshIndex.mk "idx"
      [127 :: List.replicate 767 (quantize 127 0), 63 :: List.replicate 767 (quantize 127 0)]
      [2, 1 / 64] 768
      [127 :: List.replicate 767 (quantize 127 0), 63 :: List.replicate 767 (quantize 127 0)]
      [2, 1 / 64], emptyFs) := by
  have h1 : append zeroRepr emptyFs freshIndex (padded 2) 768 =
      (0, SPFreshIndex.mk "idx" [127 :: List.replicate 767 (quantize 127 0)] [2] 768
        [127 :: List.replicate 767 (quantize 127 0)] [2], emptyFs) := by
    rw [freshIndex_eq_local, append_eq_local _ _ _ _ _ rfl (by decide)]
    have hr : readBuf (padded 2) 768 = padded 2 := readBuf_padded 2 767
    rw [hr, norm_padded_two]
    unfold padded QUANTIZATION_LEVELS
    rw [quantize_vector_padded, quantize_127_two]
    rfl
  unfold twiceAppended
  rw [h1, append_eq_local _ _ _ _ _ rfl (by decide)]
  have hr : readBuf (padded (1 / 64)) 768 = padded (1 / 64) := readBuf_padded (1 / 64) 767
  rw [hr, norm_padded_small]
  unfold padded QUANTIZATION_LEVELS
  rw [quantize_vector_padded, quantize_127_small]
  rfl

/-- The scores of the two stored vectors for the query `padded (1 / 64)`. -/
theorem twiceAppended_scan :
    scan 127 twiceAppended.2.1.quantized_vectors twiceAppended.2.1.norms (padded (1 / 64)) 768
      = [(1, 0), (-16513 / 16384, 1)] := by
  rw [twiceAppended_eq]
  have hr : readBuf (padded (1 / 64)) 768 = padded (1 / 64) := readBuf_padded (1 / 64) 767
  have hd0 : dot_product 127 (padded (1 / 64)) (127 :: List.replicate 767 (quantize 127 0)) 768
      = 1 / 32 := by
    unfold padded
    exact dot_padded 127 (1 / 64) (1 / 32) 127 _ 767 (by rw [List.length_replicate])
      (by rw [dequantize_top 127 (by norm_num) (by norm_num)]
          unfold F32.add F32.mul
          norm_num
          rw [rnd_thirty_second, rnd_thirty_second])
      rnd_thirty_second
  have hd1 : dot_product 127 (padded (1 / 64)) (63 :: List.replicate 767 (quantize 127 0)) 768
      = -16513 / 67108864 := by
    unfold padded
    exact dot_padded 127 (1 / 64) (-16513 / 67108864) 63 _ 767 (by rw [List.length_replicate])
      (by rw [dequantize_127_63]
          unfold F32.add F32.mul
          norm_num
          rw [show (-(16513 / 67108864) : ℚ) = -16513 / 67108864 by norm_num,
            rnd_dot_low, rnd_dot_low])
      rnd_dot_low
  have hs0 : similarity (1 / 64) 2 (1 / 32) = 1 := by
    unfold similarity
    rw [if_pos (by norm_num)]
    unfold F32.div F32.mul
    norm_num
    rw [rnd_thirty_second]
    norm_num
    exact F32.rnd_one
  have hs1 : similarity (1 / 64) (1 / 64) (-16513 / 67108864) = -16513 / 16384 := by
    unfold similarity
    rw [if_pos (by norm_num)]
    unfold F32.div F32.mul
    norm_num
    rw [rnd_small_sq]
    norm_num
    rw [show (-(16513 / 16384) : ℚ) = -16513 / 16384 by norm_num]
    exact rnd_score_low
  simp only [scan, List.length_cons, List.length_nil, List.range_succ, List.range_zero,
    List.nil_append, List.cons_append, List.map_cons, List.map_nil, hr, norm_padded_small,
    List.getD_cons_zero, List.getD_cons_succ, zero_add]
  rw [hd0, hd1, hs0, hs1]

theorem sort_two_scores :
    std_sort [((1 : ℚ), 0), (-16513 / 16384, 1)] = [((1 : ℚ), 0), (-16513 / 16384, 1)] := by
  have h : comp ((-16513 / 16384 : ℚ), 1) ((1 : ℚ), 0) = false := by
    unfold comp
    norm_num
  simp [std_sort, sort_insert, h]

theorem twiceAppended_len : twiceAppended.2.1.quantized_vectors.length = 2 := by
  rw [twiceAppended_eq]
  rfl

theorem twiceAppended_search_one :
    search twiceAppended.2.1 (padded (1 / 64)) 768 1 [9] [9]
      = (0, twiceAppended.2.1, [0], [1]) := by
  rw [search_eval_local twiceAppended.2.1 (padded (1 / 64)) 768 1 [9] [9] _
    (by rw [twiceAppended_eq]) (by norm_num)
    (by rw [twiceAppended_eq]; exact List.cons_ne_nil _ _) twiceAppended_scan,
    sort_two_scores, twiceAppended_len]
  simp [write_results, List.range_succ]

theorem twiceAppended_search_two :
    search twiceAppended.2.1 (padded (1 / 64)) 768 2 [9, 9] [9, 9]
      = (0, twiceAppended.2.1, [0, 1], [1, -16513 / 16384]) := by
  rw [search_eval_local twiceAppended.2.1 (padded (1 / 64)) 768 2 [9, 9] [9, 9] _
    (by rw [twiceAppended_eq]) (by norm_num)
    (by rw [twiceAppended_eq]; exact List.cons_ne_nil _ _) twiceAppended_scan,
    sort_two_scores, twiceAppended_len]
  simp [write_results, List.range_succ]

end SPFreshLocal

namespace SPFresh

/-- Reconstruction error of the codec for a value inside the clamping range. -/
theorem codec_error_le (L : ℕ) (hlo : 127 ≤ L) (hhi : L ≤ 255) (v : ℚ)
    (h1 : MIN_VAL ≤ v) (h2 : v ≤ MAX_VAL) :
    |dequantize L (quantize L v) - v| ≤ (MAX_VAL - MIN_VAL) / L + 1 / 262144 := by
  have hLq1 : (127 : ℚ) ≤ L := by exact_mod_cast hlo
  have hLpos : (0 : ℚ) < L := by linarith
  obtain ⟨hqL, hqx⟩ := quantize_spec L hlo hhi v h1 h2
  have hd := dequantize_spec L hlo hhi (quantize L v) hqL
  have hc0 : (0 : ℚ) < 4 / L := by positivity
  have hc : (4 : ℚ) / L ≤ 4 / 127 :=
    div_le_div_of_nonneg_left (by norm_num) (by norm_num) hLq1
  have hid : 4 * ((quantize L v : ℕ) : ℚ) / L - 2 - v =
      4 / L * (((quantize L v : ℕ) : ℚ) - (v + 2) / 4 * L) := by
    field_simp
    ring
  have hb : |4 * ((quantize L v : ℕ) : ℚ) / L - 2 - v| ≤ 4 / L * (1 + 1 / 16384) := by
    rw [hid, abs_mul, abs_of_pos hc0]
    exact mul_le_mul_of_nonneg_left hqx hc0.le
  have htri := abs_add (dequantize L (quantize L v) - (4 * ((quantize L v : ℕ) : ℚ) / L - 2))
    (4 * ((quantize L v : ℕ) : ℚ) / L - 2 - v)
  have hsplit : dequantize L (quantize L v) - v =
      (dequantize L (quantize L v) - (4 * ((quantize L v : ℕ) : ℚ) / L - 2)) +
        (4 * ((quantize L v : ℕ) : ℚ) / L - 2 - v) := by ring
  rw [← hsplit] at htri
  have h4 : (MAX_VAL - MIN_VAL) / (L : ℚ) = 4 / L := by
    unfold MAX_VAL MIN_VAL
    norm_num
  rw [h4]
  nlinarith

/-- Entry `j` of the dequantized form of the quantization of a buffer. -/
theorem roundtrip_getD (L : ℕ) (v : List ℚ) (dim j : ℕ) (hj : j < dim) :
    (dequantize_vector L (quantize_vector L (readBuf v dim))).getD j 0 =
      dequantize L (quantize L (v.getD j 0)) := by
  unfold dequantize_vector quantize_vector readBuf
  rw [List.getD_eq_getElem?_getD, List.getElem?_map, List.getElem?_map, List.getElem?_map,
    List.getElem?_range hj]
  rfl

end SPFresh

/-! ## Rounding error of the self-score -/

namespace SPFresh
namespace F32

/-- Relative rounding error of `rnd`, with the absolute term of the subnormal range. -/
theorem rnd_rel_err (x : ℚ) : |rnd x - x| ≤ |x| / 2 ^ 24 + 1 / 2 ^ 150 := by
  by_cases hx0 : x = 0
  · subst hx0
    rw [rnd_zero]
    norm_num
  · have h0 : 0 < |x| := abs_pos.mpr hx0
    have h1 := rnd_sub_le x
    have h3 : ulp x / 2 = 2 ^ (expo x - 24) := by
      unfold ulp
      rw [show expo x - 23 = (expo x - 24) + 1 by ring, zpow_add₀ (by norm_num)]
      simp
    rw [h3] at h1
    refine le_trans h1 ?_
    unfold expo
    rcases le_total (Int.log 2 |x|) (-126) with h | h
    · rw [max_eq_right h]
      have : (2 : ℚ) ^ ((-126 : ℤ) - 24) = 1 / 2 ^ 150 := by
        rw [show ((-126 : ℤ) - 24) = -(150 : ℕ) by norm_num, zpow_neg, zpow_natCast]
        norm_num
      rw [this]
      have : 0 ≤ |x| / 2 ^ 24 := by positivity
      linarith
    · rw [max_eq_left h]
      have hl : (2 : ℚ) ^ Int.log 2 |x| ≤ |x| := Int.zpow_log_le_self (by norm_num) h0
      have : (2 : ℚ) ^ (Int.log 2 |x| - 24) = 2 ^ Int.log 2 |x| / 2 ^ 24 := by
        rw [zpow_sub₀ (by norm_num)]
        norm_num
      rw [this]
      have h2 : (2 : ℚ) ^ Int.log 2 |x| / 2 ^ 24 ≤ |x| / 2 ^ 24 :=
        div_le_div_of_nonneg_right hl (by positivity)
      have : (0 : ℚ) ≤ 1 / 2 ^ 150 := by positivity
      linarith

theorem abs_sum_le_sum (l : List ℚ) : |l.sum| ≤ (l.map abs).sum := by
  induction l with
  | nil => simp
  | cons a l ih =>
    simp only [List.sum_cons, List.map_cons]
    exact le_trans (abs_add a l.sum) (by linarith)

/-- Float accumulation of the rounded terms `ps`, as in the loops of `calculate_norm` and
of the dot product. -/
theorem fsum_err (ps : List ℚ) (hlen : ps.length ≤ 2 ^ 22) :
    |ps.foldl (fun acc p => rnd (acc + rnd p)) 0 - ps.sum| ≤
      3 / 2 ^ 24 * ps.length * (ps.map abs).sum + 4 / 2 ^ 150 * ps.length := by
  induction ps using List.reverseRecOn with
  | nil => simp
  | append_singleton l a ih =>
    have hl : (l.length : ℚ) + 1 ≤ 2 ^ 22 := by
      have : l.length + 1 ≤ 2 ^ 22 := by simpa using hlen
      exact_mod_cast this
    have ih2 := ih (by
      have : l.length + 1 ≤ 2 ^ 22 := by simpa using hlen
      omega)
    rw [List.foldl_append, List.foldl_cons, List.foldl_nil, List.sum_append, List.map_append,
      List.sum_append, List.length_append]
    simp only [List.sum_cons, List.sum_nil, List.map_cons, List.map_nil, List.length_cons,
      List.length_nil, add_zero, zero_add, Nat.cast_add, Nat.cast_one]
    set T := l.foldl (fun acc p => rnd (acc + rnd p)) 0 with hT
    set A := (l.map abs).sum with hA
    set k : ℚ := (l.length : ℚ) with hk
    have hA0 : 0 ≤ A := List.sum_nonneg (by
      intro x hx
      obtain ⟨y, _, rfl⟩ := List.mem_map.mp hx
      exact abs_nonneg y)
    have hk0 : 0 ≤ k := Nat.cast_nonneg _
    have hsA : |l.sum| ≤ A := abs_sum_le_sum l
    have e1 := rnd_rel_err a
    have e2 := rnd_rel_err (T + rnd a)
    have ha0 := abs_nonneg a
    have hT1 : |T| ≤ A + (3 / 2 ^ 24 * k * A + 4 / 2 ^ 150 * k) := by
      have : |T| ≤ |T - l.sum| + |l.sum| := by
        have := abs_add (T - l.sum) l.sum
        simpa using this
      linarith
    have hra : |rnd a| ≤ |a| + (|a| / 2 ^ 24 + 1 / 2 ^ 150) := by
      have : |rnd a| ≤ |rnd a - a| + |a| := by
        have := abs_add (rnd a - a) a
        simpa using this
      linarith
    have hTa : |T + rnd a| ≤ |T| + |rnd a| := abs_add _ _
    have hkA : k * A ≤ 2 ^ 22 * A := by nlinarith
    have hka : k * |a| ≤ 2 ^ 22 * |a| := by nlinarith
    have hk1 : k ≤ 2 ^ 22 := by linarith
    have hkA0 : 0 ≤ k * A := mul_nonneg hk0 hA0
    have hka0 : 0 ≤ k * |a| := mul_nonneg hk0 ha0
    have key : |rnd (T + rnd a) - (l.sum + a)| ≤
        |rnd (T + rnd a) - (T + rnd a)| + |T - l.sum| + |rnd a - a| := by
      have h := abs_add (rnd (T + rnd a) - (T + rnd a)) ((T - l.sum) + (rnd a - a))
      have h2 := abs_add (T - l.sum) (rnd a - a)
      have e : rnd (T + rnd a) - (T + rnd a) + ((T - l.sum) + (rnd a - a)) =
          rnd (T + rnd a) - (l.sum + a) := by ring
      rw [e] at h
      linarith
    refine le_trans key ?_
    norm_num at e1 e2 hT1 hra ih2 hkA hka hk1 ⊢
    nlinarith

end F32
end SPFresh

namespace SPFresh
namespace F32

/-- The square of the rounded square root deviates from the argument by less than two
units in the last place. -/
theorem sqrt_sq_err (x : ℚ) (hx : 0 < x) :
    0 < sqrt x ∧ |sqrt x * sqrt x - x| ≤ x / 2 ^ 22 := by
  have hL1 : (2 : ℚ) ^ Int.log 2 x ≤ x := Int.zpow_log_le_self (by norm_num) hx
  have hL2 : x < (2 : ℚ) ^ (Int.log 2 x + 1) := Int.lt_zpow_succ_log_self (by norm_num) x
  set L := Int.log 2 x with hL
  set e : ℤ := L / 2 with he
  have hLe1 : 2 * e ≤ L := by omega
  have hLe2 : L + 1 ≤ 2 * e + 2 := by omega
  have hx1 : (2 : ℚ) ^ (2 * e) ≤ x :=
    le_trans (zpow_le_zpow_right₀ (by norm_num) hLe1) hL1
  have hx2 : x < (2 : ℚ) ^ (2 * e + 2) :=
    lt_of_lt_of_le hL2 (zpow_le_zpow_right₀ (by norm_num) hLe2)
  set u : ℚ := 2 ^ (e - 23) with hu
  have hupos : 0 < u := by positivity
  have huu : u * u = 2 ^ (2 * e) / 2 ^ 46 := by
    rw [hu, ← zpow_add₀ (by norm_num : (2 : ℚ) ≠ 0),
      show e - 23 + (e - 23) = 2 * e - 46 by ring, zpow_sub₀ (by norm_num)]
    norm_num
  have hp : (0 : ℚ) < 2 ^ (2 * e) := by positivity
  set y2 : ℚ := x / (u * u) with hy2
  have hxy : x = y2 * (u * u) := by
    rw [hy2]
    field_simp
  have hy1 : (2 : ℚ) ^ 46 ≤ y2 := by
    rw [hy2, huu, le_div_iff₀ (by positivity)]
    have : (2 : ℚ) ^ 46 * (2 ^ (2 * e) / 2 ^ 46) = 2 ^ (2 * e) := by field_simp
    rw [this]
    exact hx1
  have hy0 : 0 ≤ y2 := le_trans (by positivity) hy1
  set k : ℕ := Nat.sqrt ⌊y2⌋₊ with hk
  have hf1 : ((⌊y2⌋₊ : ℕ) : ℚ) ≤ y2 := Nat.floor_le hy0
  have hf2 : y2 < ((⌊y2⌋₊ : ℕ) : ℚ) + 1 := Nat.lt_floor_add_one y2
  have hk1 : ((k : ℚ)) * k ≤ y2 := by
    have : k * k ≤ ⌊y2⌋₊ := Nat.sqrt_le ⌊y2⌋₊
    have : ((k * k : ℕ) : ℚ) ≤ ((⌊y2⌋₊ : ℕ) : ℚ) := by exact_mod_cast this
    push_cast at this
    linarith
  have hk2 : y2 < ((k : ℚ) + 1) * (k + 1) := by
    have : ⌊y2⌋₊ < (k + 1) * (k + 1) := Nat.lt_succ_sqrt ⌊y2⌋₊
    have : ⌊y2⌋₊ + 1 ≤ (k + 1) * (k + 1) := this
    have : ((⌊y2⌋₊ + 1 : ℕ) : ℚ) ≤ (((k + 1) * (k + 1) : ℕ) : ℚ) := by exact_mod_cast this
    push_cast at this
    linarith
  have hk3 : (2 : ℚ) ^ 23 ≤ k := by
    have h46 : 2 ^ 46 ≤ ⌊y2⌋₊ := by
      apply Nat.le_floor
      push_cast
      exact hy1
    have : 2 ^ 23 ≤ k := by
      rw [hk, Nat.le_sqrt]
      calc 2 ^ 23 * 2 ^ 23 = 2 ^ 46 := by norm_num
        _ ≤ ⌊y2⌋₊ := h46
    exact_mod_cast this
  have hkq0 : (0 : ℚ) ≤ k := Nat.cast_nonneg k
  have hbound : (k : ℚ) + 1 ≤ y2 / 2 ^ 22 := by
    rw [le_div_iff₀ (by positivity)]
    nlinarith
  have main : ∀ m : ℕ, (m = k ∨ m = k + 1) →
      |(m : ℚ) * m - y2| ≤ (k : ℚ) + 1 → (0 < (m : ℚ) * u ∧
      |(m : ℚ) * u * ((m : ℚ) * u) - x| ≤ x / 2 ^ 22) := by
    intro m hm hmy
    have hm0 : (0 : ℚ) < m := by
      rcases hm with h | h <;> rw [h] <;> push_cast <;> linarith
    refine ⟨mul_pos hm0 hupos, ?_⟩
    have e1 : (m : ℚ) * u * ((m : ℚ) * u) - x = ((m : ℚ) * m - y2) * (u * u) := by
      rw [hxy]
      ring
    rw [e1, abs_mul, abs_of_pos (mul_pos hupos hupos)]
    have e2 : x / 2 ^ 22 = y2 / 2 ^ 22 * (u * u) := by
      rw [hxy]
      ring
    rw [e2]
    exact mul_le_mul_of_nonneg_right (le_trans hmy hbound) (mul_pos hupos hupos).le
  have hs : ∀ m : ℕ, (if y2 < ((k : ℚ) + 1 / 2) ^ 2 then k
      else if ((k : ℚ) + 1 / 2) ^ 2 < y2 then k + 1
      else if k % 2 = 0 then k else k + 1) = m → sqrt x = (m : ℚ) * u := by
    intro m hm
    unfold sqrt
    rw [if_neg (not_le.mpr hx)]
    simp only []
    rw [← hm]
  have emid : ((k : ℚ) + 1 / 2) ^ 2 = k * k + k + 1 / 4 := by ring
  have esq : ((k : ℚ) + 1) * (k + 1) = k * k + 2 * k + 1 := by ring
  rw [emid] at hs
  rw [esq] at hk2
  by_cases h1 : y2 < (k : ℚ) * k + k + 1 / 4
  · rw [hs k (if_pos h1)]
    refine main k (Or.inl rfl) ?_
    rw [abs_le]
    constructor <;> linarith
  · by_cases h2 : (k : ℚ) * k + k + 1 / 4 < y2
    · rw [hs (k + 1) (by rw [if_neg h1, if_pos h2])]
      refine main (k + 1) (Or.inr rfl) ?_
      push_cast
      rw [esq, abs_le]
      constructor <;> linarith
    · have hy : y2 = (k : ℚ) * k + k + 1 / 4 := le_antisymm (not_lt.mp h2) (not_lt.mp h1)
      by_cases h3 : k % 2 = 0
      · rw [hs k (by rw [if_neg h1, if_neg h2, if_pos h3])]
        refine main k (Or.inl rfl) ?_
        rw [abs_le]
        constructor <;> linarith
      · rw [hs (k + 1) (by rw [if_neg h1, if_neg h2, if_neg h3])]
        refine main (k + 1) (Or.inr rfl) ?_
        push_cast
        rw [esq, abs_le]
        constructor <;> linarith

end F32
end SPFresh

namespace SPFresh

theorem zip_map_self (f : ℚ → ℚ) (g : ℚ × ℚ → ℚ) (l : List ℚ) :
    (l.zip (l.map f)).map g = l.map (fun x => g (x, f x)) := by
  induction l with
  | nil => rfl
  | cons a l ih => simp [ih]

/-- Exact sums of the products of the entries of `v` with values within `ε` of them. -/
theorem sum_prod_near (f : ℚ → ℚ) (ε : ℚ) (v : List ℚ) (h : ∀ x ∈ v, |f x - x| ≤ ε) :
    |(v.map (fun x => x * f x)).sum - (v.map (fun x => x * x)).sum| ≤ ε * (v.map abs).sum ∧
    ((v.map (fun x => x * f x)).map abs).sum ≤
      (v.map (fun x => x * x)).sum + ε * (v.map abs).sum := by
  induction v with
  | nil => simp
  | cons a l ih =>
    obtain ⟨i1, i2⟩ := ih (fun x hx => h x (List.mem_cons_of_mem _ hx))
    have ha := h a (List.mem_cons_self _ _)
    have e1 : |a * f a - a * a| ≤ ε * |a| := by
      rw [show a * f a - a * a = a * (f a - a) by ring, abs_mul, mul_comm]
      exact mul_le_mul_of_nonneg_right ha (abs_nonneg a)
    have e2 : |a * f a| ≤ a * a + ε * |a| := by
      have := abs_add (a * f a - a * a) (a * a)
      rw [show a * f a - a * a + a * a = a * f a by ring, abs_of_nonneg (mul_self_nonneg a)] at this
      linarith
    simp only [List.map_cons, List.sum_cons]
    constructor
    · have := abs_add (a * f a - a * a)
        ((l.map (fun x => x * f x)).sum - (l.map (fun x => x * x)).sum)
      rw [show a * f a - a * a + ((l.map (fun x => x * f x)).sum - (l.map (fun x => x * x)).sum)
        = a * f a + (l.map (fun x => x * f x)).sum - (a * a + (l.map (fun x => x * x)).sum)
        by ring] at this
      linarith
    · linarith

theorem sum_sq_abs (v : List ℚ) :
    ((v.map (fun x => x * x)).map abs).sum = (v.map (fun x => x * x)).sum := by
  induction v with
  | nil => rfl
  | cons a l ih =>
    simp only [List.map_cons, List.sum_cons, ih, abs_of_nonneg (mul_self_nonneg a)]

/-- The arithmetic of the self-score: from the error bounds of the two accumulations, of
the square root and of the last two roundings to the distance of the score from 1. -/
theorem score_arith (Q A1 ε S D P AP n N s t h : ℚ)
    (hQ : 1 / 2 ^ 64 ≤ Q) (hA1 : 0 ≤ A1) (hε : 0 ≤ ε)
    (ht0 : 0 ≤ t) (ht : t ≤ 3 / 4096) (hh : h ≤ 1 / 2 ^ 100)
    (hS : |S - Q| ≤ t * Q + h) (hD : |D - P| ≤ t * AP + h)
    (hP : |P - Q| ≤ ε * A1) (hAP : AP ≤ Q + ε * A1)
    (hn : |n * n - S| ≤ S / 2 ^ 22)
    (hN : |N - n * n| ≤ |n * n| / 2 ^ 24 + 1 / 2 ^ 150)
    (hs : |s - D / N| ≤ |D / N| / 2 ^ 24 + 1 / 2 ^ 150) :
    |s - 1| ≤ 2 * (ε * A1 / Q) + 1 / 128 := by
  have hQ0 : 0 < Q := lt_of_lt_of_le (by positivity) hQ
  have hεA : 0 ≤ ε * A1 := mul_nonneg hε hA1
  have hh2 : h ≤ Q / 2 ^ 36 := by
    have : (1 : ℚ) / 2 ^ 100 ≤ Q / 2 ^ 36 := by
      rw [le_div_iff₀ (by positivity)]
      have : (1 : ℚ) / 2 ^ 100 * 2 ^ 36 = 1 / 2 ^ 64 := by norm_num
      linarith
    linarith
  have hη : (1 : ℚ) / 2 ^ 150 ≤ Q / 2 ^ 36 := by
    rw [le_div_iff₀ (by positivity)]
    have : (1 : ℚ) / 2 ^ 150 * 2 ^ 36 ≤ 1 / 2 ^ 64 := by norm_num
    linarith
  have htQ : t * Q ≤ 3 / 4096 * Q := mul_le_mul_of_nonneg_right ht hQ0.le
  have htQ0 : 0 ≤ t * Q := mul_nonneg ht0 hQ0.le
  have htE : t * (ε * A1) ≤ 3 / 4096 * (ε * A1) := mul_le_mul_of_nonneg_right ht hεA
  have htE0 : 0 ≤ t * (ε * A1) := mul_nonneg ht0 hεA
  rw [abs_le] at hS hP hn
  have hS1 : (1023 / 1024) * Q ≤ S := by
    norm_num at hh2 ⊢
    linarith
  have hS2 : S ≤ (1025 / 1024) * Q := by
    norm_num at hh2 ⊢
    linarith
  have hSpos : 0 < S := by linarith
  have hnn1 : (511 / 512) * Q ≤ n * n := by
    norm_num at hn ⊢
    linarith
  have hnn2 : n * n ≤ (513 / 512) * Q := by
    norm_num at hn ⊢
    linarith
  rw [abs_of_nonneg (mul_self_nonneg n), abs_le] at hN
  have hN1 : (255 / 256) * Q ≤ N := by
    norm_num at hN hη ⊢
    linarith
  have hN2 : N ≤ (257 / 256) * Q := by
    norm_num at hN hη ⊢
    linarith
  have hNpos : 0 < N := by linarith
  have htAP : t * AP ≤ 3 / 4096 * (Q + ε * A1) := by
    have h1 : t * AP ≤ t * (Q + ε * A1) := mul_le_mul_of_nonneg_left hAP ht0
    have h2 : t * (Q + ε * A1) = t * Q + t * (ε * A1) := by ring
    linarith
  rw [abs_le] at hD
  have hDN : |D - N| ≤ (1025 / 1024) * (ε * A1) + (5 / 1024) * Q := by
    rw [abs_le]
    norm_num at hh2 ⊢
    constructor <;> linarith
  set E := ε * A1 / Q with hE
  have hEQ : E * Q = ε * A1 := by
    rw [hE]
    field_simp
  have hE0 : 0 ≤ E := div_nonneg hεA hQ0.le
  set z := D / N with hz
  have hz1 : |z - 1| * N = |D - N| := by
    have : z - 1 = (D - N) / N := by
      rw [hz]
      field_simp
    rw [this, abs_div, abs_of_pos hNpos]
    field_simp
  have hEN : E * ((255 / 256) * Q) ≤ E * N := mul_le_mul_of_nonneg_left hN1 hE0
  have hzb : |z - 1| ≤ 11 / 10 * E + 1 / 190 := by
    have : |z - 1| * N ≤ (11 / 10 * E + 1 / 190) * N := by
      rw [hz1]
      have e : (11 / 10 * E + 1 / 190) * N = 11 / 10 * (E * N) + 1 / 190 * N := by ring
      rw [e]
      have e2 : E * ((255 / 256) * Q) = 255 / 256 * (E * Q) := by ring
      rw [e2, hEQ] at hEN
      linarith
    exact le_of_mul_le_mul_right this hNpos
  have hzabs : |z| ≤ 1 + |z - 1| := by
    have := abs_add (z - 1) 1
    rw [show z - 1 + 1 = z by ring, abs_one] at this
    linarith
  have hfin : |s - 1| ≤ |s - z| + |z - 1| := by
    have := abs_add (s - z) (z - 1)
    rw [show s - z + (z - 1) = s - 1 by ring] at this
    exact this
  norm_num at hs ⊢
  linarith

end SPFresh

namespace SPFresh

/-- The score of a vector against the dequantized form of its own quantization, with its
own norm as the stored norm: within `2 * ε * Σ|v[j]| / Σ v[j]^2 + 1/128` of 1, where `ε`
is the reconstruction error of the codec. -/
theorem self_score_bound (L : ℕ) (hlo : 127 ≤ L) (hhi : L ≤ 255) (v : List ℚ)
    (hlen : v.length ≤ 4096) (hv : ∀ x ∈ v, MIN_VAL ≤ x ∧ x ≤ MAX_VAL)
    (hQ : 1 / 2 ^ 64 ≤ (v.map (fun x => x * x)).sum) :
    |similarity (calculate_norm v) (calculate_norm v)
        ((v.zip (dequantize_vector L (quantize_vector L v))).foldl
          (fun dot p => F32.add dot (F32.mul p.1 p.2)) 0) - 1| ≤
      2 * (((MAX_VAL - MIN_VAL) / L + 1 / 262144) * (v.map abs).sum /
        (v.map (fun x => x * x)).sum) + 1 / 128 := by
  set f : ℚ → ℚ := fun x => dequantize L (quantize L x) with hf
  have hd : dequantize_vector L (quantize_vector L v) = v.map f := by
    unfold dequantize_vector quantize_vector
    rw [List.map_map]
    rfl
  have hfold1 : v.foldl (fun sum_sq val => F32.add sum_sq (F32.mul val val)) 0 =
      (v.map (fun x => x * x)).foldl (fun acc p => F32.rnd (acc + F32.rnd p)) 0 := by
    rw [List.foldl_map]
    rfl
  have hfold2 : (v.zip (v.map f)).foldl (fun dot p => F32.add dot (F32.mul p.1 p.2)) 0 =
      (v.map (fun x => x * f x)).foldl (fun acc p => F32.rnd (acc + F32.rnd p)) 0 := by
    rw [← zip_map_self f (fun p => p.1 * p.2) v, List.foldl_map]
    rfl
  have hlen2 : v.length ≤ 2 ^ 22 := le_trans hlen (by norm_num)
  have hS := F32.fsum_err (v.map (fun x => x * x)) (by rw [List.length_map]; exact hlen2)
  have hD := F32.fsum_err (v.map (fun x => x * f x)) (by rw [List.length_map]; exact hlen2)
  rw [List.length_map] at hS hD
  rw [sum_sq_abs] at hS
  set ε : ℚ := (MAX_VAL - MIN_VAL) / L + 1 / 262144 with hε
  have hε0 : 0 ≤ ε := by
    rw [hε]
    unfold MAX_VAL MIN_VAL
    positivity
  obtain ⟨hP, hAP⟩ := sum_prod_near f ε v (fun x hx =>
    codec_error_le L hlo hhi x (hv x hx).1 (hv x hx).2)
  have hA1 : 0 ≤ (v.map abs).sum := List.sum_nonneg (by
    intro x hx
    obtain ⟨y, _, rfl⟩ := List.mem_map.mp hx
    exact abs_nonneg y)
  have hk : (v.length : ℚ) ≤ 4096 := by exact_mod_cast hlen
  have hk0 : (0 : ℚ) ≤ v.length := Nat.cast_nonneg _
  set S := (v.map (fun x => x * x)).foldl (fun acc p => F32.rnd (acc + F32.rnd p)) 0 with hSdef
  set D := (v.map (fun x => x * f x)).foldl (fun acc p => F32.rnd (acc + F32.rnd p)) 0
    with hDdef
  have hn : calculate_norm v = F32.sqrt S := by
    unfold calculate_norm
    rw [hfold1]
  rw [hd, hfold2, hn]
  have hQ0 : 0 < (v.map (fun x => x * x)).sum := lt_of_lt_of_le (by positivity) hQ
  have hSpos : 0 < S := by
    have h1 := (abs_le.mp hS).1
    have h2 : 3 / 2 ^ 24 * (v.length : ℚ) * (v.map (fun x => x * x)).sum ≤
        3 / 4096 * (v.map (fun x => x * x)).sum :=
      mul_le_mul_of_nonneg_right (by norm_num; linarith) hQ0.le
    have h3 : 4 / 2 ^ 150 * (v.length : ℚ) ≤ 1 / 2 ^ 100 := by norm_num; linarith
    have h4 : (1 : ℚ) / 2 ^ 100 ≤ 1 / 2 ^ 64 / 2 := by norm_num
    linarith
  obtain ⟨hnpos, hnerr⟩ := F32.sqrt_sq_err S hSpos
  have key := score_arith (v.map (fun x => x * x)).sum (v.map abs).sum ε S D
    (v.map (fun x => x * f x)).sum ((v.map (fun x => x * f x)).map abs).sum (F32.sqrt S)
    (F32.rnd (F32.sqrt S * F32.sqrt S)) (F32.rnd (D / F32.rnd (F32.sqrt S * F32.sqrt S)))
    (3 / 2 ^ 24 * v.length) (4 / 2 ^ 150 * v.length) hQ hA1 hε0 (by positivity)
    (by norm_num; linarith) (by norm_num; linarith) hS hD hP hAP hnerr
    (F32.rnd_rel_err _) (F32.rnd_rel_err _)
  unfold similarity
  rw [if_pos ⟨hnpos, hnpos⟩]
  exact key

end SPFresh

/-! ## C11: searching for a vector right after appending it -/

/-- C11, counterexample.  The claim has a search for `v`, made right after appending `v`,
return the id of `v` with a score within the quantization error of 1.  On the split-file
index constructed on a fresh path, append the 768-element vector `[2, 0, …, 0]` (id 0)
and then `v = [1/64, 0, …, 0]` (id 1): both appends return 0, a search for `v` with
`top_k = 1` returns the pair `(0, 1.0)` only, and a search with `top_k = 2` returns
`(0, 1.0)` and `(1, -16513/16384)`.  The score of `v` itself is about `-1.008`, farther
from 1 than the quantization step `(MAX_VAL - MIN_VAL) / 127`. -/
theorem self_similarity_far_from_one :
    (SPFreshLocal.append SPFresh.zeroRepr SPFresh.emptyFs SPFreshLocal.freshIndex
      (SPFresh.padded 2) 768).1 = 0 ∧
    SPFreshLocal.twiceAppended.1 = 0 ∧
    SPFreshLocal.twiceAppended.2.1.size = 2 ∧
    SPFreshLocal.search SPFreshLocal.twiceAppended.2.1 (SPFresh.padded (1 / 64)) 768 1 [9] [9]
      = (0, SPFreshLocal.twiceAppended.2.1, [0], [1]) ∧
    SPFreshLocal.search SPFreshLocal.twiceAppended.2.1 (SPFresh.padded (1 / 64)) 768 2
        [9, 9] [9, 9]
      = (0, SPFreshLocal.twiceAppended.2.1, [0, 1], [1, -16513 / 16384]) ∧
    (SPFresh.MAX_VAL - SPFresh.MIN_VAL) / 127 < |(-16513 / 16384 : ℚ) - 1| := by
  refine ⟨?_, ?_, SPFreshLocal.twiceAppended_len, SPFreshLocal.twiceAppended_search_one,
    SPFreshLocal.twiceAppended_search_two,
    by norm_num [SPFresh.MAX_VAL, SPFresh.MIN_VAL, abs_of_neg]⟩
  · exact (SPFreshLocal.append_ok_local SPFresh.zeroRepr SPFresh.emptyFs SPFreshLocal.freshIndex
      (SPFresh.padded 2) 768 (by rw [SPFreshLocal.freshIndex_eq_local])).1
  · rw [SPFreshLocal.twiceAppended_eq]

/-- C11, amended.  Split-file layout: after appending a vector `v` of the dimension of the
index to a store of `n` vectors, a search for `v` with `top_k ≥ n + 1` into buffers of at
least `n + 1` slots succeeds and returns the id `n` of `v` in one of the first `n + 1`
slots, with the score `dot / (norm(v) * norms[n])` in float arithmetic (`0` when a norm
is not positive), where `norms[n]` is `norm(v)` when the invariant of the data model
holds and `dot` is the float sum of `v[j] * d[j]` with `d` the dequantized form of the
quantization of `v`.  Every entry `d[j]` lies within the quantization error of the codec,
`ε = (MAX_VAL - MIN_VAL) / LEVELS + 2^(-18)`, of `v[j]` when `v[j]` is in
`[MIN_VAL, MAX_VAL]`.  When all entries are in that range, the dimension is at most 4096
and the sum of the squares of the entries is at least `2^(-64)`, the score deviates from 1
by no more than `2 * ε * Σ|v[j]| / Σ v[j]^2 + 1/128`: the quantization error counts
relative to the size of `v`.  The id of `v` need not come first. -/
theorem search_after_append (fr : SPFresh.FloatRepr)
    (fsB : SPFresh.FileSys) (sB : SPFreshLocal.SPFreshIndex) (vB : List ℚ) (dimB kB : ℕ)
    (riB : List ℕ) (rsB : List ℚ)
    (hB : dimB = sB.dimension) (hkB : sB.size + 1 ≤ kB)
    (hriB : sB.size + 1 ≤ riB.length) (hrsB : sB.size + 1 ≤ rsB.length) :
    (SPFreshLocal.append fr fsB sB vB dimB).1 = 0 ∧
    (SPFreshLocal.search (SPFreshLocal.append fr fsB sB vB dimB).2.1 vB dimB kB riB rsB).1 = 0 ∧
    (∃ i, i < sB.size + 1 ∧
      (SPFreshLocal.search (SPFreshLocal.append fr fsB sB vB dimB).2.1 vB dimB kB
        riB rsB).2.2.1[i]? = some sB.size ∧
      (SPFreshLocal.search (SPFreshLocal.append fr fsB sB vB dimB).2.1 vB dimB kB
        riB rsB).2.2.2[i]?
        = some (SPFresh.similarity (SPFresh.calculate_norm (SPFresh.readBuf vB dimB))
            ((SPFreshLocal.append fr fsB sB vB dimB).2.1.norms.getD sB.size 0)
            (((SPFresh.readBuf vB dimB).zip
              (SPFresh.dequantize_vector SPFreshLocal.QUANTIZATION_LEVELS
                (SPFresh.quantize_vector SPFreshLocal.QUANTIZATION_LEVELS
                  (SPFresh.readBuf vB dimB)))).foldl
              (fun dot p => SPFresh.F32.add dot (SPFresh.F32.mul p.1 p.2)) 0))) ∧
    (sB.norms.length = sB.size →
      (SPFreshLocal.append fr fsB sB vB dimB).2.1.norms.getD sB.size 0
        = SPFresh.calculate_norm (SPFresh.readBuf vB dimB)) ∧
    (∀ j, j < dimB → SPFresh.MIN_VAL ≤ vB.getD j 0 → vB.getD j 0 ≤ SPFresh.MAX_VAL →
      |(SPFresh.dequantize_vector SPFreshLocal.QUANTIZATION_LEVELS
          (SPFresh.quantize_vector SPFreshLocal.QUANTIZATION_LEVELS
            (SPFresh.readBuf vB dimB))).getD j 0 - vB.getD j 0|
        ≤ (SPFresh.MAX_VAL - SPFresh.MIN_VAL) / SPFreshLocal.QUANTIZATION_LEVELS
          + 1 / 262144) ∧
    (sB.norms.length = sB.size → dimB ≤ 4096 →
      (∀ j, j < dimB → SPFresh.MIN_VAL ≤ vB.getD j 0 ∧ vB.getD j 0 ≤ SPFresh.MAX_VAL) →
      1 / 2 ^ 64 ≤ ((SPFresh.readBuf vB dimB).map (fun x => x * x)).sum →
      |SPFresh.similarity (SPFresh.calculate_norm (SPFresh.readBuf vB dimB))
          ((SPFreshLocal.append fr fsB sB vB dimB).2.1.norms.getD sB.size 0)
          (((SPFresh.readBuf vB dimB).zip
            (SPFresh.dequantize_vector SPFreshLocal.QUANTIZATION_LEVELS
              (SPFresh.quantize_vector SPFreshLocal.QUANTIZATION_LEVELS
                (SPFresh.readBuf vB dimB)))).foldl
            (fun dot p => SPFresh.F32.add dot (SPFresh.F32.mul p.1 p.2)) 0) - 1|
        ≤ 2 * (((SPFresh.MAX_VAL - SPFresh.MIN_VAL) / SPFreshLocal.QUANTIZATION_LEVELS
            + 1 / 262144) * ((SPFresh.readBuf vB dimB).map abs).sum /
            ((SPFresh.readBuf vB dimB).map (fun x => x * x)).sum) + 1 / 128) := by
  obtain ⟨h1, h2, h3, h4, _⟩ := SPFreshLocal.append_ok_local fr fsB sB vB dimB hB
  have hlen : (SPFreshLocal.append fr fsB sB vB dimB).2.1.quantized_vectors.length
      = sB.size + 1 := by
    rw [h2]
    simp [SPFreshLocal.SPFreshIndex.size]
  have hq : (SPFreshLocal.append fr fsB sB vB dimB).2.1.quantized_vectors.getD sB.size [] =
      SPFresh.quantize_vector SPFreshLocal.QUANTIZATION_LEVELS (SPFresh.readBuf vB dimB) := by
    rw [h2]
    simp [SPFreshLocal.SPFreshIndex.size, List.getD_eq_getElem?_getD]
  obtain ⟨f1, i, f2, f3, f4⟩ := SPFresh.search_core_finds SPFreshLocal.QUANTIZATION_LEVELS
    (SPFreshLocal.append fr fsB sB vB dimB).2.1.dimension
    (SPFreshLocal.append fr fsB sB vB dimB).2.1.quantized_vectors
    (SPFreshLocal.append fr fsB sB vB dimB).2.1.norms vB dimB kB riB rsB
    (by rw [h4]; exact hB) (by rw [hlen]; exact hkB) (by rw [hlen]; exact hriB)
    (by rw [hlen]; exact hrsB) sB.size (by rw [hlen]; omega)
  rw [hq, SPFresh.dot_product_eq_zip _ _ _ _
    (by rw [SPFresh.quantize_vector_length, SPFresh.readBuf_length])] at f4
  rw [hlen] at f2
  have hnorm : sB.norms.length = sB.size →
      (SPFreshLocal.append fr fsB sB vB dimB).2.1.norms.getD sB.size 0
        = SPFresh.calculate_norm (SPFresh.readBuf vB dimB) := by
    intro hn
    rw [h3, ← hn]
    simp [List.getD_eq_getElem?_getD]
  refine ⟨h1, f1, ⟨i, f2, f3, f4⟩, hnorm, ?_, ?_⟩
  · intro j hj hlo hhi
    rw [SPFresh.roundtrip_getD _ _ _ _ hj]
    exact SPFresh.codec_error_le 127 (by decide) (by decide) _ hlo hhi
  · intro hn hdim hrange hQ
    rw [hnorm hn]
    refine SPFresh.self_score_bound 127 (by decide) (by decide) (SPFresh.readBuf vB dimB)
      (by rw [SPFresh.readBuf_length]; exact hdim) ?_ hQ
    intro x hx
    unfold SPFresh.readBuf at hx
    obtain ⟨j, hj, rfl⟩ := List.mem_map.mp hx
    exact hrange j (List.mem_range.mp hj)

/-- C11, witness: the vector `[1, 1]` appended to an empty index of dimension 2 and
searched with `top_k = 1`; its entries are in range and the sum of their squares is 2, so
the bound on the score applies. -/
theorem search_after_append_witness :
    (SPFreshLocal.append SPFresh.zeroRepr SPFresh.emptyFs
        (SPFreshLocal.SPFreshIndex.mk "a" [] [] 2 [] []) [1, 1] 2).1 = 0 ∧
    (SPFreshLocal.search (SPFreshLocal.append SPFresh.zeroRepr SPFresh.emptyFs
        (SPFreshLocal.SPFreshIndex.mk "a" [] [] 2 [] []) [1, 1] 2).2.1 [1, 1] 2 1 [7] [9]).1
      = 0 ∧
    |SPFresh.similarity (SPFresh.calculate_norm (SPFresh.readBuf [1, 1] 2))
        ((SPFreshLocal.append SPFresh.zeroRepr SPFresh.emptyFs
          (SPFreshLocal.SPFreshIndex.mk "a" [] [] 2 [] []) [1, 1] 2).2.1.norms.getD
            (SPFreshLocal.SPFreshIndex.mk "a" [] [] 2 [] []).size 0)
        (((SPFresh.readBuf [1, 1] 2).zip
          (SPFresh.dequantize_vector SPFreshLocal.QUANTIZATION_LEVELS
            (SPFresh.quantize_vector SPFreshLocal.QUANTIZATION_LEVELS
              (SPFresh.readBuf [1, 1] 2)))).foldl
          (fun dot p => SPFresh.F32.add dot (SPFresh.F32.mul p.1 p.2)) 0) - 1|
      ≤ 2 * (((SPFresh.MAX_VAL - SPFresh.MIN_VAL) / SPFreshLocal.QUANTIZATION_LEVELS
          + 1 / 262144) * ((SPFresh.readBuf [1, 1] 2).map abs).sum /
          ((SPFresh.readBuf [1, 1] 2).map (fun x => x * x)).sum) + 1 / 128 :=
  have h := search_after_append SPFresh.zeroRepr SPFresh.emptyFs
    (SPFreshLocal.SPFreshIndex.mk "a" [] [] 2 [] []) [1, 1] 2 1 [7] [9] rfl (by decide)
    (by decide) (by decide)
  ⟨h.1, h.2.1, h.2.2.2.2.2 rfl (by decide)
    (by
      intro j hj
      have hj2 : j = 0 ∨ j = 1 := by omega
      rcases hj2 with rfl | rfl <;> norm_num [SPFresh.MIN_VAL, SPFresh.MAX_VAL])
    (by norm_num [SPFresh.readBuf, List.range_succ])⟩

namespace SPFresh

/-- The result of `failedAppend`: no status, the vector kept in memory, no file written. -/
theorem failedAppend_eq :
    failedAppend = (none, SPFreshIndex.mk "idx" [255 :: List.replicate 767 (quantize 255 0)] [2] 768,
      readOnlyFs) := by
  have hc : SPFreshIndex.create zeroRepr ⟨0, 0, 0⟩ readOnlyFs "idx" =
      SPFreshIndex.mk "idx" [] [] 768 := create_fresh _ _ _ _ rfl
  unfold failedAppend
  rw [hc]
  obtain ⟨h1, _, _, _, _, h3⟩ := append_fields zeroRepr readOnlyFs
    (SPFreshIndex.mk "idx" [] [] 768) (padded 2) 768 rfl
  have h2 := append_eq zeroRepr readOnlyFs (SPFreshIndex.mk "idx" [] [] 768) (padded 2) 768 rfl
  have hr : readBuf (padded 2) 768 = padded 2 := readBuf_padded 2 767
  rw [hr, norm_padded_two] at h2
  unfold padded QUANTIZATION_LEVELS at h2
  rw [quantize_vector_padded, quantize_255_two] at h2
  exact Prod.ext h1 (Prod.ext h2 h3)

end SPFresh

/-! ## C12: the four-dimensional scenario -/

/-- C12.  The code at the failing input.  The scenario needs `LEVELS = 255`, the
single-file source, and an empty index of dimension 4, which the constructor yields on a
snapshot that holds the dimension 4 and no vector.  `append([1, 0, 0, 0], 4)` stores the
bytes `[191, 127, 127, 127]` and the norm 1 at position 0 and then does not return: it
blocks in `save_index`, before the snapshot is opened, so the caller gets no id and
`spfresh_index_append` does not return either.  On the store left behind `search` would
compute the single pair `(0, 65279/65536)`, a score between `0.99` and `1`. -/
theorem unit_vector_scenario :
    SPFresh.dim4Index = SPFresh.SPFreshIndex.mk "idx" [] [] 4 ∧
    (SPFresh.append SPFresh.zeroRepr SPFresh.dim4Fs SPFresh.dim4Index [1, 0, 0, 0] 4).1 = none ∧
    (SPFresh.append SPFresh.zeroRepr SPFresh.dim4Fs SPFresh.dim4Index [1, 0, 0, 0] 4).2.1
      = SPFresh.SPFreshIndex.mk "idx" [[191, 127, 127, 127]] [1] 4 ∧
    (SPFresh.append SPFresh.zeroRepr SPFresh.dim4Fs SPFresh.dim4Index [1, 0, 0, 0] 4).2.2
      = SPFresh.dim4Fs ∧
    (SPFresh.spfresh_index_append SPFresh.zeroRepr 1 (some [1, 0, 0, 0]) 4
      ⟨fun h => if h = 1 then some SPFresh.dim4Index else none, SPFresh.dim4Fs⟩).1 = none ∧
    SPFresh.search (SPFresh.SPFreshIndex.mk "idx" [[191, 127, 127, 127]] [1] 4)
        [1, 0, 0, 0] 4 1 [7] [9]
      = (0, SPFresh.SPFreshIndex.mk "idx" [[191, 127, 127, 127]] [1] 4, [0], [65279 / 65536]) ∧
    (99 / 100 : ℚ) ≤ 65279 / 65536 ∧ (65279 / 65536 : ℚ) ≤ 1 := by
  have hf := SPFresh.append_fields SPFresh.zeroRepr SPFresh.dim4Fs
    (SPFresh.SPFreshIndex.mk "idx" [] [] 4) [1, 0, 0, 0] 4 rfl
  have hst : (SPFresh.append SPFresh.zeroRepr SPFresh.dim4Fs
      (SPFresh.SPFreshIndex.mk "idx" [] [] 4) [1, 0, 0, 0] 4).2.1
      = SPFresh.SPFreshIndex.mk "idx" [[191, 127, 127, 127]] [1] 4 := by
    rw [SPFresh.append_eq _ _ _ _ _ rfl, SPFresh.unit4_readBuf, SPFresh.unit4_norm]
    unfold SPFresh.QUANTIZATION_LEVELS
    rw [SPFresh.unit4_quantized]
    rfl
  have hsc : SPFresh.scan SPFresh.QUANTIZATION_LEVELS
      (SPFresh.SPFreshIndex.mk "idx" [[191, 127, 127, 127]] [1] 4).quantized_vectors
      (SPFresh.SPFreshIndex.mk "idx" [[191, 127, 127, 127]] [1] 4).norms [1, 0, 0, 0] 4
      = [(65279 / 65536, 0)] := by
    simp only [SPFresh.scan, List.length_cons, List.length_nil, List.range_succ,
      List.range_zero, List.nil_append, List.map_cons, List.map_nil, zero_add,
      SPFresh.unit4_readBuf, SPFresh.unit4_norm, List.getD_cons_zero]
    unfold SPFresh.QUANTIZATION_LEVELS
    rw [SPFresh.unit4_dot, SPFresh.unit4_similarity]
  rw [SPFresh.dim4Index_eq]
  refine ⟨rfl, hf.1, hst, hf.2.2.2.2.2, ?_, ?_, by norm_num, by norm_num⟩
  · simp [SPFresh.spfresh_index_append, hf.1]
  · rw [SPFresh.search_eval _ [1, 0, 0, 0] 4 1 [7] [9] _ rfl (by norm_num)
      (List.cons_ne_nil _ _) hsc]
    simp [SPFresh.write_results, SPFresh.std_sort, SPFresh.sort_insert, List.range_succ]

/-! ## C21: an append whose snapshot write fails -/

/-- C21.  The code at the failing input.  The single-file index constructed on a path
whose snapshot file cannot be opened for writing is empty; `append` of the 768-element
vector `[2, 0, …, 0]` pushes the quantized vector and the norm 2, so that the store holds
one vector, and then does not return: it blocks in `save_index`, before the file is
opened, and no file is changed.  In general no append returns `-2` or `0`, and an append
with `dim` equal to the dimension of the index returns nothing, with the store one vector
longer and the files as they were. -/
theorem failed_append_changes_store :
    (SPFresh.SPFreshIndex.create SPFresh.zeroRepr ⟨0, 0, 0⟩ SPFresh.readOnlyFs "idx").size = 0 ∧
    SPFresh.failedAppend.1 = none ∧
    SPFresh.failedAppend.2.1.size = 1 ∧
    SPFresh.failedAppend.2.1.norms = [2] ∧
    SPFresh.failedAppend.2.2 = SPFresh.readOnlyFs ∧
    (∀ (fr : SPFresh.FloatRepr) (fs : SPFresh.FileSys) (s : SPFresh.SPFreshIndex)
        (vector : List ℚ) (dim : ℕ),
      (SPFresh.append fr fs s vector dim).1 ≠ some (-2) ∧
      (SPFresh.append fr fs s vector dim).1 ≠ some 0 ∧
      (SPFresh.append fr fs s vector s.dimension).1 = none ∧
      (SPFresh.append fr fs s vector s.dimension).2.1.size = s.size + 1 ∧
      (SPFresh.append fr fs s vector s.dimension).2.2 = fs) := by
  refine ⟨rfl, ?_, ?_, ?_, ?_, ?_⟩
  · rw [SPFresh.failedAppend_eq]
  · rw [SPFresh.failedAppend_eq]
    rfl
  · rw [SPFresh.failedAppend_eq]
  · rw [SPFresh.failedAppend_eq]
  · intro fr fs s vector dim
    have hs := SPFresh.append_status fr fs s vector dim
    obtain ⟨h1, h2, _, _, _, h6⟩ := SPFresh.append_fields fr fs s vector s.dimension rfl
    refine ⟨?_, ?_, h1, ?_, h6⟩
    · rw [hs]
      split_ifs <;> simp
    · rw [hs]
      split_ifs <;> simp
    · simp [SPFresh.SPFreshIndex.size, h2]

namespace SPFresh

theorem resize_throws_ample (size n : ℕ) (h : n ≤ PTRDIFF_MAX / size) :
    resize_throws ampleHeap size n = false := by
  unfold resize_throws ampleHeap
  simp only [decide_eq_false_iff_not, not_and, not_or, not_lt]
  intro _
  exact ⟨h, by simp⟩

end SPFresh

/-! ## C17: repair of the metadata file on load -/

/-- C17.  The code at the failing inputs, split-file layout, a vectors file with one
vector of 768 zero bytes.  Without a metadata file `load_index` recomputes the norm in
memory and then does not return: it blocks in `save_index`, no metadata file is written,
and `spfresh_index_create` does not return.  With a metadata file of two floats
`-1.0f`, one more than the vector count, `load_index` returns `true` with the cached norm
`-1.0f`, which is not the norm of the dequantized vector (no norm is negative), and the
metadata file keeps its eight bytes. -/
theorem metadata_repair :
    (SPFreshLocal.load_index SPFresh.unitRepr
      (SPFresh.emptyFs.write "idx.vectors" (List.replicate 768 0))
      (SPFreshLocal.SPFreshIndex.mk "idx" [] [] 768 [] [])).1 = none ∧
    (SPFreshLocal.load_index SPFresh.unitRepr
      (SPFresh.emptyFs.write "idx.vectors" (List.replicate 768 0))
      (SPFreshLocal.SPFreshIndex.mk "idx" [] [] 768 [] [])).2.1 =
      SPFreshLocal.SPFreshIndex.mk "idx" [List.replicate 768 0]
        [SPFresh.calculate_norm (SPFresh.dequantize_vector SPFreshLocal.QUANTIZATION_LEVELS
          (List.replicate 768 0))] 768 [] [] ∧
    (SPFreshLocal.load_index SPFresh.unitRepr
      (SPFresh.emptyFs.write "idx.vectors" (List.replicate 768 0))
      (SPFreshLocal.SPFreshIndex.mk "idx" [] [] 768 [] [])).2.2.content "idx.metadata" = none ∧
    SPFreshLocal.spfresh_index_create SPFresh.unitRepr SPFresh.ampleHeap 1 (some "idx")
      ⟨fun _ => none, SPFresh.emptyFs.write "idx.vectors" (List.replicate 768 0)⟩ = none ∧
    (SPFreshLocal.load_index SPFresh.unitRepr
      ((SPFresh.emptyFs.write "idx.vectors" (List.replicate 768 0)).write "idx.metadata"
        [0, 0, 128, 191, 0, 0, 128, 191])
      (SPFreshLocal.SPFreshIndex.mk "idx" [] [] 768 [] [])).1 = some true ∧
    (SPFreshLocal.SPFreshIndex.create SPFresh.unitRepr
      ((SPFresh.emptyFs.write "idx.vectors" (List.replicate 768 0)).write "idx.metadata"
        [0, 0, 128, 191, 0, 0, 128, 191]) "idx").1.quantized_vectors = [List.replicate 768 0] ∧
    (SPFreshLocal.SPFreshIndex.create SPFresh.unitRepr
      ((SPFresh.emptyFs.write "idx.vectors" (List.replicate 768 0)).write "idx.metadata"
        [0, 0, 128, 191, 0, 0, 128, 191]) "idx").1.norms = [-1] ∧
    (-1 : ℚ) ≠ SPFresh.calculate_norm
      (SPFresh.dequantize_vector SPFreshLocal.QUANTIZATION_LEVELS (List.replicate 768 0)) ∧
    (SPFreshLocal.SPFreshIndex.create SPFresh.unitRepr
      ((SPFresh.emptyFs.write "idx.vectors" (List.replicate 768 0)).write "idx.metadata"
        [0, 0, 128, 191, 0, 0, 128, 191]) "idx").2.content "idx.metadata" =
      some [0, 0, 128, 191, 0, 0, 128, 191] := by
  have hrep := SPFreshLocal.load_repair SPFresh.unitRepr
    (SPFresh.emptyFs.write "idx.vectors" (List.replicate 768 0))
    (SPFreshLocal.SPFreshIndex.mk "idx" [] [] 768 [] []) [List.replicate 768 0]
    (Nat.succ_ne_zero 767) (List.cons_ne_nil _ _)
    (by
      rw [List.flatten_cons, List.flatten_nil, List.append_nil]
      rfl)
    (by
      intro v hv
      rw [List.mem_singleton.mp hv, List.length_replicate])
    (by
      intro mb h
      have h2 : (none : Option (List ℕ)) = some mb := h
      cases h2)
  have h := SPFreshLocal.load_keep SPFresh.unitRepr
    ((SPFresh.emptyFs.write "idx.vectors" (List.replicate 768 0)).write "idx.metadata"
      [0, 0, 128, 191, 0, 0, 128, 191])
    (SPFreshLocal.SPFreshIndex.mk "idx" [] [] 768 [] []) [List.replicate 768 0]
    [0, 0, 128, 191, 0, 0, 128, 191] (Nat.succ_ne_zero 767) (List.cons_ne_nil _ _)
    (by
      rw [List.flatten_cons, List.flatten_nil, List.append_nil]
      rfl)
    (by
      intro v hv
      rw [List.mem_singleton.mp hv, List.length_replicate]) (by rfl) (by decide)
  have hc : SPFreshLocal.SPFreshIndex.create SPFresh.unitRepr
      ((SPFresh.emptyFs.write "idx.vectors" (List.replicate 768 0)).write "idx.metadata"
        [0, 0, 128, 191, 0, 0, 128, 191]) "idx" =
      (SPFreshLocal.load_index SPFresh.unitRepr
        ((SPFresh.emptyFs.write "idx.vectors" (List.replicate 768 0)).write "idx.metadata"
          [0, 0, 128, 191, 0, 0, 128, 191])
        (SPFreshLocal.SPFreshIndex.mk "idx" [] [] 768 [] [])).2 := rfl
  have hret : SPFreshLocal.SPFreshIndex.create_returns SPFresh.unitRepr
      (SPFresh.emptyFs.write "idx.vectors" (List.replicate 768 0)) "idx" = false := by
    have e : SPFreshLocal.SPFreshIndex.create_returns SPFresh.unitRepr
        (SPFresh.emptyFs.write "idx.vectors" (List.replicate 768 0)) "idx" =
        (SPFreshLocal.load_index SPFresh.unitRepr
          (SPFresh.emptyFs.write "idx.vectors" (List.replicate 768 0))
          (SPFreshLocal.SPFreshIndex.mk "idx" [] [] 768 [] [])).1.isSome := rfl
    rw [e, hrep]
    rfl
  have hthr : SPFreshLocal.SPFreshIndex.create_throws SPFresh.unitRepr SPFresh.ampleHeap
      (SPFresh.emptyFs.write "idx.vectors" (List.replicate 768 0)) "idx" = false := by
    have hcont : (SPFresh.emptyFs.write "idx.vectors" (List.replicate 768 0)).content
        (SPFreshLocal.base_path "idx" ++ ".vectors") = some (List.replicate 768 0) := rfl
    unfold SPFreshLocal.SPFreshIndex.create_throws
    simp only [hcont, List.length_replicate]
    rw [if_neg (by decide), SPFresh.resize_throws_ample 1 768 (by decide),
      SPFresh.resize_throws_ample SPFresh.VECTOR_SIZE (768 / 768) (by decide),
      SPFresh.resize_throws_ample 4 (768 / 768) (by decide),
      SPFresh.resize_throws_ample 4 768 (by decide), Bool.and_false]
    rfl
  rw [hc, h, hrep]
  refine ⟨rfl, rfl, rfl, ?_, rfl, rfl, rfl, ?_, rfl⟩
  · unfold SPFreshLocal.spfresh_index_create
    simp only [hthr, hret, Bool.false_eq_true, if_false]
  · have := SPFresh.calculate_norm_nonneg
      (SPFresh.dequantize_vector SPFreshLocal.QUANTIZATION_LEVELS (List.replicate 768 0))
    intro h
    rw [← h] at this
    norm_num at this

namespace SPFreshLocal
open SPFresh

/-- The result of `negAppended`: status 0, the vector in the store and in the write buffer,
no file written. -/
theorem negAppended_eq :
    negAppended = (0, SPFreshIndex.mk "idx" [31 :: List.replicate 767 (quantize 127 0)] [1] 768
      [31 :: List.replicate 767 (quantize 127 0)] [1], emptyFs) := by
  unfold negAppended
  rw [freshIndex_eq_local, append_eq_local _ _ _ _ _ rfl (by decide)]
  have hr : readBuf (padded (-1)) 768 = padded (-1) := readBuf_padded (-1) 767
  rw [hr, norm_padded_neg_one]
  unfold padded QUANTIZATION_LEVELS
  rw [quantize_vector_padded, quantize_127_neg_one]
  rfl

/-- The score of the stored vector of `negAppended` for the query `padded (-1)`. -/
theorem negAppended_scan :
    scan 127 negAppended.2.1.quantized_vectors negAppended.2.1.norms (padded (-1)) 768
      = [(2146691 / 2097152, 0)] := by
  rw [negAppended_eq]
  have hr : readBuf (padded (-1)) 768 = padded (-1) := readBuf_padded (-1) 767
  have hd0 : dot_product 127 (padded (-1)) (31 :: List.replicate 767 (quantize 127 0)) 768
      = 2146691 / 2097152 := by
    unfold padded
    exact dot_padded 127 (-1) (2146691 / 2097152) 31 _ 767 (by rw [List.length_replicate])
      (by rw [dequantize_127_31]
          unfold F32.add F32.mul
          norm_num
          rw [rnd_score_high, rnd_score_high])
      rnd_score_high
  have hs0 : similarity 1 1 (2146691 / 2097152) = 2146691 / 2097152 := by
    unfold similarity
    rw [if_pos (by norm_num)]
    unfold F32.div F32.mul
    norm_num
    rw [F32.rnd_one]
    norm_num
    exact rnd_score_high
  simp only [scan, List.length_cons, List.length_nil, List.range_succ, List.range_zero,
    List.nil_append, List.cons_append, List.map_cons, List.map_nil, hr, norm_padded_neg_one,
    List.getD_cons_zero, List.getD_cons_succ, zero_add]
  rw [hd0, hs0]

theorem negAppended_search :
    search negAppended.2.1 (padded (-1)) 768 1 [9] [9]
      = (0, negAppended.2.1, [0], [2146691 / 2097152]) := by
  rw [search_eval_local negAppended.2.1 (padded (-1)) 768 1 [9] [9] _
    (by rw [negAppended_eq]) (by norm_num)
    (by rw [negAppended_eq]; exact List.cons_ne_nil _ _) negAppended_scan]
  have hl : negAppended.2.1.quantized_vectors.length = 1 := by
    rw [negAppended_eq]
    rfl
  rw [hl]
  simp [write_results, std_sort, sort_insert, List.range_succ]

theorem negAppended_status : negAppended.1 = 0 := by
  rw [negAppended_eq]

end SPFreshLocal

/-! ## C19: range of the scores -/

/-- C19, counterexample: on the split-file index constructed on a fresh path, append the
768-element vector `v = [-1, 0, …, 0]` (status 0) and search for `v` with `top_k = 1`.
The stored norm is that of `v`, which is 1, while the first entry is stored as level 31 and
dequantized to `-2146691/2097152`, so the returned score is `2146691/2097152`, about
`1.0236`, above 1. -/
theorem score_above_one :
    SPFreshLocal.negAppended.1 = 0 ∧
    SPFreshLocal.negAppended.2.1.norms = [SPFresh.calculate_norm (SPFresh.padded (-1))] ∧
    SPFresh.calculate_norm (SPFresh.padded (-1)) = 1 ∧
    SPFreshLocal.search SPFreshLocal.negAppended.2.1 (SPFresh.padded (-1)) 768 1 [9] [9]
      = (0, SPFreshLocal.negAppended.2.1, [0], [2146691 / 2097152]) ∧
    ¬ ((-1 : ℚ) ≤ 2146691 / 2097152 ∧ (2146691 / 2097152 : ℚ) ≤ 1) := by
  refine ⟨SPFreshLocal.negAppended_status, ?_, SPFresh.norm_padded_neg_one,
    SPFreshLocal.negAppended_search, by norm_num⟩
  rw [SPFreshLocal.negAppended_eq, SPFresh.norm_padded_neg_one]

/-- C19, amended.  In the split-file layout, for every store built by appending the vectors
`vs` to an empty index (each append returns 0) and every query, each pair `(id, score)`
returned by a successful search has
`score = dot(query, dequantize_vector(quantize_vector(vs[id]))) / (norm(query) * norm(vs[id]))`
in float arithmetic when both norms are positive and `score = 0` otherwise: the stored norm
is that of the original vector and the dot product uses the dequantized one. -/
theorem search_scores_after_appends (fr : SPFresh.FloatRepr) (fs : SPFresh.FileSys)
    (s : SPFreshLocal.SPFreshIndex) (vs : List (List ℚ))
    (q : List ℚ) (dim k : ℕ) (ri : List ℕ) (rs : List ℚ)
    (h0 : s.quantized_vectors = []) (h1 : s.norms = [])
    (h : (SPFreshLocal.search (SPFreshLocal.append_all fr fs s vs).2.1 q dim k ri rs).1 = 0)
    (hri : min k vs.length ≤ ri.length) (hrs : min k vs.length ≤ rs.length) :
    (SPFreshLocal.append_all fr fs s vs).1 = List.replicate vs.length 0 ∧
    (SPFreshLocal.append_all fr fs s vs).2.1.norms =
      vs.map (fun v => SPFresh.calculate_norm (SPFresh.readBuf v s.dimension)) ∧
    (∀ i, i < min k vs.length → ∃ id, id < vs.length ∧
      (SPFreshLocal.search (SPFreshLocal.append_all fr fs s vs).2.1 q dim k ri rs).2.2.1[i]?
        = some id ∧
      (SPFreshLocal.search (SPFreshLocal.append_all fr fs s vs).2.1 q dim k ri rs).2.2.2[i]? =
        some (SPFresh.similarity (SPFresh.calculate_norm (SPFresh.readBuf q dim))
          (SPFresh.calculate_norm (SPFresh.readBuf (vs.getD id []) s.dimension))
          (SPFresh.dot_product SPFreshLocal.QUANTIZATION_LEVELS q
            (SPFresh.quantize_vector SPFreshLocal.QUANTIZATION_LEVELS
              (SPFresh.readBuf (vs.getD id []) s.dimension)) dim))) := by
  obtain ⟨b1, b2, b3, _, _, b6⟩ := SPFreshLocal.append_all_fields fr vs fs s
  rw [h0, List.nil_append] at b1
  rw [h1, List.nil_append] at b2
  refine ⟨b6, b2, ?_⟩
  unfold SPFreshLocal.search at h ⊢
  simp only [] at h ⊢
  rw [b1, b2, b3] at h ⊢
  exact fun i hi => SPFresh.search_core_scores_of _ _ _ vs q dim k ri rs h hri hrs i hi

/-- C19, witness: one append of `[-1, 0, …, 0]` to the split-file index constructed on a
fresh path, then a search for the same vector with `top_k = 1`. -/
theorem search_scores_after_appends_witness :
    (SPFreshLocal.append_all SPFresh.zeroRepr SPFresh.emptyFs SPFreshLocal.freshIndex
      [SPFresh.padded (-1)]).1 = List.replicate [SPFresh.padded (-1)].length 0 ∧
    (SPFreshLocal.append_all SPFresh.zeroRepr SPFresh.emptyFs SPFreshLocal.freshIndex
      [SPFresh.padded (-1)]).2.1.norms =
      [SPFresh.padded (-1)].map (fun v => SPFresh.calculate_norm
        (SPFresh.readBuf v SPFreshLocal.freshIndex.dimension)) ∧
    (∀ i, i < min 1 [SPFresh.padded (-1)].length → ∃ id, id < [SPFresh.padded (-1)].length ∧
      (SPFreshLocal.search (SPFreshLocal.append_all SPFresh.zeroRepr SPFresh.emptyFs
        SPFreshLocal.freshIndex [SPFresh.padded (-1)]).2.1 (SPFresh.padded (-1)) 768 1 [9]
        [9]).2.2.1[i]? = some id ∧
      (SPFreshLocal.search (SPFreshLocal.append_all SPFresh.zeroRepr SPFresh.emptyFs
        SPFreshLocal.freshIndex [SPFresh.padded (-1)]).2.1 (SPFresh.padded (-1)) 768 1 [9]
        [9]).2.2.2[i]? =
        some (SPFresh.similarity
          (SPFresh.calculate_norm (SPFresh.readBuf (SPFresh.padded (-1)) 768))
          (SPFresh.calculate_norm (SPFresh.readBuf ([SPFresh.padded (-1)].getD id [])
            SPFreshLocal.freshIndex.dimension))
          (SPFresh.dot_product SPFreshLocal.QUANTIZATION_LEVELS (SPFresh.padded (-1))
            (SPFresh.quantize_vector SPFreshLocal.QUANTIZATION_LEVELS
              (SPFresh.readBuf ([SPFresh.padded (-1)].getD id [])
                SPFreshLocal.freshIndex.dimension)) 768))) :=
  search_scores_after_appends SPFresh.zeroRepr SPFresh.emptyFs SPFreshLocal.freshIndex
    [SPFresh.padded (-1)] (SPFresh.padded (-1)) 768 1 [9] [9] rfl rfl (by decide) (by decide)
    (by decide)
